import Mathlib

/-!
# Schema derivation of `api/oapi/custom.go`

A shallow embedding of the schema synthesis engine: the type walker `dive`,
the registry operations `getOrCreateSchema` / `createSchema`, the tag annotator
`parseStructTags` and the entry point `SchemaTagFromType`.

Conventions of the embedding.

* A `reflect.Type` is a handle `RType` interpreted by a `TypeGraph`, which
  answers the observations the code makes (`Kind`, `Name`, `Elem`, `Field`,
  `NumField`).  Handles may refer to each other cyclically.
* A Go panic is the outcome `panic`; recursion that is not bounded by the code
  itself (the annotator following embedded fields) is given a fuel argument and
  the outcome `outOfFuel`.
* The `customOpenAPI` object is the explicit state `OpenAPI`: the schema
  registry and the state of the external schema generator.
* The external generator (`openapi3gen`) is a parameter `Generator`.
* Go `int` is 64 bit; `uint64(x)` is reduction modulo `2^64`.
-/

namespace Oapi

/-! ## Outcomes -/

/-- Result of running a piece of Go code: a value, a runtime panic, or no
result within the fuel given. -/
inductive Outcome (α : Type) where
  | ok (a : α)
  | panic
  | outOfFuel

namespace Outcome

/-- Sequencing of outcomes: the first abnormal outcome wins. -/
def bind {α β : Type} (x : Outcome α) (f : α → Outcome β) : Outcome β :=
  match x with
  | ok a => f a
  | panic => panic
  | outOfFuel => outOfFuel

/-- The outcome is a normal return. -/
def isOk {α : Type} : Outcome α → Bool
  | ok _ => true
  | _ => false

end Outcome

/-! ## Go standard library functions used by the code -/

/-- Splitting of a character list at every occurrence of `sep`
(`strings.Split` with a one-character separator; never the empty list). -/
def splitChars (sep : Char) : List Char → List (List Char)
  | [] => [[]]
  | c :: cs =>
    if c = sep then [] :: splitChars sep cs
    else
      match splitChars sep cs with
      | [] => [[c]]
      | w :: ws => (c :: w) :: ws

/-- Go `strings.Split(s, sep)` for a one-character separator. -/
def split (s : String) (sep : Char) : List String :=
  (splitChars sep s.toList).map String.mk

/-- Go `strings.HasPrefix(s, p)`. -/
def hasPrefix (s p : String) : Bool :=
  p.toList.isPrefixOf s.toList

/-- Whether `p` occurs in `cs` as a contiguous block. -/
def containsChars (p : List Char) : List Char → Bool
  | [] => p.isPrefixOf []
  | c :: cs => p.isPrefixOf (c :: cs) || containsChars p cs

/-- Go `strings.Contains(s, sub)`. -/
def strContains (s sub : String) : Bool :=
  containsChars sub.toList s.toList

/-- Value of a decimal digit, `none` for any other character. -/
def digitVal (c : Char) : Option Nat :=
  if c = '0' then some 0
  else if c = '1' then some 1
  else if c = '2' then some 2
  else if c = '3' then some 3
  else if c = '4' then some 4
  else if c = '5' then some 5
  else if c = '6' then some 6
  else if c = '7' then some 7
  else if c = '8' then some 8
  else if c = '9' then some 9
  else none

/-- Decimal value of a digit string read left to right from accumulator `acc`,
without bound; `none` if a character is not a digit. -/
def parseDigits : List Char → Nat → Option Nat
  | [], acc => some acc
  | c :: cs, acc =>
    match digitVal c with
    | none => none
    | some d => parseDigits cs (acc * 10 + d)

/-- What the digit loop of `strconv.ParseUint` gives: the value read, a syntax
error or a range error. -/
inductive UintResult where
  | value (n : Nat)
  | syntaxError
  | rangeError
deriving DecidableEq, Repr

/-- The digit loop of Go `strconv.ParseUint(s, 10, 64)` from the value `n` read
so far, character by character: a character that is not a digit is a syntax
error; a digit that takes the value above `2^64 - 1` is a range error, which is
reported at once, whatever characters follow. -/
def parseUintLoop : List Char → Nat → UintResult
  | [], n => .value n
  | c :: cs, n =>
    match digitVal c with
    | none => .syntaxError
    | some d =>
      if n ≥ 1844674407370955162 then .rangeError
      else if n * 10 + d > 18446744073709551615 then .rangeError
      else parseUintLoop cs (n * 10 + d)

/-- Go `strconv.Atoi` on a 64-bit platform: the value and whether an error was
reported.  A syntax error (no digit after the optional sign, or a character
that is not a digit) gives value `0`; a range error, of `ParseUint` or of the
signed value, gives the nearest bound of `int64`. -/
def Atoi (s : String) : Int × Bool :=
  let cs := s.toList
  let neg : Bool := match cs with
    | c :: _ => decide (c = '-')
    | [] => false
  let ds : List Char := match cs with
    | c :: r => if c = '-' ∨ c = '+' then r else cs
    | [] => cs
  if ds = [] then (0, true)
  else
    match parseUintLoop ds 0 with
    | .syntaxError => (0, true)
    | .rangeError =>
      if neg then (-9223372036854775808, true) else (9223372036854775807, true)
    | .value v =>
      if neg then
        if v > 9223372036854775808 then (-9223372036854775808, true) else (-(v : Int), false)
      else
        if v ≥ 9223372036854775808 then (9223372036854775807, true) else ((v : Int), false)

/-- Go conversion `uint64(x)` of an `int`. -/
def toUint64 (x : Int) : Nat :=
  (x % 18446744073709551616).toNat

/-- Nearest integer representable as a `float64` (ties to even). -/
def float64OfNat (n : Nat) : Nat :=
  let bits := if n = 0 then 0 else Nat.log2 n + 1
  if bits ≤ 53 then n
  else
    let sh := bits - 53
    let q := n / 2 ^ sh
    let r := n % 2 ^ sh
    let half := 2 ^ (sh - 1)
    let q1 := if r > half ∨ (r = half ∧ q % 2 = 1) then q + 1 else q
    q1 * 2 ^ sh

/-- Go conversion `float64(x)` of an `int`, as the integer the result denotes. -/
def float64OfInt (x : Int) : Int :=
  if x < 0 then -((float64OfNat x.natAbs : Nat) : Int) else ((float64OfNat x.toNat : Nat) : Int)

/-- Lookup in a Go map kept as an association list. -/
def mapGet {β : Type} : List (String × β) → String → Option β
  | [], _ => none
  | (k, v) :: rest, key => if k = key then some v else mapGet rest key

/-- Assignment `m[key] = v` on a Go map kept as an association list: an
existing key keeps its position, a new key is added at the end. -/
def mapSet {β : Type} : List (String × β) → String → β → List (String × β)
  | [], key, v => [(key, v)]
  | (k, w) :: rest, key, v =>
    if k = key then (k, v) :: rest else (k, w) :: mapSet rest key v

/-! ## Data model (`openapi3`, `fuego`) -/

/-- An `openapi3.SchemaRef` over schemas of type `α`: a reference string and a
possibly nil schema pointer. -/
structure SchemaRefOf (α : Type) where
  ref : String
  value : Option α

/-- The `example` of a schema (`any`): nil, a string or an integer. -/
inductive ExampleVal where
  | absent
  | str (s : String)
  | int (n : Int)
deriving DecidableEq, Repr

/-- An `openapi3.XML` object. -/
structure XML where
  name : String
  attr : Bool
deriving DecidableEq, Repr

/-- The fields of `openapi3.Schema` that the code reads or writes.  `type` is
the list behind the `*Types` pointer (nil is the empty list); `min` and `max`
hold the integer a `float64` denotes. -/
structure Schema where
  type : List String
  properties : List (String × SchemaRefOf Schema)
  required : List String
  items : Option (SchemaRefOf Schema)
  description : String
  exampleValue : ExampleVal
  nullable : Bool
  min : Option Int
  max : Option Int
  minLength : Nat
  maxLength : Option Nat
  xml : Option XML

/-- An `openapi3.SchemaRef`. -/
abbrev SchemaRef := SchemaRefOf Schema

/-- The zero value of `openapi3.Schema`. -/
def Schema.zero : Schema :=
  { type := [], properties := [], required := [], items := none, description := "",
    exampleValue := .absent, nullable := false, min := none, max := none,
    minLength := 0, maxLength := none, xml := none }

/-- Method `(*Types).Is`. -/
def Schema.typeIs (s : Schema) (typ : String) : Bool :=
  decide (s.type = [typ])

/-- Function `openapi3.NewArraySchema()`. -/
def NewArraySchema : Schema :=
  { Schema.zero with type := ["array"] }

/-- A `fuego.SchemaTag`: the embedded `SchemaRef` (`ref`, `value`) and `Name`. -/
structure SchemaTag where
  name : String
  ref : String
  value : Option Schema

/-- The embedded `openapi3.SchemaRef` of a tag. -/
def SchemaTag.schemaRef (t : SchemaTag) : SchemaRef :=
  { ref := t.ref, value := t.value }

/-- The zero value `fuego.SchemaTag{}`. -/
def SchemaTag.zero : SchemaTag :=
  { name := "", ref := "", value := none }

/-- The schema registry `Components.Schemas`. -/
abbrev Registry := List (String × SchemaRef)

/-- State of a `customOpenAPI`: the registry and the state of its generator. -/
structure OpenAPI (σ : Type) where
  schemas : Registry
  genState : σ

/-! ## Runtime types (`reflect`) -/

/-- Values of `reflect.Kind`. -/
inductive Kind where
  | invalid | bool | int | int8 | int16 | int32 | int64
  | uint | uint8 | uint16 | uint32 | uint64 | uintptr
  | float32 | float64 | complex64 | complex128
  | array | chan | func | interface | map | ptr | slice | string | struct
  | unsafePointer
deriving DecidableEq, Repr

/-- A handle on a `reflect.Type`: a type of the program, the pointer type to a
type (`reflect.New`), or the unnamed empty struct `struct{}`. -/
inductive RType where
  | node (id : Nat)
  | ptrTo (t : RType)
  | emptyStruct
deriving DecidableEq, Repr

/-- A `reflect.StructField`; `tag` is the struct tag as its key/value pairs in
source order. -/
structure StructField where
  name : String
  type : RType
  anonymous : Bool
  tag : List (String × String)

/-- Method `StructTag.Lookup`. -/
def StructField.tagLookup (f : StructField) (key : String) : Option String :=
  mapGet f.tag key

/-- Method `StructTag.Get`. -/
def StructField.tagGet (f : StructField) (key : String) : String :=
  (f.tagLookup key).getD ""

/-- What reflection reports for a type of the program. -/
structure TypeDesc where
  kind : Kind
  name : String
  elem : RType
  key : RType
  fields : List StructField

/-- The types of a program: the description of each node and, for each type,
the string `Description()` returns on a sample value when the type implements
`fuego.OpenAPIDescriptioner`. -/
structure TypeGraph where
  desc : Nat → TypeDesc
  describe : RType → Option String

namespace TypeGraph

/-- Method `Type.Kind`. -/
def kind (G : TypeGraph) : RType → Kind
  | .node i => (G.desc i).kind
  | .ptrTo _ => .ptr
  | .emptyStruct => .struct

/-- Method `Type.Name`: empty for unnamed types. -/
def name (G : TypeGraph) : RType → String
  | .node i => (G.desc i).name
  | .ptrTo _ => ""
  | .emptyStruct => ""

/-- Method `Type.Elem`: `none` (a panic) unless the kind is array, chan, map,
pointer or slice. -/
def elem (G : TypeGraph) : RType → Option RType
  | .node i =>
    match (G.desc i).kind with
    | .array | .chan | .map | .ptr | .slice => some (G.desc i).elem
    | _ => none
  | .ptrTo t => some t
  | .emptyStruct => none

/-- The declared fields of a struct type (empty for other kinds). -/
def fields (G : TypeGraph) : RType → List StructField
  | .node i =>
    match (G.desc i).kind with
    | .struct => (G.desc i).fields
    | _ => []
  | .ptrTo _ => []
  | .emptyStruct => []

/-- Method `Type.Field(i)`: `none` (a panic) when out of range. -/
def field (G : TypeGraph) (t : RType) (i : Nat) : Option StructField :=
  (G.fields t)[i]?

/-- The description a sample value of the type gives of itself, if any. -/
def descriptionOf (G : TypeGraph) : RType → Option String
  | .emptyStruct => none
  | t => G.describe t

end TypeGraph

/-! ## Tag annotator (`parseStructTags`) -/

/-- First element of a `strings.Split` result (index `[0]`; the result is never
empty). -/
def firstPart (parts : List String) : String :=
  parts.headD ""

/-- Name portion of the JSON tag of a field: the `json` tag up to the first
comma. -/
def jsonTagName (f : StructField) : String :=
  firstPart (split (f.tagGet "json") ',')

/-- The XML block of the loop body on the property copy: `none` stands for the
`continue` taken when the name portion of the tag is `-`. -/
def applyXML (f : StructField) (pv : Schema) : Option Schema :=
  match f.tagLookup "xml" with
  | none => some pv
  | some xmlTag =>
    let xmlTagName := firstPart (split xmlTag ',')
    if xmlTagName = "-" then none
    else
      let xmlTagName := if xmlTagName = "" then f.name else xmlTagName
      let xmlTags := split xmlTag ','
      some { pv with xml := some { name := xmlTagName, attr := xmlTags.contains "attr" } }

/-- The example block of the loop body on the property copy. -/
def applyExample (f : StructField) (pv : Schema) : Schema :=
  match f.tagLookup "example" with
  | none => pv
  | some ex =>
    if pv.typeIs "integer" then { pv with exampleValue := .int (Atoi ex).1 }
    else { pv with exampleValue := .str ex }

/-- The `min=` branch for one validation directive; index `[1]` of the split
at `=` panics when absent. -/
def applyMin (pv : Schema) (validateTag : String) : Outcome Schema :=
  if hasPrefix validateTag "min=" then
    match (split validateTag '=')[1]? with
    | none => .panic
    | some arg =>
      let min := (Atoi arg).1
      if pv.typeIs "integer" then .ok { pv with min := some (float64OfInt min) }
      else if pv.typeIs "string" then .ok { pv with minLength := toUint64 min }
      else .ok pv
  else .ok pv

/-- The `max=` branch for one validation directive. -/
def applyMax (pv : Schema) (validateTag : String) : Outcome Schema :=
  if hasPrefix validateTag "max=" then
    match (split validateTag '=')[1]? with
    | none => .panic
    | some arg =>
      let max := (Atoi arg).1
      if pv.typeIs "integer" then .ok { pv with max := some (float64OfInt max) }
      else if pv.typeIs "string" then .ok { pv with maxLength := some (toUint64 max) }
      else .ok pv
  else .ok pv

/-- The loop over the validation directives on the property copy. -/
def applyDirectives : List String → Schema → Outcome Schema
  | [], pv => .ok pv
  | d :: ds, pv => ((applyMin pv d).bind (fun pv1 => applyMax pv1 d)).bind (applyDirectives ds)

/-- The description and nullable blocks of the loop body on the property copy. -/
def applyDescription (f : StructField) (pv : Schema) : Schema :=
  let pv1 := match f.tagLookup "description" with
    | some d => { pv with description := d }
    | none => pv
  match f.tagLookup "json" with
  | some jsonTag => if strContains jsonTag ",omitempty" then { pv1 with nullable := true } else pv1
  | none => pv1

/-- The list `schemaRef.Value.Required` after the validation block for a field
resolved to `jsonFieldName`. -/
def requiredAfter (f : StructField) (jsonFieldName : String) (required : List String) :
    List String :=
  match f.tagLookup "validate" with
  | some validateTag =>
    if (split validateTag ',').contains "required" then required ++ [jsonFieldName] else required
  | none => required

/-- The property key of a field that is not skipped: the name portion of the
JSON tag, or the declared field name when that is empty. -/
def resolvedName (f : StructField) : String :=
  if jsonTagName f = "" then f.name else jsonTagName f

/-- Loop body of `parseStructTags` for a field that is not embedded. -/
def parseField (f : StructField) (s : Schema) : Outcome Schema :=
  if jsonTagName f = "-" then .ok s
  else
    let jsonFieldName := resolvedName f
    match mapGet s.properties jsonFieldName with
    | none => .ok s
    | some property =>
      match property.value with
      | none => .panic
      | some propertyValue =>
        match applyXML f propertyValue with
        | none => .ok s
        | some pv1 =>
          let pv2 := applyExample f pv1
          let validateTags := split (f.tagGet "validate") ','
          let s1 := { s with required := requiredAfter f jsonFieldName s.required }
          (applyDirectives validateTags pv2).bind (fun pv3 =>
            let pv4 := applyDescription f pv3
            .ok { s1 with
                  properties := mapSet s1.properties jsonFieldName
                    { property with value := some pv4 } })

/-- The `for` loop of `parseStructTags` over the declared fields; `recurse` is
the recursive call made for an embedded field. -/
def parseFields (recurse : RType → Schema → Outcome Schema) :
    List StructField → Schema → Outcome Schema
  | [], s => .ok s
  | f :: fs, s =>
    (if f.anonymous then recurse f.type s else parseField f s).bind (parseFields recurse fs)

/-- Body of `parseStructTags` with the recursive call abstracted. -/
def parseStructTagsBody (G : TypeGraph) (recurse : RType → Schema → Outcome Schema)
    (t : RType) (s : Schema) : Outcome Schema :=
  if G.kind t = .ptr then
    match G.elem t with
    | none => .panic
    | some t1 =>
      if G.kind t1 ≠ .struct then .ok s else parseFields recurse (G.fields t1) s
  else
    if G.kind t ≠ .struct then .ok s else parseFields recurse (G.fields t) s

/-- Function `parseStructTags(t, schemaRef)` on the schema `schemaRef.Value`.
The fuel bounds the nesting of the recursion through embedded fields, which the
code does not bound. -/
def parseStructTags (G : TypeGraph) : Nat → RType → Schema → Outcome Schema
  | 0, t, s => parseStructTagsBody G (fun _ _ => .outOfFuel) t s
  | fuel + 1, t, s => parseStructTagsBody G (parseStructTags G fuel) t s

/-! ## Schema registry (`getOrCreateSchema`, `createSchema`) -/

/-- The external generator `Generator().NewSchemaRefForValue(v, schemas)`: from
its own state, the type of the sample value and the registry it is handed, the
schema reference it returns (`none` when it reports an error), the registry it
leaves and its new state. -/
abbrev Generator (σ : Type) := σ → RType → Registry → Option SchemaRef × Registry × σ

/-- Method `createSchema(key, v)`; `v` is the type of the sample value.  A nil
result of the generator, or one without a schema, is a nil dereference. -/
def createSchema {σ : Type} (G : TypeGraph) (gen : Generator σ) (fuel : Nat)
    (o : OpenAPI σ) (key : String) (v : RType) : Outcome (SchemaRef × OpenAPI σ) :=
  match gen o.genState v o.schemas with
  | (none, _, _) => .panic
  | (some schemaRef, schemas1, st1) =>
    match schemaRef.value with
    | none => .panic
    | some s =>
      let s1 := { s with description := key ++ " schema" }
      let s2 := match G.descriptionOf v with
        | some d => { s1 with description := d }
        | none => s1
      (parseStructTags G fuel v s2).bind (fun s3 =>
        let schemaRef1 : SchemaRef := { schemaRef with value := some s3 }
        .ok (schemaRef1, { schemas := mapSet schemas1 key schemaRef1, genState := st1 }))

/-- Method `getOrCreateSchema(key, v)`: the schema pointer returned and the
state left. -/
def getOrCreateSchema {σ : Type} (G : TypeGraph) (gen : Generator σ) (fuel : Nat)
    (o : OpenAPI σ) (key : String) (v : RType) : Outcome (Option Schema × OpenAPI σ) :=
  match mapGet o.schemas key with
  | some schemaRef => .ok (schemaRef.value, o)
  | none =>
    (createSchema G gen fuel o key v).bind (fun r => .ok (r.1.value, r.2))

/-! ## Type walker (`dive`, `SchemaTagFromType`) -/

/-- The tag returned at depth budget zero. -/
def sentinelTag : SchemaTag :=
  { name := "default", ref := "#/components/schemas/default", value := none }

/-- Function `dive(openapi, t, tag, maxDepth)`.  The budget is a natural number:
the only caller passes `5` and every recursive call passes `maxDepth-1`,
stopping at `0`. -/
def dive {σ : Type} (G : TypeGraph) (gen : Generator σ) (fuel : Nat) :
    Nat → OpenAPI σ → RType → SchemaTag → Outcome (SchemaTag × OpenAPI σ)
  | 0, o, _, _ => .ok (sentinelTag, o)
  | maxDepth + 1, o, t, tag =>
    match G.kind t with
    | .ptr | .map | .chan | .func | .unsafePointer =>
      match G.elem t with
      | none => .panic
      | some e => dive G gen fuel maxDepth o e tag
    | .slice | .array =>
      match G.elem t with
      | none => .panic
      | some e =>
        (dive G gen fuel maxDepth o e tag).bind (fun r =>
          .ok ({ tag with
                 name := r.1.name
                 value := some { NewArraySchema with items := some r.1.schemaRef } }, r.2))
    | _ =>
      let tag1 := { tag with name := G.name t }
      if G.kind t = .struct ∧ hasPrefix tag1.name "DataOrTemplate" then
        match G.field t 0 with
        | none => .panic
        | some f => dive G gen fuel maxDepth o f.type tag1
      else
        let tag2 := { tag1 with ref := "#/components/schemas/" ++ tag1.name }
        (getOrCreateSchema G gen fuel o tag2.name (.ptrTo t)).bind (fun r =>
          .ok ({ tag2 with value := r.1 }, r.2))

/-- Function `SchemaTagFromType(openapi, v)`; `none` is the nil interface,
`some t` a value of dynamic type `t`. -/
def SchemaTagFromType {σ : Type} (G : TypeGraph) (gen : Generator σ) (fuel : Nat)
    (o : OpenAPI σ) (v : Option RType) : Outcome (SchemaTag × OpenAPI σ) :=
  match v with
  | none =>
    (getOrCreateSchema G gen fuel o "unknown-interface" .emptyStruct).bind (fun r =>
      .ok ({ name := "unknown-interface", ref := "#/components/schemas/unknown-interface",
             value := r.1 }, r.2))
  | some t => dive G gen fuel 5 o t SchemaTag.zero

/-! ## Nesting of a type -/

/-- The type found under `k` levels of pointer, map, channel, slice or array
nesting of `t`, if `t` has that many. -/
def TypeGraph.strip (G : TypeGraph) : Nat → RType → Option RType
  | 0, t => some t
  | k + 1, t =>
    match G.kind t with
    | .ptr | .map | .chan | .slice | .array =>
      match G.elem t with
      | none => none
      | some e => G.strip k e
    | _ => none

/-- A leaf of the walker that is registered under its own name: neither an
indirection or collection kind nor a struct named with the wrapper prefix. -/
def TypeGraph.isLeaf (G : TypeGraph) (t : RType) : Bool :=
  match G.kind t with
  | .ptr | .map | .chan | .func | .unsafePointer | .slice | .array => false
  | .struct => !hasPrefix (G.name t) "DataOrTemplate"
  | _ => true

/-- The tag built around the tag `leaf` of the innermost type by the `k` outer
levels of `t`: a slice or array level wraps the item tag in an array schema and
keeps the item's name, any other level passes the tag on. -/
def wrapTag (G : TypeGraph) : Nat → RType → SchemaTag → SchemaTag
  | 0, _, leaf => leaf
  | k + 1, t, leaf =>
    match G.elem t with
    | none => leaf
    | some e =>
      match G.kind t with
      | .slice | .array =>
        { name := (wrapTag G k e leaf).name
          ref := ""
          value := some { NewArraySchema with items := some (wrapTag G k e leaf).schemaRef } }
      | _ => wrapTag G k e leaf

/-- The reference string found innermost in a schema reference, going through
the `items` of one array schema for each slice or array level among the `k`
outer levels of `t`. -/
def innermostRef (G : TypeGraph) : Nat → RType → SchemaRef → Option String
  | 0, _, r => some r.ref
  | k + 1, t, r =>
    match G.elem t with
    | none => none
    | some e =>
      match G.kind t with
      | .slice | .array =>
        match r.value with
        | none => none
        | some s =>
          match s.items with
          | none => none
          | some it => innermostRef G k e it
      | _ => innermostRef G k e r

/-! ## The types of `main.go` and further sample types -/

/-- A field that is not embedded. -/
def mkField (name : String) (t : RType) (tag : List (String × String)) : StructField :=
  { name := name, type := t, anonymous := false, tag := tag }

/-- An embedded field. -/
def mkEmbedded (name : String) (t : RType) (tag : List (String × String)) : StructField :=
  { name := name, type := t, anonymous := true, tag := tag }

/-- A type without element type and fields. -/
def basicType (k : Kind) (name : String) : TypeDesc :=
  { kind := k, name := name, elem := .emptyStruct, key := .emptyStruct, fields := [] }

/-- A struct type. -/
def structType (name : String) (fields : List StructField) : TypeDesc :=
  { kind := .struct, name := name, elem := .emptyStruct, key := .emptyStruct, fields := fields }

/-- Sample types.  Nodes 0 to 5 are `string`, `MyValue`, `[]MyValue`,
`MyInput`, `Health` and `int` of `main.go`; the others are
`type Loop []Loop` (6), `type Callback func()` (7),
`type Node struct { *Node }` with a JSON tag (8), `map[string]MyValue` (9),
`map[int]MyValue` (10), `[]****MyValue` (11), a wrapper struct
`DataOrTemplate[MyInput]` whose first field has type `****MyInput` (12),
`type Base struct { ID int }` (13) and `type Derived struct { Base; Name string }` (14)
and its flattened form (15), a struct `Person` with the field of the tag
mapping example (16), a struct `Wide` with the same field but `min=2^63` (17)
`type Hidden struct { Base }` with the JSON tag `-` on the embedded field (18),
a struct `Flags` whose field `Attr` has the XML tag `attr` (19), a wrapper
struct `DataOrTemplate[MyValue]` whose first field has type `MyValue` (20),
a struct `Documented` with a method `Description()` that returns
`A documented input` (21) and a wrapper struct whose first field has type
`***MyValue` (22). -/
def sampleGraph : TypeGraph where
  desc
    | 0 => basicType .string "string"
    | 1 => structType "MyValue"
        [mkField "Value" (.node 0)
          [("json", "value"), ("xml", "value,attr"), ("example", "example value")]]
    | 2 => { kind := .slice, name := "", elem := .node 1, key := .emptyStruct, fields := [] }
    | 3 => structType "MyInput"
        [mkField "Name" (.node 0)
          [("json", "name"), ("xml", "name,attr"), ("validate", "required"),
           ("example", "Hello, Carmack")],
         mkField "Values" (.node 2) [("json", "values"), ("xml", "values")]]
    | 4 => structType "Health"
        [mkField "Status" (.node 0)
          [("json", "status"), ("xml", "Status,attr"), ("example", "ok")],
         mkField "Input" (.node 3) [("json", "input"), ("xml", "input")]]
    | 5 => basicType .int "int"
    | 6 => { kind := .slice, name := "Loop", elem := .node 6, key := .emptyStruct, fields := [] }
    | 7 => basicType .func "Callback"
    | 8 => structType "Node" [mkEmbedded "Node" (.ptrTo (.node 8)) [("json", "node")]]
    | 9 => { kind := .map, name := "", elem := .node 1, key := .node 0, fields := [] }
    | 10 => { kind := .map, name := "", elem := .node 1, key := .node 5, fields := [] }
    | 11 => { kind := .slice, name := "", elem := .ptrTo (.ptrTo (.ptrTo (.ptrTo (.node 1)))),
              key := .emptyStruct, fields := [] }
    | 12 => structType "DataOrTemplate[MyInput]"
        [mkField "Data" (.ptrTo (.ptrTo (.ptrTo (.ptrTo (.node 3))))) [],
         mkField "Template" (.node 0) []]
    | 13 => structType "Base" [mkField "ID" (.node 5) [("json", "id"), ("validate", "required,min=1")]]
    | 14 => structType "Derived"
        [mkEmbedded "Base" (.node 13) [],
         mkField "Name" (.node 0) [("json", "name"), ("validate", "required")]]
    | 15 => structType "Flat"
        [mkField "ID" (.node 5) [("json", "id"), ("validate", "required,min=1")],
         mkField "Name" (.node 0) [("json", "name"), ("validate", "required")]]
    | 16 => structType "Person"
        [mkField "Name" (.node 0)
          [("json", "name"), ("xml", "name,attr"), ("validate", "required,min=1,max=10"),
           ("example", "Carmack")]]
    | 17 => structType "Wide"
        [mkField "Name" (.node 0)
          [("json", "name"), ("xml", "name,attr"),
           ("validate", "required,min=9223372036854775808,max=10"), ("example", "Carmack")]]
    | 18 => structType "Hidden" [mkEmbedded "Base" (.node 13) [("json", "-")]]
    | 19 => structType "Flags" [mkField "Attr" (.node 0) [("json", "attr"), ("xml", "attr")]]
    | 20 => structType "DataOrTemplate[MyValue]"
        [mkField "Data" (.node 1) [],
         mkField "Template" (.node 0) []]
    | 21 => structType "Documented" [mkField "Name" (.node 0) [("json", "name")]]
    | 22 => structType "DataOrTemplate[***MyValue]"
        [mkField "Data" (.ptrTo (.ptrTo (.ptrTo (.node 1)))) [],
         mkField "Template" (.node 0) []]
    | _ => basicType .invalid ""
  describe := fun t =>
    if t = .node 21 ∨ t = .ptrTo (.node 21) then some "A documented input" else none

/-- The schema type a sample generator gives to a kind. -/
def kindSchemaType : Kind → List String
  | .bool => ["boolean"]
  | .int | .int8 | .int16 | .int32 | .int64 => ["integer"]
  | .uint | .uint8 | .uint16 | .uint32 | .uint64 | .uintptr => ["integer"]
  | .float32 | .float64 => ["number"]
  | .string => ["string"]
  | .struct => ["object"]
  | .slice | .array => ["array"]
  | _ => []

/-- The type under the pointers of a handle. -/
def derefAll : RType → RType
  | .ptrTo t => derefAll t
  | t => t

/-- The property a sample generator derives from a field of the struct `owner`,
keyed by the name portion of the JSON tag or else the field name; none for an
embedded field without JSON name or for the JSON name `-`.  A field whose type,
under its pointers, is `owner` itself gets a bare reference to the schema of
`owner`, without a schema object. -/
def sampleProperty (G : TypeGraph) (owner : RType) (f : StructField) :
    Option (String × SchemaRef) :=
  if f.anonymous = true ∧ jsonTagName f = "" then none
  else if jsonTagName f = "-" then none
  else
    some (if jsonTagName f = "" then f.name else jsonTagName f,
          if derefAll f.type = owner then
            { ref := "#/components/schemas/" ++ G.name owner, value := none }
          else
            { ref := "", value := some { Schema.zero with
                                         type := kindSchemaType (G.kind f.type) } })

/-- A sample generator without state, standing in for the external schema
generator on the sample types: kinds are mapped to schema types and the fields
of a struct (behind at most one pointer) to properties; a struct without
properties gets no type; it never reports an error and leaves the registry as
it is. -/
def sampleGen (G : TypeGraph) : Generator Unit := fun st v schemas =>
  let t := match v with
    | .ptrTo t1 => t1
    | t1 => t1
  let properties := (G.fields t).filterMap (sampleProperty G t)
  (some { ref := "",
          value := some { Schema.zero with
                          type := if G.kind t = .struct ∧ properties.isEmpty = true then []
                                  else kindSchemaType (G.kind t)
                          properties := properties } },
   schemas, st)

/-- The state with an empty registry. -/
def emptyOpenAPI : OpenAPI Unit :=
  { schemas := [], genState := () }

/-- A string-typed property schema. -/
def stringProperty : SchemaRef :=
  { ref := "", value := some { Schema.zero with type := ["string"] } }

/-- An integer-typed property schema. -/
def integerProperty : SchemaRef :=
  { ref := "", value := some { Schema.zero with type := ["integer"] } }

/-- A registry state in which the key `unknown-interface` holds a string schema. -/
def takenOpenAPI : OpenAPI Unit :=
  { schemas := [("unknown-interface", stringProperty)], genState := () }

/-! ## Observations on results -/

/-- The name of the tag an outcome of the walker carries, if it is a return. -/
def resultName {σ : Type} : Outcome (SchemaTag × OpenAPI σ) → Option String
  | .ok r => some r.1.name
  | _ => none

/-- The reference of the tag an outcome of the walker carries, if it is a return. -/
def resultRef {σ : Type} : Outcome (SchemaTag × OpenAPI σ) → Option String
  | .ok r => some r.1.ref
  | _ => none

/-- The reference string of the `items` of the inline schema an outcome of the
walker carries, if there is one. -/
def resultItemsRef {σ : Type} : Outcome (SchemaTag × OpenAPI σ) → Option String
  | .ok r =>
    match r.1.value with
    | none => none
    | some s =>
      match s.items with
      | none => none
      | some it => some it.ref
  | _ => none

/-- The type list of the inline schema an outcome of the walker carries. -/
def resultType {σ : Type} : Outcome (SchemaTag × OpenAPI σ) → Option (List String)
  | .ok r => r.1.value.map (fun s => s.type)
  | _ => none

/-- The registry keys an outcome of the walker leaves, if it is a return. -/
def resultKeys {σ : Type} : Outcome (SchemaTag × OpenAPI σ) → Option (List String)
  | .ok r => some (r.2.schemas.map (fun p => p.1))
  | _ => none

/-- An empty-object schema: of object kind, without properties and without
required names. -/
def Schema.isEmptyObject (s : Schema) : Prop :=
  s.typeIs "object" = true ∧ s.properties = [] ∧ s.required = []

/-! ## Predicates on schemas used in statements about the annotator -/

/-- Every property of the schema carries a schema object: none is a bare
reference with a nil value. -/
def Schema.hasValues (s : Schema) : Prop :=
  ∀ k p, mapGet s.properties k = some p → p.value ≠ none

/-- The schema `s1` keeps every property of `s` that carries a schema object,
with the same type, and every required name of `s`. -/
def Schema.keeps (s s1 : Schema) : Prop :=
  (∀ k p pv, mapGet s.properties k = some p → p.value = some pv →
    ∃ p1 pv1, mapGet s1.properties k = some p1 ∧ p1.value = some pv1 ∧ pv1.type = pv.type) ∧
  (∀ x, x ∈ s.required → x ∈ s1.required)

/-- The recursive call available to `parseStructTags` at a given fuel. -/
def embeddedCall (G : TypeGraph) : Nat → RType → Schema → Outcome Schema
  | 0 => fun _ _ => .outOfFuel
  | fuel + 1 => parseStructTags G fuel

/-! ## Response descriptor (`buildOpenapi3Response`) -/

/-- The fields of `fuego.Response` the code reads: the type (`none` for nil) and
the content types. -/
structure Response where
  type : Option RType
  contentTypes : List String

/-- An `openapi3.Response`: the description pointer and the content, a map from
media type to the schema reference of its `MediaType`. -/
structure Openapi3Response where
  description : Option String
  content : List (String × SchemaRef)

/-- Function `openapi3.NewContentWithSchemaRef(schema, consumes)`: every media
type of `consumes` is assigned the schema reference. -/
def NewContentWithSchemaRef (schema : SchemaRef) (consumes : List String) :
    List (String × SchemaRef) :=
  consumes.foldl (fun content mediaType => mapSet content mediaType schema) []

/-- Method `buildOpenapi3Response(description, response)`: the response built
and the state left; a nil type is a panic before anything else is done. -/
def buildOpenapi3Response {σ : Type} (G : TypeGraph) (gen : Generator σ) (fuel : Nat)
    (o : OpenAPI σ) (description : String) (response : Response) :
    Outcome (Openapi3Response × OpenAPI σ) :=
  match response.type with
  | none => .panic
  | some t =>
    (SchemaTagFromType G gen fuel o (some t)).bind (fun r =>
      let contentTypes :=
        if response.contentTypes.length = 0 then ["application/xml"] else response.contentTypes
      .ok ({ description := some description,
             content := NewContentWithSchemaRef r.1.schemaRef contentTypes }, r.2))

/-! ## The required list as the specification describes it -/

/-- Whether the field carries the validation directive `required`. -/
def carriesRequired (f : StructField) : Bool :=
  match f.tagLookup "validate" with
  | some validateTag => (split validateTag ',').contains "required"
  | none => false

/-- Whether the field has an XML tag whose name portion is `-`. -/
def xmlSkipped (f : StructField) : Bool :=
  match f.tagLookup "xml" with
  | some xmlTag => decide (firstPart (split xmlTag ',') = "-")
  | none => false

/-- Whether the field is skipped on the schema: JSON name `-`, property
missing, or XML name `-`. -/
def isSkipped (s : Schema) (f : StructField) : Bool :=
  decide (jsonTagName f = "-") || (mapGet s.properties (resolvedName f)).isNone || xmlSkipped f

/-- The resolved property names of the fields of `flat` that carry `required`
and are not skipped on `s`, in order and with repetitions. -/
def requiredNames (s : Schema) (flat : List StructField) : List String :=
  (flat.filter (fun f => carriesRequired f && !isSkipped s f)).map resolvedName

/-- The fields of a list in declaration order, each embedded field replaced by
what `recurse` gives for its type. -/
def flatList (recurse : RType → Option (List StructField)) :
    List StructField → Option (List StructField)
  | [] => some []
  | f :: fs =>
    match (if f.anonymous then recurse f.type else some [f]), flatList recurse fs with
    | some a, some b => some (a ++ b)
    | _, _ => none

/-- The fields of a struct type, or of the struct type behind one pointer, with
the embedded fields replaced; no fields for any other type. -/
def flatBody (G : TypeGraph) (recurse : RType → Option (List StructField)) (t : RType) :
    Option (List StructField) :=
  if G.kind t = .ptr then
    match G.elem t with
    | none => none
    | some t1 => if G.kind t1 ≠ .struct then some [] else flatList recurse (G.fields t1)
  else
    if G.kind t ≠ .struct then some [] else flatList recurse (G.fields t)

/-- The declared fields of a type in declaration order with the fields of
embedded structs taken in place, to a nesting depth of embedded structs of at
most `fuel`; `none` when the embedding is nested deeper. -/
def flatFields (G : TypeGraph) : Nat → RType → Option (List StructField)
  | 0, t => flatBody G (fun _ => none) t
  | fuel + 1, t => flatBody G (flatFields G fuel) t

/-- The flattening available for an embedded field at a given fuel. -/
def flatCall (G : TypeGraph) : Nat → RType → Option (List StructField)
  | 0 => fun _ => none
  | fuel + 1 => flatFields G fuel

/-! ## Decimal literals -/

/-- The characters of a string after one leading sign, if there is one. -/
def afterSign (s : String) : List Char :=
  match s.toList with
  | c :: r => if c = '-' ∨ c = '+' then r else s.toList
  | [] => []

/-- Whether the string is a decimal literal with an optional sign: at least one
character after the sign, all of them digits. -/
def isDecimalLiteral (s : String) : Bool :=
  !(afterSign s).isEmpty && (parseDigits (afterSign s) 0).isSome

/-- The longest prefix of decimal digits of a character list. -/
def digitPrefix : List Char → List Char
  | [] => []
  | c :: cs => if (digitVal c).isSome then c :: digitPrefix cs else []

/-- Whether the digits that follow the optional sign of the string, up to the
first character that is not a digit, denote a value above `2^64 - 1`. -/
def exceedsUint64 (s : String) : Bool :=
  match parseDigits (digitPrefix (afterSign s)) 0 with
  | some v => decide (v > 18446744073709551615)
  | none => false

/-- Whether the string begins with a minus sign. -/
def hasMinus (s : String) : Bool :=
  match s.toList with
  | c :: _ => decide (c = '-')
  | [] => false

/-- The bound of `int` on the side of the sign of the string: `-2^63` when the
string begins with `-`, and `2^63 - 1` otherwise. -/
def nearestBound (s : String) : Int :=
  if hasMinus s then -9223372036854775808 else 9223372036854775807

/-! ## Outcomes and maps: basic facts -/

theorem Outcome.bind_eq_ok {α β : Type} (x : Outcome α) (f : α → Outcome β) (b : β) :
    x.bind f = .ok b ↔ ∃ a, x = .ok a ∧ f a = .ok b := by
  cases x <;> simp [Outcome.bind]

theorem Outcome.bind_ok {α β : Type} (a : α) (f : α → Outcome β) :
    (Outcome.ok a).bind f = f a := rfl

theorem mapGet_mapSet_self {β : Type} (m : List (String × β)) (k : String) (v : β) :
    mapGet (mapSet m k v) k = some v := by
  induction m with
  | nil => simp [mapSet, mapGet]
  | cons p rest ih =>
    obtain ⟨k1, w⟩ := p
    by_cases h : k1 = k
    · simp [mapSet, mapGet, h]
    · simp [mapSet, mapGet, h, ih]

theorem mapGet_mapSet_other {β : Type} (m : List (String × β)) (k k' : String) (v : β)
    (h : k ≠ k') : mapGet (mapSet m k v) k' = mapGet m k' := by
  induction m with
  | nil => simp [mapSet, mapGet, h]
  | cons p rest ih =>
    obtain ⟨k1, w⟩ := p
    by_cases h1 : k1 = k
    · subst h1
      simp [mapSet, mapGet, h]
    · by_cases h2 : k1 = k'
      · subst h2
        simp [mapSet, mapGet, h1]
      · simp [mapSet, mapGet, h1, h2, ih]

/-! ## Registry: get-or-create -/

/-- A schema reference returned by `createSchema` is the one stored under the key. -/
theorem createSchema_stores {σ : Type} (G : TypeGraph) (gen : Generator σ) (fuel : Nat)
    (o o1 : OpenAPI σ) (key : String) (v : RType) (r : SchemaRef)
    (h : createSchema G gen fuel o key v = .ok (r, o1)) :
    mapGet o1.schemas key = some r := by
  unfold createSchema at h
  split at h
  · cases h
  · split at h
    · cases h
    · simp only [Outcome.bind_eq_ok, Outcome.ok.injEq, Prod.mk.injEq] at h
      obtain ⟨s3, -, h1, h2⟩ := h
      subst h1 h2
      exact mapGet_mapSet_self _ _ _

/-- On a hit, `getOrCreateSchema` returns the stored schema and changes nothing. -/
theorem getOrCreateSchema_hit {σ : Type} (G : TypeGraph) (gen : Generator σ) (fuel : Nat)
    (o : OpenAPI σ) (key : String) (v : RType) (schemaRef : SchemaRef)
    (h : mapGet o.schemas key = some schemaRef) :
    getOrCreateSchema G gen fuel o key v = .ok (schemaRef.value, o) := by
  simp [getOrCreateSchema, h]

/-- C1: whenever the name is already a key, `getOrCreateSchema` returns the
stored schema and leaves the state (registry and generator) unchanged; and after
a first `getOrCreateSchema(name, v)` has returned, a second
`getOrCreateSchema(name, v')` returns the same schema and leaves the state as
the first call left it. -/
theorem getOrCreateSchema_idempotent {σ : Type} (G : TypeGraph) (gen : Generator σ)
    (fuel fuel' : Nat) (o : OpenAPI σ) (name : String) (v v' : RType) :
    (∀ schemaRef, mapGet o.schemas name = some schemaRef →
      getOrCreateSchema G gen fuel o name v = .ok (schemaRef.value, o)) ∧
    (∀ s o1, getOrCreateSchema G gen fuel o name v = .ok (s, o1) →
      getOrCreateSchema G gen fuel' o1 name v' = .ok (s, o1)) := by
  refine ⟨fun r h => getOrCreateSchema_hit G gen fuel o name v r h, ?_⟩
  intro s o1 h
  cases hg : mapGet o.schemas name with
  | some r =>
    rw [getOrCreateSchema_hit G gen fuel o name v r hg] at h
    simp only [Outcome.ok.injEq, Prod.mk.injEq] at h
    obtain ⟨h1, h2⟩ := h
    subst h1 h2
    exact getOrCreateSchema_hit G gen fuel' o name v' r hg
  | none =>
    unfold getOrCreateSchema at h
    rw [hg] at h
    simp only [Outcome.bind_eq_ok, Outcome.ok.injEq, Prod.mk.injEq] at h
    obtain ⟨⟨r, o2⟩, hc, h1, h2⟩ := h
    subst h1 h2
    exact getOrCreateSchema_hit G gen fuel' _ name v' r
      (createSchema_stores G gen fuel o _ name v r hc)

/-- Witness for C1: on the empty registry a first call for `MyValue` creates the
schema, and a second call with another sample value returns that schema and the
same state; in the state `takenOpenAPI` the key `unknown-interface` is a hit. -/
theorem getOrCreateSchema_idempotent_witness :
    (getOrCreateSchema sampleGraph (sampleGen sampleGraph) 0 takenOpenAPI "unknown-interface"
        (.node 1) = .ok (stringProperty.value, takenOpenAPI)) ∧
    (∃ s o1,
      getOrCreateSchema sampleGraph (sampleGen sampleGraph) 0 emptyOpenAPI "MyValue"
        (.ptrTo (.node 1)) = .ok (s, o1) ∧
      getOrCreateSchema sampleGraph (sampleGen sampleGraph) 0 o1 "MyValue" (.node 3)
        = .ok (s, o1)) :=
  ⟨(getOrCreateSchema_idempotent sampleGraph (sampleGen sampleGraph) 0 0 takenOpenAPI
      "unknown-interface" (.node 1) (.node 1)).1 stringProperty rfl,
   _, _, rfl,
   (getOrCreateSchema_idempotent sampleGraph (sampleGen sampleGraph) 0 0 emptyOpenAPI
      "MyValue" (.ptrTo (.node 1)) (.node 3)).2 _ _ rfl⟩

/-! ## Type walker: one step of `dive` -/

/-- At budget zero `dive` returns the sentinel tag and leaves the state as it is,
whatever the type and the incoming tag. -/
theorem dive_zero {σ : Type} (G : TypeGraph) (gen : Generator σ) (fuel : Nat)
    (o : OpenAPI σ) (t : RType) (tag : SchemaTag) :
    dive G gen fuel 0 o t tag = .ok (sentinelTag, o) := rfl

/-- A pointer, map or channel type is resolved as its element type with the
budget reduced by one. -/
theorem dive_indirect {σ : Type} (G : TypeGraph) (gen : Generator σ) (fuel n : Nat)
    (o : OpenAPI σ) (t e : RType) (tag : SchemaTag)
    (hk : G.kind t = .ptr ∨ G.kind t = .map ∨ G.kind t = .chan)
    (he : G.elem t = some e) :
    dive G gen fuel (n + 1) o t tag = dive G gen fuel n o e tag := by
  rcases hk with hk | hk | hk <;> simp [dive, hk, he]

/-- Types of kind function or unsafe pointer have no element type. -/
theorem elem_none_of_func (G : TypeGraph) (t : RType)
    (hk : G.kind t = .func ∨ G.kind t = .unsafePointer) : G.elem t = none := by
  cases t with
  | node i =>
    simp only [TypeGraph.kind] at hk
    rcases hk with hk | hk <;> simp [TypeGraph.elem, hk]
  | ptrTo t1 => simp [TypeGraph.kind] at hk
  | emptyStruct => simp [TypeGraph.kind] at hk

/-- On a type of kind function or unsafe pointer `dive` panics at every
positive budget: `Elem` is called on a type that has none. -/
theorem dive_func_panics {σ : Type} (G : TypeGraph) (gen : Generator σ) (fuel n : Nat)
    (o : OpenAPI σ) (t : RType) (tag : SchemaTag)
    (hk : G.kind t = .func ∨ G.kind t = .unsafePointer) :
    dive G gen fuel (n + 1) o t tag = .panic := by
  have he := elem_none_of_func G t hk
  rcases hk with hk | hk <;> simp [dive, hk, he]

/-- A slice or array type is resolved by resolving its element type with the
budget reduced by one and wrapping the item tag in an array schema. -/
theorem dive_sequence {σ : Type} (G : TypeGraph) (gen : Generator σ) (fuel n : Nat)
    (o : OpenAPI σ) (t e : RType) (tag : SchemaTag)
    (hk : G.kind t = .slice ∨ G.kind t = .array) (he : G.elem t = some e) :
    dive G gen fuel (n + 1) o t tag =
      (dive G gen fuel n o e tag).bind (fun r =>
        .ok ({ tag with
               name := r.1.name
               value := some { NewArraySchema with items := some r.1.schemaRef } }, r.2)) := by
  rcases hk with hk | hk <;> simp [dive, hk, he]

/-- A struct named with the wrapper prefix is resolved as the type of its first
field with the budget reduced by one; the tag passed on carries the wrapper's
name. -/
theorem dive_wrapper {σ : Type} (G : TypeGraph) (gen : Generator σ) (fuel n : Nat)
    (o : OpenAPI σ) (t : RType) (f : StructField) (tag : SchemaTag)
    (hk : G.kind t = .struct) (hp : hasPrefix (G.name t) "DataOrTemplate" = true)
    (hf : G.field t 0 = some f) :
    dive G gen fuel (n + 1) o t tag =
      dive G gen fuel n o f.type { tag with name := G.name t } := by
  simp [dive, hk, hp, hf]

/-- A leaf type is registered under its own name. -/
theorem dive_leaf {σ : Type} (G : TypeGraph) (gen : Generator σ) (fuel n : Nat)
    (o : OpenAPI σ) (t : RType) (tag : SchemaTag) (hl : G.isLeaf t = true) :
    dive G gen fuel (n + 1) o t tag =
      (getOrCreateSchema G gen fuel o (G.name t) (.ptrTo t)).bind (fun r =>
        .ok ({ name := G.name t, ref := "#/components/schemas/" ++ G.name t, value := r.1 },
             r.2)) := by
  unfold TypeGraph.isLeaf at hl
  cases hk : G.kind t <;> simp [hk] at hl <;> simp [dive, hk, hl]

/-- The result of `dive` does not depend on the name and the value of the
incoming tag. -/
theorem dive_tag_irrelevant {σ : Type} (G : TypeGraph) (gen : Generator σ) (fuel : Nat)
    (n : Nat) (o : OpenAPI σ) (t : RType) (tag : SchemaTag) (x : String) (y : Option Schema) :
    dive G gen fuel n o t { tag with name := x, value := y } = dive G gen fuel n o t tag := by
  induction n generalizing o t tag x y with
  | zero => rfl
  | succ n ih =>
    by_cases hs : G.kind t = .struct
    · simp only [dive, hs]
      by_cases hp : hasPrefix (G.name t) "DataOrTemplate" = true
      · simp only [hp, and_self, if_true]
        cases hf : G.field t 0 with
        | none => rfl
        | some f =>
          simp only []
          rw [ih o f.type tag (G.name t) y, ← ih o f.type tag (G.name t) tag.value]
      · simp [hp]
    · cases hk : G.kind t <;> first | exact absurd hk hs | skip
      all_goals simp only [dive, hk]
      all_goals
        first
        | rfl
        | (cases he : G.elem t with
            | none => rfl
            | some e =>
              simp only []
              first
              | exact ih o e tag x y
              | rw [ih o e tag x y])

/-! ## Termination of the walker -/

/-- The annotator finds no result on the struct that embeds a pointer to
itself, whatever the fuel and the schema. -/
theorem parseStructTags_selfEmbedded (fuel : Nat) (s : Schema) :
    parseStructTags sampleGraph fuel (.ptrTo (.node 8)) s = .outOfFuel := by
  induction fuel generalizing s with
  | zero => rfl
  | succ k ih =>
    have h : parseStructTags sampleGraph (k + 1) (.ptrTo (.node 8)) s =
        (parseStructTags sampleGraph k (.ptrTo (.node 8)) s).bind
          (parseFields (parseStructTags sampleGraph k) []) := rfl
    rw [h, ih]
    rfl

/-- C2, evaluated at `type Node struct { *Node }` (embedded, with a JSON tag):
on a registry without the key `Node`, `SchemaTagFromType`, that is `dive` with
budget 5, finds no result for any amount of fuel given to the annotator: the
recursion of the annotator through the embedded pointer is not bounded. -/
theorem dive_selfEmbedded_diverges (fuel : Nat) :
    SchemaTagFromType sampleGraph (sampleGen sampleGraph) fuel emptyOpenAPI
      (some (.node 8)) = .outOfFuel := by
  show (((parseStructTags sampleGraph fuel (.ptrTo (.node 8)) _).bind _).bind _).bind _
    = Outcome.outOfFuel
  rw [parseStructTags_selfEmbedded]
  rfl

/-- The recursion of `dive` itself always comes to an end: with a budget `n`
it finds a result unless a schema creation it asks for finds none. -/
theorem dive_returns_of_creation_returns {σ : Type} (G : TypeGraph) (gen : Generator σ)
    (fuel : Nat)
    (hc : ∀ (o : OpenAPI σ) (key : String) (v : RType),
      getOrCreateSchema G gen fuel o key v ≠ .outOfFuel)
    (n : Nat) (o : OpenAPI σ) (t : RType) (tag : SchemaTag) :
    dive G gen fuel n o t tag ≠ .outOfFuel := by
  induction n generalizing o t tag with
  | zero => simp [dive]
  | succ n ih =>
    have hb : ∀ (e : RType) (tg : SchemaTag)
        (f : SchemaTag × OpenAPI σ → SchemaTag × OpenAPI σ),
        (dive G gen fuel n o e tg).bind (fun r => .ok (f r)) ≠ .outOfFuel := by
      intro e tg f
      have := ih o e tg
      cases hd : dive G gen fuel n o e tg <;> simp_all [Outcome.bind]
    have hg : ∀ (f : Option Schema × OpenAPI σ → SchemaTag × OpenAPI σ),
        (getOrCreateSchema G gen fuel o (G.name t) (.ptrTo t)).bind (fun r => .ok (f r))
          ≠ .outOfFuel := by
      intro f
      have := hc o (G.name t) (.ptrTo t)
      cases hd : getOrCreateSchema G gen fuel o (G.name t) (.ptrTo t) <;>
        simp_all [Outcome.bind]
    by_cases hs : G.kind t = .struct
    · simp only [dive, hs]
      by_cases hp : hasPrefix (G.name t) "DataOrTemplate" = true
      · simp only [hp, and_self, if_true]
        cases hf : G.field t 0 with
        | none => simp
        | some f => exact ih o f.type _
      · simp only [hp]
        simpa using hg _
    · cases hk : G.kind t <;> first | exact absurd hk hs | skip
      all_goals simp only [dive, hk]
      all_goals
        first
        | (simpa using hg _)
        | (cases he : G.elem t with
            | none => simp
            | some e =>
              first
              | exact ih o e tag
              | exact hb e tag _)

/-! ## Collection shape at the entry point -/

/-- C4 as the code has it: for a slice or array type `t` with element type `e`,
`SchemaTagFromType` on a `t` value resolves `e` with budget 4 (the sequence
level uses one of the five levels) and returns the item's name with an inline
array schema whose `items` are the item's schema reference, leaving the state
the resolution of `e` left; it has no result when that resolution has none.
The `items` are the schema reference `SchemaTagFromType` returns for an `e`
value whenever `e` is resolved alike with budgets 4 and 5. -/
theorem SchemaTagFromType_sequence {σ : Type} (G : TypeGraph) (gen : Generator σ)
    (fuel : Nat) (o : OpenAPI σ) (t e : RType)
    (hk : G.kind t = .slice ∨ G.kind t = .array) (he : G.elem t = some e) :
    SchemaTagFromType G gen fuel o (some t) =
      (dive G gen fuel 4 o e SchemaTag.zero).bind (fun r =>
        .ok ({ name := r.1.name, ref := "",
               value := some { NewArraySchema with items := some r.1.schemaRef } }, r.2)) ∧
    (∀ item o1, SchemaTagFromType G gen fuel o (some e) = .ok (item, o1) →
      dive G gen fuel 4 o e SchemaTag.zero = dive G gen fuel 5 o e SchemaTag.zero →
      ∃ tag s, SchemaTagFromType G gen fuel o (some t) = .ok (tag, o1) ∧
        tag.value = some s ∧ s.typeIs "array" = true ∧ s.items = some item.schemaRef) := by
  have h : SchemaTagFromType G gen fuel o (some t) =
      (dive G gen fuel 4 o e SchemaTag.zero).bind (fun r =>
        .ok ({ SchemaTag.zero with
               name := r.1.name
               value := some { NewArraySchema with items := some r.1.schemaRef } }, r.2)) :=
    dive_sequence G gen fuel 4 o t e SchemaTag.zero hk he
  refine ⟨h, fun item o1 h5 h45 => ?_⟩
  have h4 : dive G gen fuel 4 o e SchemaTag.zero = .ok (item, o1) := by
    rw [h45]
    exact h5
  refine ⟨{ name := item.name, ref := "",
            value := some { NewArraySchema with items := some item.schemaRef } },
          { NewArraySchema with items := some item.schemaRef }, ?_, rfl, rfl, rfl⟩
  rw [h, h4]
  rfl

/-- Witness for C4: the slice `[]MyValue` of the sample types on the empty
registry. -/
theorem SchemaTagFromType_sequence_witness :
    ∃ item o1 tag s,
      SchemaTagFromType sampleGraph (sampleGen sampleGraph) 0 emptyOpenAPI (some (.node 1))
        = .ok (item, o1) ∧
      SchemaTagFromType sampleGraph (sampleGen sampleGraph) 0 emptyOpenAPI (some (.node 2))
        = .ok (tag, o1) ∧
      tag.value = some s ∧ s.typeIs "array" = true ∧ s.items = some item.schemaRef := by
  have h := (SchemaTagFromType_sequence sampleGraph (sampleGen sampleGraph) 0 emptyOpenAPI
    (.node 2) (.node 1) (Or.inl rfl) rfl).2
  obtain ⟨tag, s, h1, h2, h3, h4⟩ := h _ _ rfl rfl
  exact ⟨_, _, tag, s, rfl, h1, h2, h3, h4⟩

/-- Counterexample to C4 as stated: for the element type `****MyValue`, a value
of that type is resolved to the reference of `MyValue`, while the `items` of
the schema derived for `[]****MyValue` refer to the sentinel `default`. -/
theorem SchemaTagFromType_sequence_counterexample :
    sampleGraph.kind (.node 11) = .slice ∧
    sampleGraph.elem (.node 11) = some (.ptrTo (.ptrTo (.ptrTo (.ptrTo (.node 1))))) ∧
    resultRef (SchemaTagFromType sampleGraph (sampleGen sampleGraph) 0 emptyOpenAPI
      (some (.ptrTo (.ptrTo (.ptrTo (.ptrTo (.node 1)))))))
      = some "#/components/schemas/MyValue" ∧
    resultItemsRef (SchemaTagFromType sampleGraph (sampleGen sampleGraph) 0 emptyOpenAPI
      (some (.node 11))) = some "#/components/schemas/default" :=
  ⟨rfl, rfl, rfl, rfl⟩

/-! ## The absent type -/

/-- The annotator leaves the schema of the empty struct as it is. -/
theorem parseStructTags_emptyStruct (G : TypeGraph) (fuel : Nat) (s : Schema) :
    parseStructTags G fuel .emptyStruct s = .ok s := by
  cases fuel <;> rfl

/-- C7 as the code has it: `SchemaTagFromType(nil)` looks the key
`unknown-interface` up.  When the registry has the key, it returns the tag
named `unknown-interface` with reference
`#/components/schemas/unknown-interface` and the schema pointer stored under
the key, whatever it is, and leaves the state as it is.  When the registry has
not the key and the generator yields a schema `s` for the empty struct, it
returns that tag with `s`, its description set to `unknown-interface schema`
and nothing else changed, and stores it under the key in the registry the
generator left.  It fails exactly when the key is absent and the generator
yields no schema; whenever it returns, the registry has the key afterwards. -/
theorem SchemaTagFromType_nil {σ : Type} (G : TypeGraph) (gen : Generator σ) (fuel : Nat)
    (o : OpenAPI σ) :
    (∀ sr, mapGet o.schemas "unknown-interface" = some sr →
      SchemaTagFromType G gen fuel o none =
        .ok ({ name := "unknown-interface", ref := "#/components/schemas/unknown-interface",
               value := sr.value }, o)) ∧
    (mapGet o.schemas "unknown-interface" = none →
      ∀ sr s reg1 st1, gen o.genState .emptyStruct o.schemas = (some sr, reg1, st1) →
        sr.value = some s →
        SchemaTagFromType G gen fuel o none =
          .ok ({ name := "unknown-interface", ref := "#/components/schemas/unknown-interface",
                 value := some { s with description := "unknown-interface schema" } },
               { schemas := mapSet reg1 "unknown-interface"
                   { sr with value := some { s with description := "unknown-interface schema" } },
                 genState := st1 })) ∧
    (mapGet o.schemas "unknown-interface" = none →
      ((gen o.genState .emptyStruct o.schemas).1 = none ∨
        ∃ sr, (gen o.genState .emptyStruct o.schemas).1 = some sr ∧ sr.value = none) →
      SchemaTagFromType G gen fuel o none = .panic) ∧
    (∀ tag o1, SchemaTagFromType G gen fuel o none = .ok (tag, o1) →
      tag.name = "unknown-interface" ∧ tag.ref = "#/components/schemas/unknown-interface" ∧
      (mapGet o1.schemas "unknown-interface").isSome = true) := by
  have hmiss : mapGet o.schemas "unknown-interface" = none →
      ∀ sr s reg1 st1, gen o.genState .emptyStruct o.schemas = (some sr, reg1, st1) →
        sr.value = some s →
        SchemaTagFromType G gen fuel o none =
          .ok ({ name := "unknown-interface", ref := "#/components/schemas/unknown-interface",
                 value := some { s with description := "unknown-interface schema" } },
               { schemas := mapSet reg1 "unknown-interface"
                   { sr with value := some { s with description := "unknown-interface schema" } },
                 genState := st1 }) := by
    intro hg sr s reg1 st1 hgen hv
    simp only [SchemaTagFromType, getOrCreateSchema, hg, createSchema, hgen, hv,
      TypeGraph.descriptionOf, parseStructTags_emptyStruct, Outcome.bind]
    rfl
  refine ⟨fun sr hg => ?_, hmiss, fun hg hn => ?_, fun tag o1 h => ?_⟩
  · simp [SchemaTagFromType, getOrCreateSchema, hg, Outcome.bind]
  · rcases hr : gen o.genState .emptyStruct o.schemas with ⟨r, reg1, st1⟩
    rw [hr] at hn
    rcases hn with hn | ⟨sr, hn, hv⟩
    · simp only at hn
      subst hn
      simp [SchemaTagFromType, getOrCreateSchema, hg, createSchema, hr, Outcome.bind]
    · simp only at hn
      subst hn
      simp [SchemaTagFromType, getOrCreateSchema, hg, createSchema, hr, hv, Outcome.bind]
  · cases hg : mapGet o.schemas "unknown-interface" with
    | some sr =>
      simp only [SchemaTagFromType, getOrCreateSchema, hg, Outcome.bind, Outcome.ok.injEq,
        Prod.mk.injEq] at h
      obtain ⟨h1, h2⟩ := h
      subst h1
      subst h2
      exact ⟨rfl, rfl, by simp [hg]⟩
    | none =>
      rcases hr : gen o.genState .emptyStruct o.schemas with ⟨r, reg1, st1⟩
      cases r with
      | none =>
        simp [SchemaTagFromType, getOrCreateSchema, hg, createSchema, hr, Outcome.bind] at h
      | some sr =>
        cases hv : sr.value with
        | none =>
          simp [SchemaTagFromType, getOrCreateSchema, hg, createSchema, hr, hv,
            Outcome.bind] at h
        | some s =>
          rw [hmiss hg sr s reg1 st1 hr hv] at h
          simp only [Outcome.ok.injEq, Prod.mk.injEq] at h
          obtain ⟨h1, h2⟩ := h
          subst h1
          subst h2
          exact ⟨rfl, rfl, by simp [mapGet_mapSet_self]⟩

/-- Witness for C7: on the empty registry with the sample generator, which
gives the empty struct a schema without type, the tag carries that schema with
the description `unknown-interface schema` and the registry gets the key; on a
registry where the key holds a string schema, the tag carries that string
schema and the state is unchanged. -/
theorem SchemaTagFromType_nil_witness :
    SchemaTagFromType sampleGraph (sampleGen sampleGraph) 0 emptyOpenAPI none =
      .ok ({ name := "unknown-interface", ref := "#/components/schemas/unknown-interface",
             value := some { Schema.zero with description := "unknown-interface schema" } },
           { schemas := [("unknown-interface",
               { ref := "",
                 value := some { Schema.zero with description := "unknown-interface schema" } })],
             genState := () }) ∧
    SchemaTagFromType sampleGraph (sampleGen sampleGraph) 0 takenOpenAPI none =
      .ok ({ name := "unknown-interface", ref := "#/components/schemas/unknown-interface",
             value := some { Schema.zero with type := ["string"] } }, takenOpenAPI) :=
  ⟨(SchemaTagFromType_nil sampleGraph (sampleGen sampleGraph) 0 emptyOpenAPI).2.1 rfl
      { ref := "", value := some Schema.zero } Schema.zero [] () rfl rfl,
   (SchemaTagFromType_nil sampleGraph (sampleGen sampleGraph) 0 takenOpenAPI).1
      stringProperty rfl⟩

/-- Counterexample to C7 as stated: in a registry state where the key
`unknown-interface` holds a string schema, `SchemaTagFromType(nil)` returns that
string schema, which is not of object kind. -/
theorem SchemaTagFromType_nil_counterexample :
    resultName (SchemaTagFromType sampleGraph (sampleGen sampleGraph) 0 takenOpenAPI none)
      = some "unknown-interface" ∧
    resultType (SchemaTagFromType sampleGraph (sampleGen sampleGraph) 0 takenOpenAPI none)
      = some ["string"] ∧
    ¬ ∃ s1 o1, SchemaTagFromType sampleGraph (sampleGen sampleGraph) 0 takenOpenAPI none =
        .ok ({ name := "unknown-interface", ref := "#/components/schemas/unknown-interface",
               value := some s1 }, o1) ∧ s1.isEmptyObject := by
  refine ⟨rfl, rfl, ?_⟩
  rintro ⟨s1, o1, h, he, -⟩
  have h1 := congrArg resultType h
  have h2 : resultType (SchemaTagFromType sampleGraph (sampleGen sampleGraph) 0
      takenOpenAPI none) = some ["string"] := rfl
  rw [h2] at h1
  simp only [resultType, Option.map_some', Option.some.injEq] at h1
  simp [Schema.typeIs, ← h1] at he

/-! ## Nesting depth -/

theorem Outcome.bind_assoc {α β γ : Type} (x : Outcome α) (f : α → Outcome β)
    (g : β → Outcome γ) : (x.bind f).bind g = x.bind (fun a => (f a).bind g) := by
  cases x <;> rfl

theorem Outcome.bind_pure {α : Type} (x : Outcome α) : x.bind Outcome.ok = x := by
  cases x <;> rfl

/-- One level of nesting: its kind, its element type and the rest. -/
theorem strip_succ (G : TypeGraph) (k : Nat) (t T : RType) (h : G.strip (k + 1) t = some T) :
    ∃ e, G.elem t = some e ∧ G.strip k e = some T ∧
      ((G.kind t = .ptr ∨ G.kind t = .map ∨ G.kind t = .chan) ∨
       (G.kind t = .slice ∨ G.kind t = .array)) := by
  unfold TypeGraph.strip at h
  cases hk : G.kind t <;> simp only [hk] at h <;> try cases h
  all_goals
    cases he : G.elem t with
    | none => simp [he] at h
    | some e =>
      simp only [he] at h
      exact ⟨e, rfl, h, by simp⟩

/-- A type with `k` levels of nesting has every smaller number of levels. -/
theorem strip_le (G : TypeGraph) (j k : Nat) (t T : RType) (h : G.strip k t = some T)
    (hjk : j ≤ k) : ∃ T1, G.strip j t = some T1 := by
  induction j generalizing t k with
  | zero => exact ⟨t, rfl⟩
  | succ j ih =>
    obtain ⟨k1, rfl⟩ : ∃ k1, k = k1 + 1 := ⟨k - 1, by omega⟩
    obtain ⟨e, he, hs, hk⟩ := strip_succ G k1 t T h
    obtain ⟨T1, h1⟩ := ih k1 e hs (by omega)
    refine ⟨T1, ?_⟩
    rcases hk with (hk | hk | hk) | (hk | hk) <;> simp [TypeGraph.strip, hk, he, h1]

/-- Walking down `k` levels of nesting with budget `n + k` resolves the inner
type with budget `n` and rebuilds the tag through the levels. -/
theorem dive_strip {σ : Type} (G : TypeGraph) (gen : Generator σ) (fuel n : Nat)
    (o : OpenAPI σ) (tag : SchemaTag) (hr : tag.ref = "") (k : Nat) (t T : RType)
    (h : G.strip k t = some T) :
    dive G gen fuel (n + k) o t tag =
      (dive G gen fuel n o T tag).bind (fun r => .ok (wrapTag G k t r.1, r.2)) := by
  induction k generalizing t with
  | zero =>
    simp only [TypeGraph.strip, Option.some.injEq] at h
    subst h
    exact (Outcome.bind_pure _).symm
  | succ k ih =>
    obtain ⟨e, he, hs, hk⟩ := strip_succ G k t T h
    rcases hk with hk | hk
    · rw [← Nat.add_assoc, dive_indirect G gen fuel (n + k) o t e tag hk he, ih e hs]
      congr 1
      funext r
      rcases hk with hk | hk | hk <;> simp [wrapTag, he, hk]
    · rw [← Nat.add_assoc, dive_sequence G gen fuel (n + k) o t e tag hk he, ih e hs,
        Outcome.bind_assoc]
      congr 1
      funext r
      rcases hk with hk | hk <;> simp [wrapTag, he, hk, Outcome.bind, hr]

/-- The rebuilt tag carries the name of the innermost tag. -/
theorem wrapTag_name (G : TypeGraph) (k : Nat) (t T : RType) (leaf : SchemaTag)
    (h : G.strip k t = some T) : (wrapTag G k t leaf).name = leaf.name := by
  induction k generalizing t with
  | zero => rfl
  | succ k ih =>
    obtain ⟨e, he, hs, hk⟩ := strip_succ G k t T h
    rcases hk with (hk | hk | hk) | (hk | hk) <;> simp [wrapTag, he, hk, ih e hs]

/-- The innermost reference of the rebuilt tag is the reference of the
innermost tag. -/
theorem innermostRef_wrapTag (G : TypeGraph) (k : Nat) (t T : RType) (leaf : SchemaTag)
    (h : G.strip k t = some T) :
    innermostRef G k t (wrapTag G k t leaf).schemaRef = some leaf.ref := by
  induction k generalizing t with
  | zero => rfl
  | succ k ih =>
    obtain ⟨e, he, hs, hk⟩ := strip_succ G k t T h
    rcases hk with (hk | hk | hk) | (hk | hk) <;>
      simp only [wrapTag, innermostRef, he, hk, SchemaTag.schemaRef] <;>
      exact ih e hs

/-- C8 as the code has it: for a leaf type `T` under `k` levels of pointer, map,
channel, slice or array nesting of `t`, `SchemaTagFromType` (bound 5) resolves
down to `T` when `k` is at most 4: it finds or creates the schema of `T` under
the name of `T` and returns the tag rebuilt through the levels, which has the
name of `T` and, innermost, the reference `#/components/schemas/` followed by
that name; the state left is the one the lookup left.  With five levels or more
the type is cut at the fifth: the tag has the name `default`, the innermost
reference is that of the sentinel and the state is unchanged. -/
theorem SchemaTagFromType_nesting {σ : Type} (G : TypeGraph) (gen : Generator σ)
    (fuel : Nat) (o : OpenAPI σ) (t T : RType) (k : Nat) (hs : G.strip k t = some T) :
    (k ≤ 4 → G.isLeaf T = true →
      SchemaTagFromType G gen fuel o (some t) =
        (getOrCreateSchema G gen fuel o (G.name T) (.ptrTo T)).bind (fun r =>
          .ok (wrapTag G k t
            (SchemaTag.mk (G.name T) ("#/components/schemas/" ++ G.name T) r.1), r.2)) ∧
      ∀ v, (wrapTag G k t
            (SchemaTag.mk (G.name T) ("#/components/schemas/" ++ G.name T) v)).name
          = G.name T ∧
        innermostRef G k t (wrapTag G k t
            (SchemaTag.mk (G.name T) ("#/components/schemas/" ++ G.name T) v)).schemaRef
          = some ("#/components/schemas/" ++ G.name T)) ∧
    (5 ≤ k →
      ∃ tag, SchemaTagFromType G gen fuel o (some t) = .ok (tag, o) ∧
        tag.name = "default" ∧
        innermostRef G 5 t tag.schemaRef = some "#/components/schemas/default") := by
  constructor
  · intro hk hl
    obtain ⟨n, hn⟩ : ∃ n, 5 = (n + 1) + k := ⟨4 - k, by omega⟩
    refine ⟨?_, fun v => ⟨wrapTag_name G k t T _ hs, innermostRef_wrapTag G k t T _ hs⟩⟩
    show dive G gen fuel 5 o t SchemaTag.zero = _
    rw [hn, dive_strip G gen fuel (n + 1) o SchemaTag.zero rfl k t T hs,
      dive_leaf G gen fuel n o T SchemaTag.zero hl, Outcome.bind_assoc]
    rfl
  · intro hk
    obtain ⟨T1, h5⟩ := strip_le G 5 k t T hs hk
    refine ⟨wrapTag G 5 t sentinelTag, ?_, wrapTag_name G 5 t T1 _ h5,
      innermostRef_wrapTag G 5 t T1 _ h5⟩
    show dive G gen fuel (0 + 5) o t SchemaTag.zero = _
    rw [dive_strip G gen fuel 0 o SchemaTag.zero rfl 5 t T1 h5, dive_zero]
    rfl

/-- Witness for C8: `MyValue` under four pointers is resolved, under five
pointers it is cut. -/
theorem SchemaTagFromType_nesting_witness :
    resultName (SchemaTagFromType sampleGraph (sampleGen sampleGraph) 0 emptyOpenAPI
        (some (.ptrTo (.ptrTo (.ptrTo (.ptrTo (.node 1))))))) = some "MyValue" ∧
    (∃ tag,
      SchemaTagFromType sampleGraph (sampleGen sampleGraph) 0 emptyOpenAPI
        (some (.ptrTo (.ptrTo (.ptrTo (.ptrTo (.ptrTo (.node 1))))))) = .ok (tag, emptyOpenAPI) ∧
      tag.name = "default") := by
  constructor
  · rw [((SchemaTagFromType_nesting sampleGraph (sampleGen sampleGraph) 0 emptyOpenAPI
        (.ptrTo (.ptrTo (.ptrTo (.ptrTo (.node 1))))) (.node 1) 4 rfl).1
        (by decide) (by decide)).1]
    rfl
  · obtain ⟨tag, h1, h2, -⟩ :=
      (SchemaTagFromType_nesting sampleGraph (sampleGen sampleGraph) 0 emptyOpenAPI
        (.ptrTo (.ptrTo (.ptrTo (.ptrTo (.ptrTo (.node 1)))))) (.node 1) 5 rfl).2 (by decide)
    exact ⟨tag, h1, h2⟩

/-- Counterexample to C8 as stated: the leaf `MyValue` under exactly five
pointers (`k = 5`, not more than the bound) is not resolved down to `MyValue`
but to the sentinel `default`. -/
theorem SchemaTagFromType_nesting_counterexample :
    sampleGraph.strip 5 (.ptrTo (.ptrTo (.ptrTo (.ptrTo (.ptrTo (.node 1)))))) = some (.node 1) ∧
    sampleGraph.isLeaf (.node 1) = true ∧
    resultName (SchemaTagFromType sampleGraph (sampleGen sampleGraph) 0 emptyOpenAPI
      (some (.ptrTo (.ptrTo (.ptrTo (.ptrTo (.ptrTo (.node 1)))))))) = some "default" ∧
    resultRef (SchemaTagFromType sampleGraph (sampleGen sampleGraph) 0 emptyOpenAPI
      (some (.ptrTo (.ptrTo (.ptrTo (.ptrTo (.ptrTo (.node 1))))))))
      = some "#/components/schemas/default" :=
  ⟨rfl, by decide, rfl, rfl⟩

/-! ## Wrapper transparency -/

/-- Walking down `k` levels of nesting to a leaf type with a budget above `k`
finds or creates the schema of the leaf under its name and rebuilds the tag
through the levels, whatever the budget left over. -/
theorem dive_nested_leaf {σ : Type} (G : TypeGraph) (gen : Generator σ) (fuel n : Nat)
    (o : OpenAPI σ) (k : Nat) (t T : RType) (hs : G.strip k t = some T)
    (hl : G.isLeaf T = true) :
    dive G gen fuel ((n + 1) + k) o t SchemaTag.zero =
      (getOrCreateSchema G gen fuel o (G.name T) (.ptrTo T)).bind (fun r =>
        .ok (wrapTag G k t
          (SchemaTag.mk (G.name T) ("#/components/schemas/" ++ G.name T) r.1), r.2)) := by
  rw [dive_strip G gen fuel (n + 1) o SchemaTag.zero rfl k t T hs,
    dive_leaf G gen fuel n o T SchemaTag.zero hl, Outcome.bind_assoc]
  rfl

/-- C3 as the code has it: for a struct `w` named with the wrapper prefix whose
first field is `f`, `SchemaTagFromType` on a `w` value is exactly (tag and
state left) `dive` on the type of `f` with budget 4, the wrapper having used
one of the five levels and touched no registry key itself; it is what
`SchemaTagFromType` gives for a value of the field's type whenever that type is
resolved alike with budgets 4 and 5.  That is so when the type of `f` is a leaf
type `T` under at most 3 levels of pointer, map, channel, slice or array
nesting: then both find or create the schema of `T` under the name of `T` and
return the tag rebuilt through the levels, with the state that lookup left. -/
theorem SchemaTagFromType_wrapper {σ : Type} (G : TypeGraph) (gen : Generator σ)
    (fuel : Nat) (o : OpenAPI σ) (w : RType) (f : StructField)
    (hk : G.kind w = .struct) (hp : hasPrefix (G.name w) "DataOrTemplate" = true)
    (hf : G.field w 0 = some f) :
    SchemaTagFromType G gen fuel o (some w) = dive G gen fuel 4 o f.type SchemaTag.zero ∧
    (dive G gen fuel 4 o f.type SchemaTag.zero = dive G gen fuel 5 o f.type SchemaTag.zero →
      SchemaTagFromType G gen fuel o (some w) = SchemaTagFromType G gen fuel o (some f.type)) ∧
    (∀ k T, k ≤ 3 → G.strip k f.type = some T → G.isLeaf T = true →
      SchemaTagFromType G gen fuel o (some w) = SchemaTagFromType G gen fuel o (some f.type) ∧
      SchemaTagFromType G gen fuel o (some w) =
        (getOrCreateSchema G gen fuel o (G.name T) (.ptrTo T)).bind (fun r =>
          .ok (wrapTag G k f.type
            (SchemaTag.mk (G.name T) ("#/components/schemas/" ++ G.name T) r.1), r.2))) := by
  have h : SchemaTagFromType G gen fuel o (some w)
      = dive G gen fuel 4 o f.type SchemaTag.zero := by
    show dive G gen fuel (4 + 1) o w SchemaTag.zero = _
    rw [dive_wrapper G gen fuel 4 o w f SchemaTag.zero hk hp hf]
    exact dive_tag_irrelevant G gen fuel 4 o f.type SchemaTag.zero (G.name w) none
  refine ⟨h, fun h45 => by rw [h, h45]; rfl, fun k T hk3 hs hl => ?_⟩
  obtain ⟨n, hn⟩ : ∃ n, 4 = (n + 1) + k := ⟨3 - k, by omega⟩
  have h4 := dive_nested_leaf G gen fuel n o k f.type T hs hl
  have h5 := dive_nested_leaf G gen fuel (n + 1) o k f.type T hs hl
  have e5 : (n + 1 + 1) + k = 5 := by omega
  rw [← hn] at h4
  rw [e5] at h5
  refine ⟨?_, by rw [h, h4]⟩
  rw [h, h4]
  show _ = dive G gen fuel 5 o f.type SchemaTag.zero
  rw [h5]

/-- Witness for C3 on the empty registry with the sample generator: the wrapper
`DataOrTemplate[MyInput]` with first field type `****MyInput` is resolved as
that type is with budget 4; the wrappers with first field types `MyValue` and
`***MyValue` are resolved exactly as values of these types are, to the name
`MyValue`, and the only key stored is `MyValue`. -/
theorem SchemaTagFromType_wrapper_witness :
    SchemaTagFromType sampleGraph (sampleGen sampleGraph) 0 emptyOpenAPI (some (.node 12))
      = dive sampleGraph (sampleGen sampleGraph) 0 4 emptyOpenAPI
          (.ptrTo (.ptrTo (.ptrTo (.ptrTo (.node 3))))) SchemaTag.zero ∧
    SchemaTagFromType sampleGraph (sampleGen sampleGraph) 0 emptyOpenAPI (some (.node 20))
      = SchemaTagFromType sampleGraph (sampleGen sampleGraph) 0 emptyOpenAPI (some (.node 1)) ∧
    SchemaTagFromType sampleGraph (sampleGen sampleGraph) 0 emptyOpenAPI (some (.node 22))
      = SchemaTagFromType sampleGraph (sampleGen sampleGraph) 0 emptyOpenAPI
          (some (.ptrTo (.ptrTo (.ptrTo (.node 1))))) ∧
    resultName (SchemaTagFromType sampleGraph (sampleGen sampleGraph) 0 emptyOpenAPI
      (some (.node 20))) = some "MyValue" ∧
    resultRef (SchemaTagFromType sampleGraph (sampleGen sampleGraph) 0 emptyOpenAPI
      (some (.node 22))) = some "#/components/schemas/MyValue" ∧
    resultKeys (SchemaTagFromType sampleGraph (sampleGen sampleGraph) 0 emptyOpenAPI
      (some (.node 20))) = some ["MyValue"] ∧
    resultKeys (SchemaTagFromType sampleGraph (sampleGen sampleGraph) 0 emptyOpenAPI
      (some (.node 22))) = some ["MyValue"] :=
  ⟨(SchemaTagFromType_wrapper sampleGraph (sampleGen sampleGraph) 0 emptyOpenAPI (.node 12)
      (mkField "Data" (.ptrTo (.ptrTo (.ptrTo (.ptrTo (.node 3))))) []) rfl (by decide) rfl).1,
   ((SchemaTagFromType_wrapper sampleGraph (sampleGen sampleGraph) 0 emptyOpenAPI (.node 20)
      (mkField "Data" (.node 1) []) rfl (by decide) rfl).2.2 0 (.node 1) (by decide) rfl
      (by decide)).1,
   ((SchemaTagFromType_wrapper sampleGraph (sampleGen sampleGraph) 0 emptyOpenAPI (.node 22)
      (mkField "Data" (.ptrTo (.ptrTo (.ptrTo (.node 1)))) []) rfl (by decide) rfl).2.2 3
      (.node 1) (by decide) rfl (by decide)).1,
   rfl, rfl, rfl, rfl⟩

/-- Counterexample to C3 as stated: the wrapper `DataOrTemplate[MyInput]` has
first field type `****MyInput`; a value of that type is resolved to `MyInput`,
a value of the wrapper to the sentinel `default`. -/
theorem SchemaTagFromType_wrapper_counterexample :
    sampleGraph.kind (.node 12) = .struct ∧
    hasPrefix (sampleGraph.name (.node 12)) "DataOrTemplate" = true ∧
    (sampleGraph.field (.node 12) 0).map (fun f => f.type)
      = some (.ptrTo (.ptrTo (.ptrTo (.ptrTo (.node 3))))) ∧
    resultName (SchemaTagFromType sampleGraph (sampleGen sampleGraph) 0 emptyOpenAPI
      (some (.ptrTo (.ptrTo (.ptrTo (.ptrTo (.node 3))))))) = some "MyInput" ∧
    resultName (SchemaTagFromType sampleGraph (sampleGen sampleGraph) 0 emptyOpenAPI
      (some (.node 12))) = some "default" ∧
    SchemaTagFromType sampleGraph (sampleGen sampleGraph) 0 emptyOpenAPI (some (.node 12))
      ≠ SchemaTagFromType sampleGraph (sampleGen sampleGraph) 0 emptyOpenAPI
          (some (.ptrTo (.ptrTo (.ptrTo (.ptrTo (.node 3)))))) :=
  ⟨rfl, by decide, rfl, rfl, rfl, fun h => by
    have h1 := congrArg resultName h
    revert h1
    decide⟩

/-! ## Indirection and collection kinds -/

/-- Two map types with the same element type are resolved alike, whatever
their key types. -/
theorem dive_map_key_irrelevant {σ : Type} (G : TypeGraph) (gen : Generator σ)
    (fuel n : Nat) (o : OpenAPI σ) (t1 t2 e : RType) (tag : SchemaTag)
    (h1 : G.kind t1 = .map) (h2 : G.kind t2 = .map)
    (e1 : G.elem t1 = some e) (e2 : G.elem t2 = some e) :
    dive G gen fuel (n + 1) o t1 tag = dive G gen fuel (n + 1) o t2 tag := by
  rw [dive_indirect G gen fuel n o t1 e tag (Or.inr (Or.inl h1)) e1,
    dive_indirect G gen fuel n o t2 e tag (Or.inr (Or.inl h2)) e2]

/-- C9, evaluated at `type Callback func()`: the type is of kind function, and
`dive` with budget 5 (as called by `SchemaTagFromType`) panics on it instead of
returning what `dive` returns for a referenced type; so it does at every
positive budget and in every state. -/
theorem dive_func_evaluated :
    sampleGraph.kind (.node 7) = .func ∧
    SchemaTagFromType sampleGraph (sampleGen sampleGraph) 0 emptyOpenAPI (some (.node 7))
      = .panic ∧
    ∀ (fuel n : Nat) (o : OpenAPI Unit) (tag : SchemaTag),
      dive sampleGraph (sampleGen sampleGraph) fuel (n + 1) o (.node 7) tag = .panic :=
  ⟨rfl, rfl, fun fuel n o tag =>
    dive_func_panics sampleGraph (sampleGen sampleGraph) fuel n o (.node 7) tag (Or.inl rfl)⟩

/-- C10: for a slice or array type `t` with element type `e` and a positive
budget, `dive` returns a tag with the name of the item tag `dive` returns for
`e` with the budget reduced by one, whose inline value is a new schema of array
kind, with type `array`, the item tag's schema reference as `items` and every
other field at its zero value; the state left is the one the resolution of `e`
left, so the array schema is stored under no name and the registry is the one
the resolution of `e` left.  When the resolution of `e` has no result, neither
has that of `t`. -/
theorem dive_collection {σ : Type} (G : TypeGraph) (gen : Generator σ) (fuel n : Nat)
    (o : OpenAPI σ) (t e : RType) (tag : SchemaTag)
    (hk : G.kind t = .slice ∨ G.kind t = .array) (he : G.elem t = some e) :
    (∀ item o1, dive G gen fuel n o e tag = .ok (item, o1) →
      ∃ s, dive G gen fuel (n + 1) o t tag =
          .ok ({ name := item.name, ref := tag.ref, value := some s }, o1) ∧
        s.typeIs "array" = true ∧ s.type = ["array"] ∧ s.items = some item.schemaRef ∧
        s = { type := ["array"], properties := [], required := [],
              items := some item.schemaRef, description := "", exampleValue := .absent,
              nullable := false, min := none, max := none, minLength := 0,
              maxLength := none, xml := none }) ∧
    (dive G gen fuel n o e tag = .panic → dive G gen fuel (n + 1) o t tag = .panic) ∧
    (dive G gen fuel n o e tag = .outOfFuel →
      dive G gen fuel (n + 1) o t tag = .outOfFuel) := by
  have h := dive_sequence G gen fuel n o t e tag hk he
  refine ⟨fun item o1 hd => ⟨{ NewArraySchema with items := some item.schemaRef }, ?_, rfl, rfl,
    rfl, rfl⟩, fun hd => ?_, fun hd => ?_⟩ <;> rw [h, hd] <;> rfl

/-- Witness for C10: the slice `[]MyValue` of the sample types with budget 5 on
the empty registry: the tag has the name `MyValue` of the item tag, its schema
has type `array` and refers in `items` to `#/components/schemas/MyValue`, and
only the key `MyValue` is stored. -/
theorem dive_collection_witness :
    ∃ item o1 s,
      dive sampleGraph (sampleGen sampleGraph) 0 4 emptyOpenAPI (.node 1) SchemaTag.zero
        = .ok (item, o1) ∧
      dive sampleGraph (sampleGen sampleGraph) 0 5 emptyOpenAPI (.node 2) SchemaTag.zero =
        .ok ({ name := "MyValue", ref := "", value := some s }, o1) ∧
      s.type = ["array"] ∧ s.items = some item.schemaRef ∧
      item.ref = "#/components/schemas/MyValue" ∧
      s.properties = [] ∧ s.required = [] ∧
      o1.schemas.map (fun p => p.1) = ["MyValue"] := by
  obtain ⟨s, h1, -, h2, h3, h4⟩ :=
    (dive_collection sampleGraph (sampleGen sampleGraph) 0 4 emptyOpenAPI (.node 2) (.node 1)
      SchemaTag.zero (Or.inl rfl) rfl).1 _ _ rfl
  exact ⟨_, _, s, rfl, h1, h2, h3, rfl, by rw [h4], by rw [h4], rfl⟩

/-! ## Strings: splitting and decimal literals -/

theorem String.mk_toList_eq (s : String) : String.mk s.toList = s := rfl

theorem splitChars_ne_nil (sep : Char) (l : List Char) : splitChars sep l ≠ [] := by
  induction l with
  | nil => simp [splitChars]
  | cons c cs ih =>
    unfold splitChars
    split
    · simp
    · split <;> simp

/-- Without separator there is one part. -/
theorem splitChars_of_not_mem (sep : Char) (l : List Char) (h : sep ∉ l) :
    splitChars sep l = [l] := by
  induction l with
  | nil => rfl
  | cons c cs ih =>
    have hc : c ≠ sep := fun e => h (by simp [e])
    have hcs : sep ∉ cs := fun e => h (by simp [e])
    simp [splitChars, hc, ih hcs]

/-- The first separator ends the first part. -/
theorem splitChars_append_sep (sep : Char) (l1 l2 : List Char) (h : sep ∉ l1) :
    splitChars sep (l1 ++ sep :: l2) = l1 :: splitChars sep l2 := by
  induction l1 with
  | nil => simp [splitChars]
  | cons c cs ih =>
    have hc : c ≠ sep := fun e => h (by simp [e])
    have hcs : sep ∉ cs := fun e => h (by simp [e])
    simp [splitChars, hc, ih hcs]

/-- With a separator there are at least two parts. -/
theorem splitChars_two_of_mem (sep : Char) (l : List Char) (h : sep ∈ l) :
    ∃ a b rest, splitChars sep l = a :: b :: rest := by
  induction l with
  | nil => simp at h
  | cons c cs ih =>
    by_cases hc : c = sep
    · obtain ⟨b, rest, hb⟩ : ∃ b rest, splitChars sep cs = b :: rest := by
        cases hs : splitChars sep cs with
        | nil => exact absurd hs (splitChars_ne_nil sep cs)
        | cons b rest => exact ⟨b, rest, rfl⟩
      exact ⟨[], b, rest, by simp [splitChars, hc, hb]⟩
    · have hcs : sep ∈ cs := by
        rcases List.mem_cons.mp h with e | e
        · exact absurd e.symm hc
        · exact e
      obtain ⟨a, b, rest, hab⟩ := ih hcs
      exact ⟨c :: a, b, rest, by simp [splitChars, hc, hab]⟩

/-- A string without comma is its own name portion. -/
theorem split_of_not_mem (s : String) (sep : Char) (h : sep ∉ s.toList) :
    split s sep = [s] := by
  obtain ⟨l⟩ := s
  have hl : sep ∉ l := h
  show (splitChars sep l).map String.mk = [String.mk l]
  rw [splitChars_of_not_mem sep l hl]
  rfl

/-- Every character of a decimal literal is a digit. -/
theorem parseDigits_digit (l : List Char) (acc v : Nat) (h : parseDigits l acc = some v)
    (c : Char) (hc : c ∈ l) : digitVal c ≠ none := by
  induction l generalizing acc with
  | nil => simp at hc
  | cons d ds ih =>
    unfold parseDigits at h
    cases hd : digitVal d with
    | none => simp [hd] at h
    | some x =>
      simp only [hd] at h
      rcases List.mem_cons.mp hc with e | e
      · subst e
        simp [hd]
      · exact ih _ h e

/-- The accumulator is a lower bound of the value of a digit string. -/
theorem parseDigits_le (l : List Char) (acc n : Nat) (h : parseDigits l acc = some n) :
    acc ≤ n := by
  induction l generalizing acc with
  | nil =>
    simp only [parseDigits, Option.some.injEq] at h
    omega
  | cons c cs ih =>
    unfold parseDigits at h
    cases hd : digitVal c with
    | none => simp [hd] at h
    | some d =>
      simp only [hd] at h
      have := ih _ h
      omega

/-- The digits before the first character that is not a digit have a value. -/
theorem parseDigits_digitPrefix (l : List Char) (acc : Nat) :
    ∃ v, parseDigits (digitPrefix l) acc = some v := by
  induction l generalizing acc with
  | nil => exact ⟨acc, rfl⟩
  | cons c cs ih =>
    cases hd : digitVal c with
    | none => exact ⟨acc, by simp [digitPrefix, hd, parseDigits]⟩
    | some d =>
      obtain ⟨v, hv⟩ := ih (acc * 10 + d)
      exact ⟨v, by simp [digitPrefix, hd, parseDigits, hv]⟩

/-- A digit string is its own prefix of digits. -/
theorem digitPrefix_of_parseDigits (l : List Char) (acc n : Nat)
    (h : parseDigits l acc = some n) : digitPrefix l = l := by
  induction l generalizing acc with
  | nil => rfl
  | cons c cs ih =>
    unfold parseDigits at h
    cases hd : digitVal c with
    | none => simp [hd] at h
    | some d =>
      simp only [hd] at h
      simp [digitPrefix, hd, ih _ h]

/-- A character list that is its own prefix of digits is a digit string. -/
theorem parseDigits_of_digitPrefix (l : List Char) (acc : Nat) (h : digitPrefix l = l) :
    ∃ n, parseDigits l acc = some n := by
  obtain ⟨v, hv⟩ := parseDigits_digitPrefix l acc
  rw [h] at hv
  exact ⟨v, hv⟩

/-- The digit loop of `ParseUint` in terms of the value `v` of the digits before
the first character that is not a digit: a range error when `v` is above
`2^64 - 1`, else a syntax error when there is such a character, else `v`. -/
theorem parseUintLoop_eq (l : List Char) (acc v : Nat) (hacc : acc ≤ 18446744073709551615)
    (hv : parseDigits (digitPrefix l) acc = some v) :
    parseUintLoop l acc =
      if v > 18446744073709551615 then .rangeError
      else if digitPrefix l = l then .value v else .syntaxError := by
  induction l generalizing acc with
  | nil =>
    simp only [digitPrefix, parseDigits, Option.some.injEq] at hv
    subst hv
    simp [parseUintLoop, Nat.not_lt.mpr hacc, digitPrefix]
  | cons c cs ih =>
    cases hd : digitVal c with
    | none =>
      simp only [digitPrefix, hd, Option.isSome_none, Bool.false_eq_true, if_false,
        parseDigits, Option.some.injEq] at hv
      subst hv
      simp [parseUintLoop, hd, Nat.not_lt.mpr hacc, digitPrefix]
    | some d =>
      simp only [digitPrefix, hd, Option.isSome_some, if_true, parseDigits] at hv
      have hle := parseDigits_le _ _ _ hv
      by_cases h1 : acc ≥ 1844674407370955162
      · have : v > 18446744073709551615 := by omega
        simp [parseUintLoop, hd, h1, this]
      · by_cases h2 : acc * 10 + d > 18446744073709551615
        · have : v > 18446744073709551615 := by omega
          simp [parseUintLoop, hd, h1, h2, this]
        · have h3 := ih (acc * 10 + d) (by omega) hv
          simp only [parseUintLoop, hd, h1, h2, if_false, h3, digitPrefix,
            Option.isSome_some, if_true, List.cons.injEq, true_and]

/-- The digit loop of `ParseUint` on a digit string of value `n`. -/
theorem parseUintLoop_of_digits (l : List Char) (n : Nat) (h : parseDigits l 0 = some n) :
    parseUintLoop l 0 = if n > 18446744073709551615 then .rangeError else .value n := by
  have hp := digitPrefix_of_parseDigits l 0 n h
  have hv : parseDigits (digitPrefix l) 0 = some n := by rw [hp]; exact h
  rw [parseUintLoop_eq l 0 n (by omega) hv]
  simp [hp]

/-- `Atoi` on a decimal literal of a value within the range of `int`. -/
theorem Atoi_decimal (s : String) (a : Nat) (hne : s.toList ≠ [])
    (hd : parseDigits s.toList 0 = some a) (ha : a < 9223372036854775808) :
    Atoi s = ((a : Int), false) := by
  obtain ⟨l⟩ := s
  cases l with
  | nil => exact absurd rfl hne
  | cons c r =>
    have hd1 : parseDigits (c :: r) 0 = some a := hd
    have hc : digitVal c ≠ none := parseDigits_digit (c :: r) 0 a hd1 c (by simp)
    have h1 : c ≠ '-' := fun e => hc (by rw [e]; rfl)
    have h2 : c ≠ '+' := fun e => hc (by rw [e]; rfl)
    have hu : parseUintLoop (c :: r) 0 = .value a := by
      rw [parseUintLoop_of_digits (c :: r) a hd1]
      simp [Nat.not_lt.mpr (show a ≤ 18446744073709551615 by omega)]
    simp [Atoi, h1, h2, hu, Nat.not_le.mpr ha]

/-- Conversion to `uint64` keeps a value below `2^64`. -/
theorem toUint64_natCast (a : Nat) (ha : a < 18446744073709551616) :
    toUint64 (a : Int) = a := by
  unfold toUint64
  have : ((a : Int) % 18446744073709551616) = (a : Int) :=
    Int.emod_eq_of_lt (Int.ofNat_nonneg a) (by exact_mod_cast ha)
  rw [this]
  simp

/-! ## Tag annotator: one field -/

/-- A directive with prefix `p=` has a second part when split at `=`. -/
theorem split_eq_second (d : String) (p : List Char)
    (h : (p ++ ['=']).isPrefixOf d.toList = true) :
    ∃ arg, (split d '=')[1]? = some arg := by
  obtain ⟨l⟩ := d
  have hl : (p ++ ['=']).isPrefixOf l = true := h
  rw [List.isPrefixOf_iff_prefix] at hl
  obtain ⟨r, hr⟩ := hl
  have hm : '=' ∈ l := by
    rw [← hr]
    simp
  obtain ⟨a, b, rest, hab⟩ := splitChars_two_of_mem '=' l hm
  refine ⟨String.mk b, ?_⟩
  show ((splitChars '=' l).map String.mk)[1]? = _
  rw [hab]
  simp

theorem applyXML_type (f : StructField) (pv pv1 : Schema) (h : applyXML f pv = some pv1) :
    pv1.type = pv.type := by
  unfold applyXML at h
  split at h
  · cases h
    rfl
  · simp only [] at h
    split at h
    · cases h
    · cases h
      rfl

theorem applyExample_type (f : StructField) (pv : Schema) :
    (applyExample f pv).type = pv.type := by
  unfold applyExample
  split
  · rfl
  · split <;> rfl

theorem applyDescription_type (f : StructField) (pv : Schema) :
    (applyDescription f pv).type = pv.type := by
  unfold applyDescription
  split <;> split <;> (try split) <;> rfl

/-- The `min=` branch never panics and keeps the type. -/
theorem applyMin_ok (pv : Schema) (d : String) :
    ∃ pv1, applyMin pv d = .ok pv1 ∧ pv1.type = pv.type := by
  unfold applyMin
  split
  · rename_i hp
    obtain ⟨arg, harg⟩ := split_eq_second d ['m', 'i', 'n'] hp
    rw [harg]
    simp only []
    split
    · exact ⟨_, rfl, rfl⟩
    · split
      · exact ⟨_, rfl, rfl⟩
      · exact ⟨_, rfl, rfl⟩
  · exact ⟨_, rfl, rfl⟩

/-- The `max=` branch never panics and keeps the type. -/
theorem applyMax_ok (pv : Schema) (d : String) :
    ∃ pv1, applyMax pv d = .ok pv1 ∧ pv1.type = pv.type := by
  unfold applyMax
  split
  · rename_i hp
    obtain ⟨arg, harg⟩ := split_eq_second d ['m', 'a', 'x'] hp
    rw [harg]
    simp only []
    split
    · exact ⟨_, rfl, rfl⟩
    · split
      · exact ⟨_, rfl, rfl⟩
      · exact ⟨_, rfl, rfl⟩
  · exact ⟨_, rfl, rfl⟩

/-- The loop over the validation directives never panics and keeps the type. -/
theorem applyDirectives_ok (ds : List String) (pv : Schema) :
    ∃ pv1, applyDirectives ds pv = .ok pv1 ∧ pv1.type = pv.type := by
  induction ds generalizing pv with
  | nil => exact ⟨pv, rfl, rfl⟩
  | cons d ds ih =>
    obtain ⟨pv1, h1, t1⟩ := applyMin_ok pv d
    obtain ⟨pv2, h2, t2⟩ := applyMax_ok pv1 d
    obtain ⟨pv3, h3, t3⟩ := ih pv2
    refine ⟨pv3, ?_, by rw [t3, t2, t1]⟩
    simp [applyDirectives, h1, h2, h3, Outcome.bind]

/-- The required list only grows. -/
theorem requiredAfter_mem (f : StructField) (k : String) (req : List String) (x : String)
    (h : x ∈ req) : x ∈ requiredAfter f k req := by
  unfold requiredAfter
  split
  · split
    · simp [h]
    · exact h
  · exact h

/-- The loop body on a field whose property is located: the schema it leaves. -/
theorem parseField_located (f : StructField) (s : Schema) (p : SchemaRef) (pv pv1 : Schema)
    (hj : jsonTagName f ≠ "-") (hp : mapGet s.properties (resolvedName f) = some p)
    (hv : p.value = some pv) (hx : applyXML f pv = some pv1) :
    ∃ pv3, applyDirectives (split (f.tagGet "validate") ',') (applyExample f pv1) = .ok pv3 ∧
      pv3.type = pv.type ∧
      parseField f s = .ok
        { s with
          required := requiredAfter f (resolvedName f) s.required
          properties := mapSet s.properties (resolvedName f)
            { p with value := some (applyDescription f pv3) } } := by
  obtain ⟨pv3, h3, t3⟩ :=
    applyDirectives_ok (split (f.tagGet "validate") ',') (applyExample f pv1)
  refine ⟨pv3, h3, by rw [t3, applyExample_type, applyXML_type f pv pv1 hx], ?_⟩
  simp [parseField, hj, hp, hv, hx, h3, Outcome.bind]

/-- The outcomes of the loop body: the schema is left as it is (field or
annotation skipped), or the property is nil (a panic), or the located property
is rewritten. -/
theorem parseField_cases (f : StructField) (s : Schema) :
    parseField f s = .ok s ∨
    (∃ p, mapGet s.properties (resolvedName f) = some p ∧ p.value = none ∧
      parseField f s = .panic) ∨
    (∃ p pv pv4, jsonTagName f ≠ "-" ∧ mapGet s.properties (resolvedName f) = some p ∧
      p.value = some pv ∧ pv4.type = pv.type ∧
      parseField f s = .ok
        { s with
          required := requiredAfter f (resolvedName f) s.required
          properties := mapSet s.properties (resolvedName f) { p with value := some pv4 } }) := by
  by_cases hj : jsonTagName f = "-"
  · left
    simp [parseField, hj]
  · cases hp : mapGet s.properties (resolvedName f) with
    | none =>
      left
      simp [parseField, hj, hp]
    | some p =>
      cases hv : p.value with
      | none =>
        right
        left
        exact ⟨p, rfl, hv, by simp [parseField, hj, hp, hv]⟩
      | some pv =>
        cases hx : applyXML f pv with
        | none =>
          left
          simp [parseField, hj, hp, hv, hx]
        | some pv1 =>
          right
          right
          obtain ⟨pv3, -, t3, h⟩ := parseField_located f s p pv pv1 hj hp hv hx
          exact ⟨p, pv, applyDescription f pv3, hj, rfl, hv,
            by rw [applyDescription_type, t3], h⟩

/-! ## Tag annotator: the directives `required`, `min=`, `max=` -/

/-- No character of a decimal literal is the given non-digit. -/
theorem not_mem_of_parseDigits (l : List Char) (a : Nat) (h : parseDigits l 0 = some a)
    (c : Char) (hc : digitVal c = none) : c ∉ l :=
  fun hm => parseDigits_digit l 0 a h c hm hc

/-- The validation tag `required,min=a,max=b` splits into its three directives. -/
theorem split_required_min_max (la lb : List Char) (a b : Nat)
    (ha : parseDigits la 0 = some a) (hb : parseDigits lb 0 = some b) :
    split ("required,min=" ++ String.mk la ++ ",max=" ++ String.mk lb) ','
      = ["required", "min=" ++ String.mk la, "max=" ++ String.mk lb] := by
  have hca : ',' ∉ la := not_mem_of_parseDigits la a ha ',' rfl
  have hcb : ',' ∉ lb := not_mem_of_parseDigits lb b hb ',' rfl
  have h1 : ',' ∉ ['m', 'i', 'n', '='] ++ la := by
    simp [hca]
  have h2 : ',' ∉ ['m', 'a', 'x', '='] ++ lb := by
    simp [hcb]
  have hl : ("required,min=" ++ String.mk la ++ ",max=" ++ String.mk lb).toList
      = ['r', 'e', 'q', 'u', 'i', 'r', 'e', 'd'] ++ ',' ::
        ((['m', 'i', 'n', '='] ++ la) ++ ',' :: (['m', 'a', 'x', '='] ++ lb)) := by
    simp [String.toList]
  unfold split
  rw [hl, splitChars_append_sep ',' _ _ (by decide), splitChars_append_sep ',' _ _ h1,
    splitChars_of_not_mem ',' _ h2]
  rfl

/-- The argument of `p=` followed by a decimal literal is that literal. -/
theorem split_eq_decimal (p la : List Char) (a : Nat) (hp : '=' ∉ p)
    (ha : parseDigits la 0 = some a) :
    (split (String.mk (p ++ '=' :: la)) '=')[1]? = some (String.mk la) := by
  have hea : '=' ∉ la := not_mem_of_parseDigits la a ha '=' rfl
  show ((splitChars '=' (p ++ '=' :: la)).map String.mk)[1]? = _
  rw [splitChars_append_sep '=' _ _ hp, splitChars_of_not_mem '=' _ hea]
  rfl

/-- On a string-typed property `min=a` sets `minLength` to `a`. -/
theorem applyMin_decimal (pv : Schema) (la : List Char) (a : Nat)
    (ht : pv.type = ["string"]) (hne : la ≠ []) (ha : parseDigits la 0 = some a)
    (hr : a < 9223372036854775808) :
    applyMin pv ("min=" ++ String.mk la) = .ok { pv with minLength := a } := by
  have hpre : hasPrefix ("min=" ++ String.mk la) "min=" = true := by
    show List.isPrefixOf ['m', 'i', 'n', '='] ('m' :: 'i' :: 'n' :: '=' :: la) = true
    simp [List.isPrefixOf]
  have hsp : (split ("min=" ++ String.mk la) '=')[1]? = some (String.mk la) :=
    split_eq_decimal ['m', 'i', 'n'] la a (by decide) ha
  have hat : Atoi (String.mk la) = ((a : Int), false) := Atoi_decimal (String.mk la) a hne ha hr
  have hu : toUint64 (a : Int) = a := toUint64_natCast a (by omega)
  simp [applyMin, hpre, hsp, hat, hu, Schema.typeIs, ht]

/-- On a string-typed property `max=b` sets `maxLength` to `b`. -/
theorem applyMax_decimal (pv : Schema) (lb : List Char) (b : Nat)
    (ht : pv.type = ["string"]) (hne : lb ≠ []) (hb : parseDigits lb 0 = some b)
    (hr : b < 9223372036854775808) :
    applyMax pv ("max=" ++ String.mk lb) = .ok { pv with maxLength := some b } := by
  have hpre : hasPrefix ("max=" ++ String.mk lb) "max=" = true := by
    show List.isPrefixOf ['m', 'a', 'x', '='] ('m' :: 'a' :: 'x' :: '=' :: lb) = true
    simp [List.isPrefixOf]
  have hsp : (split ("max=" ++ String.mk lb) '=')[1]? = some (String.mk lb) :=
    split_eq_decimal ['m', 'a', 'x'] lb b (by decide) hb
  have hat : Atoi (String.mk lb) = ((b : Int), false) := Atoi_decimal (String.mk lb) b hne hb hr
  have hu : toUint64 (b : Int) = b := toUint64_natCast b (by omega)
  simp [applyMax, hpre, hsp, hat, hu, Schema.typeIs, ht]

/-- A `min=` directive is no `max=` directive. -/
theorem applyMax_min (pv : Schema) (la : List Char) :
    applyMax pv ("min=" ++ String.mk la) = .ok pv := by
  have hpre : hasPrefix ("min=" ++ String.mk la) "max=" = false := by
    show List.isPrefixOf ['m', 'a', 'x', '='] ('m' :: 'i' :: 'n' :: '=' :: la) = false
    simp [List.isPrefixOf]
  simp [applyMax, hpre]

/-- A `max=` directive is no `min=` directive. -/
theorem applyMin_max (pv : Schema) (lb : List Char) :
    applyMin pv ("max=" ++ String.mk lb) = .ok pv := by
  have hpre : hasPrefix ("max=" ++ String.mk lb) "min=" = false := by
    show List.isPrefixOf ['m', 'i', 'n', '='] ('m' :: 'a' :: 'x' :: '=' :: lb) = false
    simp [List.isPrefixOf]
  simp [applyMin, hpre]

/-- The directives `required,min=a,max=b` on a string-typed property set the
two length bounds and nothing else. -/
theorem applyDirectives_required_min_max (pv : Schema) (la lb : List Char) (a b : Nat)
    (ht : pv.type = ["string"])
    (hna : la ≠ []) (ha : parseDigits la 0 = some a) (hra : a < 9223372036854775808)
    (hnb : lb ≠ []) (hb : parseDigits lb 0 = some b) (hrb : b < 9223372036854775808) :
    applyDirectives (split ("required,min=" ++ String.mk la ++ ",max=" ++ String.mk lb) ',') pv
      = .ok { pv with minLength := a, maxLength := some b } := by
  rw [split_required_min_max la lb a b ha hb]
  have h0 : applyMin pv "required" = .ok pv := rfl
  have h0' : applyMax pv "required" = .ok pv := rfl
  simp only [applyDirectives, h0, h0', Outcome.bind, applyMin_decimal pv la a ht hna ha hra,
    applyMax_min, applyMin_max,
    applyMax_decimal { pv with minLength := a } lb b ht hnb hb hrb]

/-! ## Tag annotator: the loop over the fields -/

theorem parseStructTags_eq_body (G : TypeGraph) (fuel : Nat) (t : RType) (s : Schema) :
    parseStructTags G fuel t s = parseStructTagsBody G (embeddedCall G fuel) t s := by
  cases fuel <;> rfl

/-- On a struct type the annotator is the loop over its fields. -/
theorem parseStructTags_struct (G : TypeGraph) (fuel : Nat) (t : RType) (s : Schema)
    (ht : G.kind t = .struct) :
    parseStructTags G fuel t s = parseFields (embeddedCall G fuel) (G.fields t) s := by
  rw [parseStructTags_eq_body]
  simp [parseStructTagsBody, ht]

/-- On a pointer to a struct type the annotator is the loop over the fields of
the struct. -/
theorem parseStructTags_ptr_struct (G : TypeGraph) (fuel : Nat) (t e : RType) (s : Schema)
    (ht : G.kind t = .ptr) (he : G.elem t = some e) (hs : G.kind e = .struct) :
    parseStructTags G fuel t s = parseFields (embeddedCall G fuel) (G.fields e) s := by
  rw [parseStructTags_eq_body]
  simp [parseStructTagsBody, ht, he, hs]

/-- The loop over a concatenation is the loop over the first list followed by
the loop over the second. -/
theorem parseFields_append (recurse : RType → Schema → Outcome Schema)
    (fs gs : List StructField) (s : Schema) :
    parseFields recurse (fs ++ gs) s
      = (parseFields recurse fs s).bind (parseFields recurse gs) := by
  induction fs generalizing s with
  | nil => rfl
  | cons f fs ih =>
    simp only [List.cons_append, parseFields]
    rw [Outcome.bind_assoc]
    congr 1
    funext s1
    exact ih s1

theorem Schema.keeps_refl (s : Schema) : s.keeps s :=
  ⟨fun _ p pv hp hv => ⟨p, pv, hp, hv, rfl⟩, fun _ h => h⟩

theorem Schema.keeps_trans (s s1 s2 : Schema) (h1 : s.keeps s1) (h2 : s1.keeps s2) :
    s.keeps s2 := by
  refine ⟨fun k p pv hp hv => ?_, fun x hx => h2.2 x (h1.2 x hx)⟩
  obtain ⟨p1, pv1, hp1, hv1, t1⟩ := h1.1 k p pv hp hv
  obtain ⟨p2, pv2, hp2, hv2, t2⟩ := h2.1 k p1 pv1 hp1 hv1
  exact ⟨p2, pv2, hp2, hv2, by rw [t2, t1]⟩

/-- Lookup after an assignment. -/
theorem mapGet_mapSet {β : Type} (m : List (String × β)) (k k1 : String) (v : β) :
    mapGet (mapSet m k v) k1 = if k = k1 then some v else mapGet m k1 := by
  by_cases h : k = k1
  · subst h
    simp [mapGet_mapSet_self]
  · simp [h, mapGet_mapSet_other m k k1 v h]

/-- On a schema whose properties all carry a schema object, the loop body
returns; the schema it leaves keeps properties, types and required names, and
a property under another key than the field's is left as it was. -/
theorem parseField_plain (f : StructField) (s : Schema) (hs : s.hasValues) :
    ∃ s1, parseField f s = .ok s1 ∧ s1.hasValues ∧ s.keeps s1 ∧
      ∀ n, (jsonTagName f = "-" ∨ resolvedName f ≠ n) →
        mapGet s1.properties n = mapGet s.properties n := by
  rcases parseField_cases f s with h | ⟨p, hp, hv, -⟩ | ⟨p, pv, pv4, hj, hp, hv, ht, h⟩
  · exact ⟨s, h, hs, s.keeps_refl, fun _ _ => rfl⟩
  · exact absurd hv (hs _ p hp)
  · refine ⟨_, h, ?_, ⟨?_, ?_⟩, ?_⟩
    · intro k p1 hp1
      simp only [mapGet_mapSet] at hp1
      split at hp1
      · cases hp1
        simp
      · exact hs k p1 hp1
    · intro k p0 pv0 hp0 hv0
      simp only [mapGet_mapSet]
      split
      · rename_i hk
        subst hk
        rw [hp] at hp0
        cases hp0
        rw [hv] at hv0
        cases hv0
        exact ⟨_, pv4, rfl, rfl, ht⟩
      · exact ⟨p0, pv0, hp0, hv0, rfl⟩
    · intro x hx
      exact requiredAfter_mem f _ _ x hx
    · intro n hn
      rcases hn with hn | hn
      · exact absurd hn hj
      · simp only [mapGet_mapSet, hn, if_false]

/-- The loop over fields none of which is embedded, on a schema whose
properties all carry a schema object: it returns, and the schema it leaves keeps
properties, types and required names; a property under a key that no field
resolves to is left as it was. -/
theorem parseFields_plain (recurse : RType → Schema → Outcome Schema)
    (fs : List StructField) (hfs : ∀ g ∈ fs, g.anonymous = false) (s : Schema)
    (hs : s.hasValues) :
    ∃ s1, parseFields recurse fs s = .ok s1 ∧ s1.hasValues ∧ s.keeps s1 ∧
      ∀ n, (∀ g ∈ fs, jsonTagName g = "-" ∨ resolvedName g ≠ n) →
        mapGet s1.properties n = mapGet s.properties n := by
  induction fs generalizing s with
  | nil => exact ⟨s, rfl, hs, s.keeps_refl, fun _ _ => rfl⟩
  | cons f fs ih =>
    have hf : f.anonymous = false := hfs f (by simp)
    obtain ⟨s1, h1, hv1, k1, o1⟩ := parseField_plain f s hs
    obtain ⟨s2, h2, hv2, k2, o2⟩ := ih (fun g hg => hfs g (by simp [hg])) s1 hv1
    refine ⟨s2, ?_, hv2, s.keeps_trans s1 s2 k1 k2, ?_⟩
    · simp [parseFields, hf, h1, h2, Outcome.bind]
    · intro n hn
      rw [o2 n (fun g hg => hn g (by simp [hg])), o1 n (hn f (by simp))]

/-! ## Tag mapping -/

/-- The XML tag `x,attr` names the element `x` and marks it as an attribute. -/
theorem applyXML_attr (f : StructField) (pv : Schema) (x : String)
    (hxml : f.tagLookup "xml" = some (x ++ ",attr"))
    (hx1 : x ≠ "") (hx2 : x ≠ "-") (hx3 : ',' ∉ x.toList) :
    applyXML f pv = some { pv with xml := some { name := x, attr := true } } := by
  obtain ⟨lx⟩ := x
  have hc : ',' ∉ lx := hx3
  have hl : (String.mk lx ++ ",attr").toList = lx ++ ',' :: ['a', 't', 't', 'r'] := by
    simp [String.toList]
  have hsp : split (String.mk lx ++ ",attr") ',' = [String.mk lx, "attr"] := by
    unfold split
    rw [hl, splitChars_append_sep ',' _ _ hc, splitChars_of_not_mem ',' _ (by decide)]
    rfl
  simp [applyXML, hxml, hsp, firstPart, hx1, hx2]

/-- The description and nullable blocks leave the bounds, the XML object and
the example as they are. -/
theorem applyDescription_keeps (f : StructField) (pv : Schema) :
    (applyDescription f pv).minLength = pv.minLength ∧
    (applyDescription f pv).maxLength = pv.maxLength ∧
    (applyDescription f pv).xml = pv.xml ∧
    (applyDescription f pv).exampleValue = pv.exampleValue := by
  unfold applyDescription
  split <;> split <;> (try split) <;> exact ⟨rfl, rfl, rfl, rfl⟩

/-- C5 as the code has it: let the struct type `t` have a field `f` that is not
embedded, with JSON name `n` (not empty, not `-`), XML tag `x,attr` (`x` not
empty, not `-`, without comma), validation tag `required,min=da,max=db` where
`da` and `db` are decimal literals of `a` and `b` below `2^63` (the range of
`int`), and example literal `e`; let no field be embedded and no later field
resolve to `n`.  On a schema whose properties carry schema objects and whose
property `n` is string-typed, `parseStructTags` returns, and in the schema it
leaves the property `n` has `minLength = a`, `maxLength = b`, the XML element
name `x` with the attribute flag set and the example string `e`, and `n` is in
the required list. -/
theorem parseStructTags_tag_mapping (G : TypeGraph) (fuel : Nat) (t : RType)
    (pre post : List StructField) (f : StructField) (s : Schema) (p : SchemaRef) (pv : Schema)
    (n x e da db : String) (a b : Nat)
    (ht : G.kind t = .struct) (hf : G.fields t = pre ++ f :: post)
    (hpre : ∀ g ∈ pre, g.anonymous = false)
    (hpost : ∀ g ∈ post, g.anonymous = false ∧ (jsonTagName g = "-" ∨ resolvedName g ≠ n))
    (hs : s.hasValues)
    (hp : mapGet s.properties n = some p) (hv : p.value = some pv)
    (hstr : pv.typeIs "string" = true)
    (hanon : f.anonymous = false)
    (hjson : jsonTagName f = n) (hn1 : n ≠ "") (hn2 : n ≠ "-")
    (hxml : f.tagLookup "xml" = some (x ++ ",attr"))
    (hx1 : x ≠ "") (hx2 : x ≠ "-") (hx3 : ',' ∉ x.toList)
    (hval : f.tagLookup "validate" = some ("required,min=" ++ da ++ ",max=" ++ db))
    (hda : da.toList ≠ [] ∧ parseDigits da.toList 0 = some a ∧ a < 9223372036854775808)
    (hdb : db.toList ≠ [] ∧ parseDigits db.toList 0 = some b ∧ b < 9223372036854775808)
    (hex : f.tagLookup "example" = some e) :
    ∃ s1 p1 pv1, parseStructTags G fuel t s = .ok s1 ∧
      mapGet s1.properties n = some p1 ∧ p1.value = some pv1 ∧
      pv1.minLength = a ∧ pv1.maxLength = some b ∧
      pv1.xml = some { name := x, attr := true } ∧
      pv1.exampleValue = .str e ∧ n ∈ s1.required := by
  -- the fields before `f`
  obtain ⟨sa, ha, hva, hka, -⟩ := parseFields_plain (embeddedCall G fuel) pre hpre s hs
  obtain ⟨pa, pva, hpa, hvpa, htpa⟩ := hka.1 n p pv hp hv
  have htype : pva.type = ["string"] := by
    rw [htpa]
    simpa [Schema.typeIs] using hstr
  -- the field `f`
  have hres : resolvedName f = n := by
    simp [resolvedName, hjson, hn1]
  have hj : jsonTagName f ≠ "-" := by
    rw [hjson]
    exact hn2
  have hx := applyXML_attr f pva x hxml hx1 hx2 hx3
  obtain ⟨pv3, h3, -, hfield⟩ := parseField_located f sa pa pva _ hj (by rw [hres]; exact hpa)
    hvpa hx
  have hexm : applyExample f { pva with xml := some { name := x, attr := true } }
      = { pva with xml := some { name := x, attr := true }, exampleValue := .str e } := by
    simp [applyExample, hex, Schema.typeIs, htype]
  obtain ⟨la⟩ := da
  obtain ⟨lb⟩ := db
  have hdir := applyDirectives_required_min_max
    { pva with xml := some { name := x, attr := true }, exampleValue := .str e } la lb a b
    htype hda.1 hda.2.1 hda.2.2 hdb.1 hdb.2.1 hdb.2.2
  have htg : f.tagGet "validate" = "required,min=" ++ String.mk la ++ ",max=" ++ String.mk lb := by
    simp [StructField.tagGet, hval]
  rw [hexm, htg, hdir] at h3
  simp only [Outcome.ok.injEq] at h3
  have hreq : requiredAfter f (resolvedName f) sa.required = sa.required ++ [n] := by
    have hc : "required" ∈
        split ("required,min=" ++ String.mk la ++ ",max=" ++ String.mk lb) ',' := by
      rw [split_required_min_max la lb a b hda.2.1 hdb.2.1]
      simp
    simp [requiredAfter, hval, hc, hres]
  -- the fields after `f`
  have hvb : Schema.hasValues
      { sa with
        required := requiredAfter f (resolvedName f) sa.required
        properties := mapSet sa.properties (resolvedName f)
          { pa with value := some (applyDescription f pv3) } } := by
    intro k p1 hp1
    simp only [mapGet_mapSet] at hp1
    split at hp1
    · cases hp1
      simp
    · exact hva k p1 hp1
  obtain ⟨sc, hc, -, hkc, hoc⟩ := parseFields_plain (embeddedCall G fuel) post
    (fun g hg => (hpost g hg).1) _ hvb
  have hkeep := applyDescription_keeps f pv3
  refine ⟨sc, { pa with value := some (applyDescription f pv3) }, applyDescription f pv3,
    ?_, ?_, rfl, ?_, ?_, ?_, ?_, ?_⟩
  · rw [parseStructTags_struct G fuel t s ht, hf, parseFields_append, ha]
    simp only [Outcome.bind, parseFields, hanon, Bool.false_eq_true, if_false, hfield]
    exact hc
  · rw [hoc n (fun g hg => (hpost g hg).2)]
    simp [mapGet_mapSet, hres]
  · rw [hkeep.1, ← h3]
  · rw [hkeep.2.1, ← h3]
  · rw [hkeep.2.2.1, ← h3]
  · rw [hkeep.2.2.2, ← h3]
  · apply hkc.2
    show n ∈ requiredAfter f (resolvedName f) sa.required
    rw [hreq]
    simp

/-- Witness for C5, the example of the specification: the field `Name` of
`Person` with JSON name `name`, XML tag `name,attr`, validation
`required,min=1,max=10` and example `Carmack`. -/
theorem parseStructTags_tag_mapping_witness :
    ∃ s1 p1 pv1,
      parseStructTags sampleGraph 0 (.node 16)
        { Schema.zero with type := ["object"], properties := [("name", stringProperty)] }
        = .ok s1 ∧
      mapGet s1.properties "name" = some p1 ∧ p1.value = some pv1 ∧
      pv1.minLength = 1 ∧ pv1.maxLength = some 10 ∧
      pv1.xml = some { name := "name", attr := true } ∧
      pv1.exampleValue = .str "Carmack" ∧ "name" ∈ s1.required :=
  parseStructTags_tag_mapping sampleGraph 0 (.node 16) [] []
    (mkField "Name" (.node 0)
      [("json", "name"), ("xml", "name,attr"), ("validate", "required,min=1,max=10"),
       ("example", "Carmack")])
    { Schema.zero with type := ["object"], properties := [("name", stringProperty)] }
    stringProperty { Schema.zero with type := ["string"] }
    "name" "name" "Carmack" "1" "10" 1 10
    rfl rfl (by simp) (by simp)
    (by
      intro k p hp
      simp only [mapGet] at hp
      split at hp
      · cases hp
        simp [stringProperty]
      · cases hp)
    rfl rfl (by decide) rfl (by decide) (by decide) (by decide) rfl
    (by decide) (by decide) (by decide) rfl
    ⟨by decide, by decide, by decide⟩ ⟨by decide, by decide, by decide⟩ rfl

/-- Counterexample to C5 as stated: with the validation tag
`required,min=9223372036854775808,max=10` (`a = 2^63`, a non-negative integer)
on the string-typed property `name`, the annotator sets `minLength` to
`9223372036854775807`, the value `Atoi` returns with its range error, not to `a`. -/
theorem parseStructTags_tag_mapping_counterexample :
    ∃ s1 p1 pv1,
      parseStructTags sampleGraph 0 (.node 17)
        { Schema.zero with type := ["object"], properties := [("name", stringProperty)] }
        = .ok s1 ∧
      mapGet s1.properties "name" = some p1 ∧ p1.value = some pv1 ∧
      pv1.maxLength = some 10 ∧
      pv1.minLength = 9223372036854775807 ∧ pv1.minLength ≠ 9223372036854775808 :=
  ⟨_, _, _, rfl, rfl, rfl, rfl, rfl, by decide⟩

/-! ## Embedded fields -/

/-- A bind that has a result is not changed when its two parts are replaced by
parts that agree wherever the original parts have a result. -/
theorem Outcome.bind_congr_of_result {α β : Type} (x x1 : Outcome α)
    (f f1 : α → Outcome β) (h : x.bind f ≠ .outOfFuel)
    (hx : x ≠ .outOfFuel → x1 = x)
    (hf : ∀ a, x = .ok a → f a ≠ .outOfFuel → f1 a = f a) :
    x1.bind f1 = x.bind f := by
  cases x with
  | ok a =>
    rw [hx (by simp)]
    exact hf a rfl h
  | panic =>
    rw [hx (by simp)]
    rfl
  | outOfFuel => exact absurd rfl h

/-- The loop over the fields with a recursive call that has more results. -/
theorem parseFields_mono (r1 r2 : RType → Schema → Outcome Schema)
    (h : ∀ t s, r1 t s ≠ .outOfFuel → r2 t s = r1 t s)
    (fs : List StructField) (s : Schema) (hr : parseFields r1 fs s ≠ .outOfFuel) :
    parseFields r2 fs s = parseFields r1 fs s := by
  induction fs generalizing s with
  | nil => rfl
  | cons f fs ih =>
    simp only [parseFields] at hr ⊢
    apply Outcome.bind_congr_of_result _ _ _ _ hr
    · intro hne
      by_cases ha : f.anonymous = true
      · simp only [ha, if_true] at hne ⊢
        exact h _ _ hne
      · simp only [ha]
        rfl
    · intro s1 _ hs1
      exact ih s1 hs1

/-- The body of the annotator with a recursive call that has more results. -/
theorem parseStructTagsBody_mono (G : TypeGraph) (r1 r2 : RType → Schema → Outcome Schema)
    (h : ∀ t s, r1 t s ≠ .outOfFuel → r2 t s = r1 t s)
    (t : RType) (s : Schema) (hr : parseStructTagsBody G r1 t s ≠ .outOfFuel) :
    parseStructTagsBody G r2 t s = parseStructTagsBody G r1 t s := by
  by_cases hp : G.kind t = .ptr
  · cases he : G.elem t with
    | none => simp [parseStructTagsBody, hp, he]
    | some t1 =>
      by_cases hk : G.kind t1 = .struct
      · have e1 : ∀ rc, parseStructTagsBody G rc t s = parseFields rc (G.fields t1) s := by
          intro rc
          simp [parseStructTagsBody, hp, he, hk]
        rw [e1 r1] at hr
        rw [e1 r1, e1 r2]
        exact parseFields_mono r1 r2 h _ s hr
      · simp [parseStructTagsBody, hp, he, hk]
  · by_cases hk : G.kind t = .struct
    · have e1 : ∀ rc, parseStructTagsBody G rc t s = parseFields rc (G.fields t) s := by
        intro rc
        simp [parseStructTagsBody, hk]
      rw [e1 r1] at hr
      rw [e1 r1, e1 r2]
      exact parseFields_mono r1 r2 h _ s hr
    · simp [parseStructTagsBody, hp, hk]

/-- More fuel does not change a result of the annotator. -/
theorem embeddedCall_mono (G : TypeGraph) (k : Nat) (t : RType) (s : Schema)
    (hr : embeddedCall G k t s ≠ .outOfFuel) :
    embeddedCall G (k + 1) t s = embeddedCall G k t s := by
  induction k generalizing t s with
  | zero => exact absurd rfl hr
  | succ k ih =>
    show parseStructTags G (k + 1) t s = parseStructTags G k t s
    rw [parseStructTags_eq_body G (k + 1), parseStructTags_eq_body G k]
    apply parseStructTagsBody_mono G _ _ (fun t1 s1 h1 => ih t1 s1 h1)
    rw [← parseStructTags_eq_body G k]
    exact hr

/-- The recursive call for an embedded field whose type is a struct `E` or a
pointer to it is the loop over the fields of `E` with one unit of fuel less. -/
theorem embeddedCall_struct (G : TypeGraph) (k : Nat) (ty E : RType) (s : Schema)
    (hE : G.kind E = .struct)
    (hty : ty = E ∨ (G.kind ty = .ptr ∧ G.elem ty = some E)) :
    embeddedCall G (k + 1) ty s = parseFields (embeddedCall G k) (G.fields E) s := by
  show parseStructTags G k ty s = _
  rcases hty with h | ⟨h1, h2⟩
  · subst h
    exact parseStructTags_struct G k ty s hE
  · exact parseStructTags_ptr_struct G k ty E s h1 h2 hE

/-- C6: let the struct type `S` have the fields `pre`, then an embedded field
whose type is the struct type `E` or a pointer to it, then `post`.  On every
schema the annotation of `S` has the same result (a schema or a panic) as the
annotation loop over the fields `pre`, then the declared fields of `E`, then
`post`, and so as the annotation of any struct type `S1` declared with these
fields: each has a result for some fuel exactly when the other has, and the
results are equal.  The embedded field itself is not looked up as a property:
its own name and tags play no part. -/
theorem parseStructTags_embedded_flattening (G : TypeGraph) (S E : RType)
    (pre post : List StructField) (emb : StructField) (s : Schema) (r : Outcome Schema)
    (hS : G.kind S = .struct) (hfS : G.fields S = pre ++ emb :: post)
    (hemb : emb.anonymous = true)
    (hE : G.kind E = .struct)
    (hty : emb.type = E ∨ (G.kind emb.type = .ptr ∧ G.elem emb.type = some E))
    (hr : r ≠ .outOfFuel) :
    ((∃ fuel, parseStructTags G fuel S s = r) ↔
      (∃ fuel, parseFields (embeddedCall G fuel) (pre ++ (G.fields E ++ post)) s = r)) ∧
    (∀ S1, G.kind S1 = .struct → G.fields S1 = pre ++ (G.fields E ++ post) →
      ((∃ fuel, parseStructTags G fuel S s = r) ↔
        (∃ fuel, parseStructTags G fuel S1 s = r))) := by
  have hSeq : ∀ k, parseStructTags G k S s =
      (parseFields (embeddedCall G k) pre s).bind (fun s1 =>
        (embeddedCall G k emb.type s1).bind (parseFields (embeddedCall G k) post)) := by
    intro k
    rw [parseStructTags_struct G k S s hS, hfS, parseFields_append]
    simp only [parseFields, hemb, if_true]
  have hFlat : ∀ k, parseFields (embeddedCall G k) (pre ++ (G.fields E ++ post)) s =
      (parseFields (embeddedCall G k) pre s).bind (fun s1 =>
        (parseFields (embeddedCall G k) (G.fields E) s1).bind
          (parseFields (embeddedCall G k) post)) := by
    intro k
    rw [parseFields_append]
    congr 1
    funext s1
    rw [parseFields_append]
  have hmono : ∀ k fs s1, parseFields (embeddedCall G k) fs s1 ≠ .outOfFuel →
      parseFields (embeddedCall G (k + 1)) fs s1 = parseFields (embeddedCall G k) fs s1 :=
    fun k fs s1 h => parseFields_mono _ _ (fun t2 s2 h2 => embeddedCall_mono G k t2 s2 h2) fs s1 h
  have hmain : (∃ fuel, parseStructTags G fuel S s = r) ↔
      (∃ fuel, parseFields (embeddedCall G fuel) (pre ++ (G.fields E ++ post)) s = r) := by
    constructor
    · rintro ⟨fuel, h⟩
      refine ⟨fuel, ?_⟩
      rw [← h, hSeq, hFlat]
      have hne : (parseFields (embeddedCall G fuel) pre s).bind (fun s1 =>
          (embeddedCall G fuel emb.type s1).bind (parseFields (embeddedCall G fuel) post))
          ≠ .outOfFuel := by
        rw [← hSeq, h]
        exact hr
      apply Outcome.bind_congr_of_result _ _ _ _ hne (fun _ => rfl)
      intro s1 _ hs1
      apply Outcome.bind_congr_of_result _ _ _ _ hs1 _ (fun _ _ _ => rfl)
      intro hcall
      cases fuel with
      | zero => exact absurd rfl hcall
      | succ k =>
        rw [embeddedCall_struct G k emb.type E s1 hE hty] at hcall ⊢
        exact hmono k _ s1 hcall
    · rintro ⟨fuel, h⟩
      refine ⟨fuel + 1, ?_⟩
      rw [← h, hSeq, hFlat]
      have hne : (parseFields (embeddedCall G fuel) pre s).bind (fun s1 =>
          (parseFields (embeddedCall G fuel) (G.fields E) s1).bind
            (parseFields (embeddedCall G fuel) post)) ≠ .outOfFuel := by
        rw [← hFlat, h]
        exact hr
      apply Outcome.bind_congr_of_result _ _ _ _ hne (fun h1 => hmono fuel pre s h1)
      intro s1 _ hs1
      apply Outcome.bind_congr_of_result _ _ _ _ hs1
      · intro _
        exact embeddedCall_struct G fuel emb.type E s1 hE hty
      · intro s2 _ hs2
        exact hmono fuel post s2 hs2
  refine ⟨hmain, fun S1 hS1 hfS1 => ?_⟩
  rw [hmain]
  constructor
  · rintro ⟨fuel, h⟩
    exact ⟨fuel, by rw [parseStructTags_struct G fuel S1 s hS1, hfS1]; exact h⟩
  · rintro ⟨fuel, h⟩
    exact ⟨fuel, by rw [parseStructTags_struct G fuel S1 s hS1, hfS1] at h; exact h⟩

/-- Witness for C6: `Derived` embeds `Base`; annotating it gives the schema that
annotating the flattened struct `Flat` gives. -/
theorem parseStructTags_embedded_flattening_witness :
    ∃ s1,
      parseStructTags sampleGraph 0 (.node 15)
        { Schema.zero with
          properties := [("id", { ref := "", value := some { Schema.zero with type := ["integer"] } }),
                         ("name", stringProperty)] } = .ok s1 ∧
      s1.required = ["id", "name"] ∧
      ∃ fuel, parseStructTags sampleGraph fuel (.node 14)
        { Schema.zero with
          properties := [("id", { ref := "", value := some { Schema.zero with type := ["integer"] } }),
                         ("name", stringProperty)] } = .ok s1 :=
  ⟨_, rfl, rfl,
    ((parseStructTags_embedded_flattening sampleGraph (.node 14) (.node 13) []
      [mkField "Name" (.node 0) [("json", "name"), ("validate", "required")]]
      (mkEmbedded "Base" (.node 13) []) _ _ rfl rfl rfl rfl (Or.inl rfl)
      (fun h => Outcome.noConfusion h)).2 (.node 15) rfl rfl).mpr ⟨0, rfl⟩⟩

/-! ## Registry: creation on a miss -/

/-- An assignment to an existing key leaves the list of keys as it is. -/
theorem mapSet_keys {β : Type} (m : List (String × β)) (k : String) (v w : β)
    (h : mapGet m k = some w) :
    (mapSet m k v).map (fun p => p.1) = m.map (fun p => p.1) := by
  induction m with
  | nil => simp [mapGet] at h
  | cons p rest ih =>
    obtain ⟨k1, w1⟩ := p
    by_cases hk : k1 = k
    · simp [mapSet, hk]
    · simp only [mapGet, hk, if_false] at h
      simp [mapSet, hk, ih h]

/-- A key has no value exactly when it is not among the keys. -/
theorem mapGet_eq_none_iff {β : Type} (m : List (String × β)) (k : String) :
    mapGet m k = none ↔ k ∉ m.map (fun p => p.1) := by
  induction m with
  | nil => simp [mapGet]
  | cons p rest ih =>
    obtain ⟨k1, w1⟩ := p
    by_cases hk : k1 = k
    · simp [mapGet, hk]
    · have hk' : ¬ k = k1 := fun e => hk e.symm
      simp [mapGet, hk, hk', ih]

/-- Maps with the same keys miss the same keys. -/
theorem mapGet_isNone_congr {β : Type} (m m1 : List (String × β)) (k : String)
    (h : m1.map (fun p => p.1) = m.map (fun p => p.1)) :
    (mapGet m1 k).isNone = (mapGet m k).isNone := by
  have e : mapGet m1 k = none ↔ mapGet m k = none := by
    rw [mapGet_eq_none_iff, mapGet_eq_none_iff, h]
  cases h1 : mapGet m1 k <;> cases h2 : mapGet m k <;> simp_all

/-- The XML block takes the `continue` exactly for an XML tag with name
portion `-`. -/
theorem applyXML_eq_none_iff (f : StructField) (pv : Schema) :
    applyXML f pv = none ↔ xmlSkipped f = true := by
  unfold applyXML xmlSkipped
  cases f.tagLookup "xml" with
  | none => simp
  | some xmlTag =>
    by_cases h : firstPart (split xmlTag ',') = "-" <;> simp [h]

/-- The names a single field contributes to the required list. -/
theorem requiredNames_single (s : Schema) (f : StructField) :
    requiredNames s [f]
      = if (carriesRequired f && !isSkipped s f) = true then [resolvedName f] else [] := by
  unfold requiredNames
  by_cases h : (carriesRequired f && !isSkipped s f) = true <;> simp [List.filter, h]

theorem requiredNames_append (s : Schema) (a b : List StructField) :
    requiredNames s (a ++ b) = requiredNames s a ++ requiredNames s b := by
  simp [requiredNames]

/-- The contributed names depend on the schema only through its property keys. -/
theorem requiredNames_congr (s s1 : Schema) (flat : List StructField)
    (h : s1.properties.map (fun p => p.1) = s.properties.map (fun p => p.1)) :
    requiredNames s1 flat = requiredNames s flat := by
  have e : ∀ f, isSkipped s1 f = isSkipped s f := by
    intro f
    simp only [isSkipped, mapGet_isNone_congr s.properties s1.properties (resolvedName f) h]
  simp only [requiredNames, e]

/-- What the validation block appends for a field. -/
theorem requiredAfter_eq (f : StructField) (k : String) (req : List String) :
    requiredAfter f k req = req ++ (if carriesRequired f = true then [k] else []) := by
  unfold requiredAfter carriesRequired
  cases f.tagLookup "validate" with
  | none => simp
  | some v =>
    by_cases h : "required" ∈ split v ','
    · simp [h]
    · simp [h]

/-- The loop body on a field that is not embedded keeps the property names and
appends to the required list the name the field contributes. -/
theorem parseField_required (f : StructField) (s s1 : Schema) (h : parseField f s = .ok s1) :
    s1.properties.map (fun p => p.1) = s.properties.map (fun p => p.1) ∧
    s1.required = s.required ++ requiredNames s [f] := by
  rw [requiredNames_single]
  by_cases hj : jsonTagName f = "-"
  · simp only [parseField, hj, if_true, Outcome.ok.injEq] at h
    subst h
    simp [isSkipped, hj]
  · cases hp : mapGet s.properties (resolvedName f) with
    | none =>
      simp only [parseField, hj, if_false, hp, Outcome.ok.injEq] at h
      subst h
      simp [isSkipped, hp]
    | some p =>
      cases hv : p.value with
      | none => simp [parseField, hj, hp, hv] at h
      | some pv =>
        cases hx : applyXML f pv with
        | none =>
          simp only [parseField, hj, if_false, hp, hv, hx, Outcome.ok.injEq] at h
          subst h
          have hs : xmlSkipped f = true := (applyXML_eq_none_iff f pv).mp hx
          simp [isSkipped, hs]
        | some pv1 =>
          obtain ⟨pv3, -, -, hf⟩ := parseField_located f s p pv pv1 hj hp hv hx
          rw [hf] at h
          simp only [Outcome.ok.injEq] at h
          subst h
          have hs : xmlSkipped f = false := by
            cases hxs : xmlSkipped f with
            | false => rfl
            | true =>
              rw [(applyXML_eq_none_iff f pv).mpr hxs] at hx
              cases hx
          refine ⟨mapSet_keys _ _ _ p hp, ?_⟩
          simp [requiredAfter_eq, isSkipped, hj, hp, hs]

/-! ## Tag annotator: the whole annotation -/

theorem flatFields_eq_body (G : TypeGraph) (fuel : Nat) (t : RType) :
    flatFields G fuel t = flatBody G (flatCall G fuel) t := by
  cases fuel <;> rfl

theorem flatList_cons (recurse : RType → Option (List StructField)) (f : StructField)
    (fs : List StructField) (a b : List StructField)
    (ha : (if f.anonymous then recurse f.type else some [f]) = some a)
    (hb : flatList recurse fs = some b) :
    flatList recurse (f :: fs) = some (a ++ b) := by
  simp only [flatList, ha, hb]

/-- The loop over the fields keeps the property names and appends to the
required list what the flattened fields contribute, provided the recursive call
does so. -/
theorem parseFields_sound (recurse : RType → Schema → Outcome Schema)
    (frec : RType → Option (List StructField))
    (hrec : ∀ t s s1, recurse t s = .ok s1 →
      s1.properties.map (fun p => p.1) = s.properties.map (fun p => p.1) ∧
      ∃ flat, frec t = some flat ∧ s1.required = s.required ++ requiredNames s flat)
    (fs : List StructField) (s s1 : Schema) (h : parseFields recurse fs s = .ok s1) :
    s1.properties.map (fun p => p.1) = s.properties.map (fun p => p.1) ∧
    ∃ flat, flatList frec fs = some flat ∧ s1.required = s.required ++ requiredNames s flat := by
  induction fs generalizing s with
  | nil =>
    simp only [parseFields, Outcome.ok.injEq] at h
    subst h
    exact ⟨rfl, [], rfl, by simp [requiredNames]⟩
  | cons f fs ih =>
    simp only [parseFields, Outcome.bind_eq_ok] at h
    obtain ⟨s2, hstep, hrest⟩ := h
    obtain ⟨hk2, flat2, hf2, hr2⟩ := ih s2 hrest
    have hfirst : s2.properties.map (fun p => p.1) = s.properties.map (fun p => p.1) ∧
        ∃ flat1, (if f.anonymous then frec f.type else some [f]) = some flat1 ∧
          s2.required = s.required ++ requiredNames s flat1 := by
      by_cases ha : f.anonymous = true
      · simp only [ha, if_true] at hstep ⊢
        exact hrec _ _ _ hstep
      · simp only [ha] at hstep ⊢
        obtain ⟨h1, h2⟩ := parseField_required f s s2 hstep
        exact ⟨h1, [f], rfl, h2⟩
    obtain ⟨hk1, flat1, hf1, hr1⟩ := hfirst
    refine ⟨by rw [hk2, hk1], flat1 ++ flat2, flatList_cons frec f fs flat1 flat2 hf1 hf2, ?_⟩
    rw [hr2, hr1, requiredNames_congr s s2 flat2 hk1, requiredNames_append, List.append_assoc]

/-- The body of the annotator, likewise. -/
theorem parseStructTagsBody_sound (G : TypeGraph) (recurse : RType → Schema → Outcome Schema)
    (frec : RType → Option (List StructField))
    (hrec : ∀ t s s1, recurse t s = .ok s1 →
      s1.properties.map (fun p => p.1) = s.properties.map (fun p => p.1) ∧
      ∃ flat, frec t = some flat ∧ s1.required = s.required ++ requiredNames s flat)
    (t : RType) (s s1 : Schema) (h : parseStructTagsBody G recurse t s = .ok s1) :
    s1.properties.map (fun p => p.1) = s.properties.map (fun p => p.1) ∧
    ∃ flat, flatBody G frec t = some flat ∧ s1.required = s.required ++ requiredNames s flat := by
  have hnil : ∀ s2 : Schema, Outcome.ok s = Outcome.ok s2 →
      s2.properties.map (fun p => p.1) = s.properties.map (fun p => p.1) ∧
      ∃ flat, some ([] : List StructField) = some flat ∧
        s2.required = s.required ++ requiredNames s flat := by
    intro s2 e
    simp only [Outcome.ok.injEq] at e
    subst e
    exact ⟨rfl, [], rfl, by simp [requiredNames]⟩
  by_cases hp : G.kind t = .ptr
  · cases he : G.elem t with
    | none => simp [parseStructTagsBody, hp, he] at h
    | some t1 =>
      by_cases hk : G.kind t1 = .struct
      · simp only [parseStructTagsBody, flatBody, hp, he, hk, if_true, ne_eq, not_true_eq_false,
          if_false] at h ⊢
        exact parseFields_sound recurse frec hrec _ s s1 h
      · simp only [parseStructTagsBody, flatBody, hp, he, hk, if_true, ne_eq, not_false_eq_true]
          at h ⊢
        exact hnil s1 h
  · by_cases hk : G.kind t = .struct
    · simp only [parseStructTagsBody, flatBody, hp, hk, if_false, ne_eq, not_true_eq_false] at h ⊢
      exact parseFields_sound recurse frec hrec _ s s1 h
    · simp only [parseStructTagsBody, flatBody, hp, hk, if_false, ne_eq, not_false_eq_true,
        if_true] at h ⊢
      exact hnil s1 h

/-- A recursive call that returns has kept the property names and appended to
the required list what the flattened fields of the type contribute. -/
theorem embeddedCall_sound (G : TypeGraph) (fuel : Nat) (t : RType) (s s1 : Schema)
    (h : embeddedCall G fuel t s = .ok s1) :
    s1.properties.map (fun p => p.1) = s.properties.map (fun p => p.1) ∧
    ∃ flat, flatCall G fuel t = some flat ∧ s1.required = s.required ++ requiredNames s flat := by
  induction fuel generalizing t s s1 with
  | zero => cases h
  | succ k ih =>
    have h1 : parseStructTagsBody G (embeddedCall G k) t s = .ok s1 := by
      rw [← parseStructTags_eq_body]
      exact h
    have := parseStructTagsBody_sound G _ (flatCall G k) (fun t2 s2 s3 h2 => ih t2 s2 s3 h2)
      t s s1 h1
    rw [← flatFields_eq_body] at this
    exact this

/-- An annotation that returns has kept the property names and appended to the
required list what the flattened fields of the type contribute. -/
theorem parseStructTags_sound (G : TypeGraph) (fuel : Nat) (t : RType) (s s1 : Schema)
    (h : parseStructTags G fuel t s = .ok s1) :
    s1.properties.map (fun p => p.1) = s.properties.map (fun p => p.1) ∧
    ∃ flat, flatFields G fuel t = some flat ∧
      s1.required = s.required ++ requiredNames s flat :=
  embeddedCall_sound G (fuel + 1) t s s1 h

/-- The loop over the fields returns on a schema whose properties carry schema
objects when the fields can be flattened, provided the recursive call does. -/
theorem parseFields_returns (recurse : RType → Schema → Outcome Schema)
    (frec : RType → Option (List StructField))
    (hrec : ∀ t s flat, frec t = some flat → s.hasValues →
      ∃ s1, recurse t s = .ok s1 ∧ s1.hasValues)
    (fs : List StructField) (s : Schema) (flat : List StructField)
    (hf : flatList frec fs = some flat) (hs : s.hasValues) :
    ∃ s1, parseFields recurse fs s = .ok s1 ∧ s1.hasValues := by
  induction fs generalizing s flat with
  | nil => exact ⟨s, rfl, hs⟩
  | cons f fs ih =>
    simp only [flatList] at hf
    cases h1 : (if f.anonymous then frec f.type else some [f]) with
    | none => simp [h1] at hf
    | some a =>
      cases h2 : flatList frec fs with
      | none => simp [h1, h2] at hf
      | some b =>
        have hstep : ∃ s2, (if f.anonymous then recurse f.type s else parseField f s) = .ok s2 ∧
            s2.hasValues := by
          by_cases ha : f.anonymous = true
          · simp only [ha, if_true] at h1 ⊢
            exact hrec _ s a h1 hs
          · simp only [ha]
            obtain ⟨s2, e, hv, -, -⟩ := parseField_plain f s hs
            exact ⟨s2, e, hv⟩
        obtain ⟨s2, e2, hv2⟩ := hstep
        obtain ⟨s3, e3, hv3⟩ := ih s2 b h2 hv2
        exact ⟨s3, by simp only [parseFields, e2, Outcome.bind, e3], hv3⟩

/-- The body of the annotator, likewise. -/
theorem parseStructTagsBody_returns (G : TypeGraph)
    (recurse : RType → Schema → Outcome Schema) (frec : RType → Option (List StructField))
    (hrec : ∀ t s flat, frec t = some flat → s.hasValues →
      ∃ s1, recurse t s = .ok s1 ∧ s1.hasValues)
    (t : RType) (s : Schema) (flat : List StructField)
    (hf : flatBody G frec t = some flat) (hs : s.hasValues) :
    ∃ s1, parseStructTagsBody G recurse t s = .ok s1 ∧ s1.hasValues := by
  by_cases hp : G.kind t = .ptr
  · cases he : G.elem t with
    | none => simp [flatBody, hp, he] at hf
    | some t1 =>
      by_cases hk : G.kind t1 = .struct
      · simp only [parseStructTagsBody, flatBody, hp, he, hk, if_true, ne_eq, not_true_eq_false,
          if_false] at hf ⊢
        exact parseFields_returns recurse frec hrec _ s flat hf hs
      · exact ⟨s, by simp [parseStructTagsBody, hp, he, hk], hs⟩
  · by_cases hk : G.kind t = .struct
    · simp only [parseStructTagsBody, flatBody, hp, hk, if_false, ne_eq, not_true_eq_false]
        at hf ⊢
      exact parseFields_returns recurse frec hrec _ s flat hf hs
    · exact ⟨s, by simp [parseStructTagsBody, hp, hk], hs⟩

/-- A recursive call returns on a schema whose properties carry schema objects
when the type can be flattened with the same fuel. -/
theorem embeddedCall_returns (G : TypeGraph) (fuel : Nat) (t : RType) (s : Schema)
    (flat : List StructField) (hf : flatCall G fuel t = some flat) (hs : s.hasValues) :
    ∃ s1, embeddedCall G fuel t s = .ok s1 ∧ s1.hasValues := by
  induction fuel generalizing t s flat with
  | zero => cases hf
  | succ k ih =>
    have h1 : flatBody G (flatCall G k) t = some flat := by
      rw [← flatFields_eq_body]
      exact hf
    have := parseStructTagsBody_returns G (embeddedCall G k) (flatCall G k)
      (fun t2 s2 fl2 h2 hs2 => ih t2 s2 fl2 h2 hs2) t s flat h1 hs
    rw [← parseStructTags_eq_body] at this
    exact this

/-- The annotation returns on a schema whose properties carry schema objects
when the type can be flattened with the same fuel. -/
theorem parseStructTags_returns (G : TypeGraph) (fuel : Nat) (t : RType) (s : Schema)
    (flat : List StructField) (hf : flatFields G fuel t = some flat) (hs : s.hasValues) :
    ∃ s1, parseStructTags G fuel t s = .ok s1 ∧ s1.hasValues :=
  embeddedCall_returns G (fuel + 1) t s flat hf hs

/-! ## Property names, required list and skipped fields -/

/-- C12 as the code has it: `parseStructTags` never adds or removes a property:
whenever it returns, the property names of the schema are those before, in the
same order (and it returns on a schema whose properties carry schema objects
when the embedded structs can be flattened with the fuel given); and a field
that is not embedded, whose resolved name has no property in the schema, leaves
the whole schema unchanged. -/
theorem parseStructTags_property_names (G : TypeGraph) (fuel : Nat) (t : RType) (s : Schema) :
    (∀ s1, parseStructTags G fuel t s = .ok s1 →
      s1.properties.map (fun p => p.1) = s.properties.map (fun p => p.1)) ∧
    (∀ flat, flatFields G fuel t = some flat → s.hasValues →
      ∃ s1, parseStructTags G fuel t s = .ok s1 ∧
        s1.properties.map (fun p => p.1) = s.properties.map (fun p => p.1)) ∧
    (∀ (recurse : RType → Schema → Outcome Schema) (f : StructField),
      f.anonymous = false → mapGet s.properties (resolvedName f) = none →
      parseFields recurse [f] s = .ok s) := by
  refine ⟨fun s1 h => (parseStructTags_sound G fuel t s s1 h).1, fun flat hf hs => ?_,
    fun recurse f ha hp => ?_⟩
  · obtain ⟨s1, h1, -⟩ := parseStructTags_returns G fuel t s flat hf hs
    exact ⟨s1, h1, (parseStructTags_sound G fuel t s s1 h1).1⟩
  · have h : parseField f s = .ok s := by
      by_cases hj : jsonTagName f = "-"
      · simp [parseField, hj]
      · simp [parseField, hj, hp]
    simp [parseFields, ha, h, Outcome.bind]

/-- Witness for C12: annotating `Derived` keeps the property names `id` and
`name`; its field `Name` leaves a schema without the property `name` unchanged. -/
theorem parseStructTags_property_names_witness :
    (∃ s1, parseStructTags sampleGraph 1 (.node 14)
        { Schema.zero with
          properties := [("id", { ref := "", value := some { Schema.zero with type := ["integer"] } }),
                         ("name", stringProperty)] } = .ok s1 ∧
      s1.properties.map (fun p => p.1) = ["id", "name"]) ∧
    parseFields (embeddedCall sampleGraph 0)
      [mkField "Name" (.node 0) [("json", "name"), ("validate", "required")]] Schema.zero
      = .ok Schema.zero :=
  ⟨⟨_, rfl, (parseStructTags_property_names sampleGraph 1 (.node 14)
      { Schema.zero with
        properties := [("id", { ref := "", value := some { Schema.zero with type := ["integer"] } }),
                       ("name", stringProperty)] }).1 _ rfl⟩,
   (parseStructTags_property_names sampleGraph 0 (.node 14) Schema.zero).2.2 _ _ rfl rfl⟩

/-- Counterexample to C12 as stated: the embedded field `Base` of `Derived` has
the resolved name `Base`, for which the schema has no property, yet processing
the field changes the schema: the fields of `Base` are annotated and `id` is
appended to the required list. -/
theorem parseStructTags_property_names_counterexample :
    sampleGraph.field (.node 14) 0 = some (mkEmbedded "Base" (.node 13) []) ∧
    mapGet [("id", ({ ref := "", value := some { Schema.zero with type := ["integer"] } } : SchemaRef)),
            ("name", stringProperty)] (resolvedName (mkEmbedded "Base" (.node 13) [])) = none ∧
    ∃ s1,
      parseFields (embeddedCall sampleGraph 1) [mkEmbedded "Base" (.node 13) []]
        { Schema.zero with
          properties := [("id", { ref := "", value := some { Schema.zero with type := ["integer"] } }),
                         ("name", stringProperty)] } = .ok s1 ∧
      s1.required = ["id"] ∧
      s1.required ≠ Schema.required
        { Schema.zero with
          properties := [("id", { ref := "", value := some { Schema.zero with type := ["integer"] } }),
                         ("name", stringProperty)] } :=
  ⟨rfl, rfl, _, rfl, rfl, by decide⟩

/-- C14: whenever `parseStructTags` returns, the required list of the schema is
the list before annotation followed by the resolved property names of the
fields, taken in declaration order with the fields of embedded structs in place
of the embedded field, that carry the directive `required` and are not skipped
(JSON name `-`, property missing, XML name `-`), a name being appended again for
every such field; and it returns on a schema whose properties carry schema
objects when the embedded structs can be flattened with the fuel given. -/
theorem parseStructTags_required_list (G : TypeGraph) (fuel : Nat) (t : RType) (s : Schema) :
    (∀ s1, parseStructTags G fuel t s = .ok s1 →
      ∃ flat, flatFields G fuel t = some flat ∧
        s1.required = s.required ++ requiredNames s flat) ∧
    (∀ flat, flatFields G fuel t = some flat → s.hasValues →
      ∃ s1, parseStructTags G fuel t s = .ok s1 ∧
        s1.required = s.required ++ requiredNames s flat) := by
  refine ⟨fun s1 h => (parseStructTags_sound G fuel t s s1 h).2, fun flat hf hs => ?_⟩
  obtain ⟨s1, h1, -⟩ := parseStructTags_returns G fuel t s flat hf hs
  obtain ⟨flat1, hf1, hr⟩ := (parseStructTags_sound G fuel t s s1 h1).2
  rw [hf] at hf1
  cases hf1
  exact ⟨s1, h1, hr⟩

/-- Witness for C14: on a schema that already requires `id`, annotating
`Derived`, which embeds `Base`, appends `id` again (from the embedded struct)
and then `name`. -/
theorem parseStructTags_required_list_witness :
    ∃ s1, parseStructTags sampleGraph 1 (.node 14)
        { Schema.zero with
          required := ["id"]
          properties := [("id", { ref := "", value := some { Schema.zero with type := ["integer"] } }),
                         ("name", stringProperty)] } = .ok s1 ∧
      s1.required = ["id", "id", "name"] := by
  obtain ⟨flat, hf, hr⟩ := (parseStructTags_required_list sampleGraph 1 (.node 14)
    { Schema.zero with
      required := ["id"]
      properties := [("id", { ref := "", value := some { Schema.zero with type := ["integer"] } }),
                     ("name", stringProperty)] }).1 _ rfl
  exact ⟨_, rfl, rfl⟩

/-- C19 as the code has it: for a field that is not embedded, a JSON tag name
`-` leaves the schema unchanged, and so does an XML tag with name portion `-`
when the property under the resolved name, if there is one, carries a schema
object: no property is modified and nothing is appended to the required list,
whatever other tags the field carries. -/
theorem parseFields_skipped_field (recurse : RType → Schema → Outcome Schema)
    (f : StructField) (s : Schema) (ha : f.anonymous = false) :
    (jsonTagName f = "-" → parseFields recurse [f] s = .ok s) ∧
    (xmlSkipped f = true →
      (∀ p, mapGet s.properties (resolvedName f) = some p → p.value ≠ none) →
      parseFields recurse [f] s = .ok s) := by
  constructor
  · intro hj
    simp [parseFields, ha, parseField, hj, Outcome.bind]
  · intro hx hv
    have h : parseField f s = .ok s := by
      by_cases hj : jsonTagName f = "-"
      · simp [parseField, hj]
      · cases hp : mapGet s.properties (resolvedName f) with
        | none => simp [parseField, hj, hp]
        | some p =>
          cases hpv : p.value with
          | none => exact absurd hpv (hv p hp)
          | some pv =>
            have hn : applyXML f pv = none := (applyXML_eq_none_iff f pv).mpr hx
            simp [parseField, hj, hp, hpv, hn]
    simp [parseFields, ha, h, Outcome.bind]

/-- Witness for C19: a field with JSON tag `-` and a field with XML tag `-`,
both carrying example, validation and description tags, leave a schema with the
properties `-`, `Secret` and `secret` unchanged. -/
theorem parseFields_skipped_field_witness :
    parseFields (embeddedCall sampleGraph 0)
      [mkField "Secret" (.node 0)
        [("json", "-"), ("example", "x"), ("validate", "required,min=1"), ("description", "d")]]
      { Schema.zero with
        properties := [("-", stringProperty), ("Secret", stringProperty),
                       ("secret", stringProperty)] }
      = .ok { Schema.zero with
              properties := [("-", stringProperty), ("Secret", stringProperty),
                             ("secret", stringProperty)] } ∧
    parseFields (embeddedCall sampleGraph 0)
      [mkField "Secret" (.node 0)
        [("json", "secret,omitempty"), ("xml", "-"), ("example", "x"),
         ("validate", "required,min=1"), ("description", "d")]]
      { Schema.zero with
        properties := [("-", stringProperty), ("Secret", stringProperty),
                       ("secret", stringProperty)] }
      = .ok { Schema.zero with
              properties := [("-", stringProperty), ("Secret", stringProperty),
                             ("secret", stringProperty)] } :=
  ⟨(parseFields_skipped_field _ _ _ rfl).1 (by decide),
   (parseFields_skipped_field _ _ _ rfl).2 (by decide) (by
      intro p hp
      have h : p = stringProperty := by
        have e : mapGet [("-", stringProperty), ("Secret", stringProperty),
            ("secret", stringProperty)] "secret" = some stringProperty := rfl
        have hp1 : mapGet [("-", stringProperty), ("Secret", stringProperty),
            ("secret", stringProperty)] "secret" = some p := hp
        rw [e] at hp1
        exact (Option.some.inj hp1).symm
      rw [h]
      simp [stringProperty])⟩

/-- Counterexample to C19 as stated: the embedded field `Base` of `Hidden` has
the JSON tag name `-`, yet processing it annotates the fields of `Base`: `id` is
appended to the required list. -/
theorem parseFields_skipped_field_counterexample :
    sampleGraph.field (.node 18) 0 = some (mkEmbedded "Base" (.node 13) [("json", "-")]) ∧
    jsonTagName (mkEmbedded "Base" (.node 13) [("json", "-")]) = "-" ∧
    ∃ s1,
      parseFields (embeddedCall sampleGraph 1) [mkEmbedded "Base" (.node 13) [("json", "-")]]
        { Schema.zero with
          properties := [("id", { ref := "", value := some { Schema.zero with type := ["integer"] } })] }
        = .ok s1 ∧
      s1.required = ["id"] ∧
      s1.required ≠ Schema.required
        { Schema.zero with
          properties := [("id", { ref := "", value := some { Schema.zero with type := ["integer"] } })] } :=
  ⟨rfl, by decide, _, rfl, rfl, by decide⟩

/-! ## Response descriptor -/

/-- The content built for a list of media types maps exactly these to the
schema reference. -/
theorem NewContentWithSchemaRef_get (schema : SchemaRef) (consumes : List String)
    (mediaType : String) :
    mapGet (NewContentWithSchemaRef schema consumes) mediaType
      = if mediaType ∈ consumes then some schema else none := by
  have h : ∀ (cs : List String) (acc : List (String × SchemaRef)),
      mapGet (cs.foldl (fun content c => mapSet content c schema) acc) mediaType
        = if mediaType ∈ cs then some schema else mapGet acc mediaType := by
    intro cs
    induction cs with
    | nil => intro acc; simp
    | cons c cs ih =>
      intro acc
      simp only [List.foldl_cons, ih, mapGet_mapSet, List.mem_cons]
      by_cases h1 : mediaType ∈ cs
      · simp [h1]
      · by_cases h2 : c = mediaType
        · simp [h2]
        · have h3 : ¬ mediaType = c := fun e => h2 e.symm
          simp [h1, h2, h3]
  have := h consumes []
  simpa [NewContentWithSchemaRef, mapGet] using this

/-- With a nil type `buildOpenapi3Response` panics, whatever the generator and
the state: nothing is derived before. -/
theorem buildOpenapi3Response_nil {σ : Type} (G : TypeGraph) (gen : Generator σ)
    (fuel : Nat) (o : OpenAPI σ) (description : String) (response : Response)
    (h : response.type = none) :
    buildOpenapi3Response G gen fuel o description response = .panic := by
  simp [buildOpenapi3Response, h]

/-- With a type that is not nil `buildOpenapi3Response` derives the schema tag
of the type and, when that returns, returns the response with the description
given whose content maps the content types (`application/xml` when there is
none) to the schema reference of the tag. -/
theorem buildOpenapi3Response_some {σ : Type} (G : TypeGraph) (gen : Generator σ)
    (fuel : Nat) (o : OpenAPI σ) (description : String) (response : Response) (t : RType)
    (h : response.type = some t) :
    buildOpenapi3Response G gen fuel o description response =
      (SchemaTagFromType G gen fuel o (some t)).bind (fun r =>
        .ok ({ description := some description,
               content := NewContentWithSchemaRef r.1.schemaRef
                 (if response.contentTypes = [] then ["application/xml"]
                  else response.contentTypes) }, r.2)) := by
  simp [buildOpenapi3Response, h]

/-- C13, evaluated at a response whose type is the function type
`type Callback func()`: the type is not nil, and `buildOpenapi3Response` panics
all the same, in the schema derivation (`dive` calls `Elem` on the type). -/
theorem buildOpenapi3Response_func_evaluated :
    (Response.mk (some (.node 7)) ["application/json"]).type ≠ none ∧
    sampleGraph.kind (.node 7) = .func ∧
    buildOpenapi3Response sampleGraph (sampleGen sampleGraph) 0 emptyOpenAPI "Health check"
      (Response.mk (some (.node 7)) ["application/json"]) = .panic :=
  ⟨by simp, rfl, rfl⟩

/-! ## XML attribute flag -/

/-- C16, evaluated at a field `Attr` with the XML tag `attr`: the tag has the
name portion `attr` and no options, and the annotator marks the property as an
XML attribute. -/
theorem parseStructTags_attr_evaluated :
    split "attr" ',' = ["attr"] ∧
    ∃ s1 p pv,
      parseStructTags sampleGraph 0 (.node 19)
        { Schema.zero with type := ["object"], properties := [("attr", stringProperty)] }
        = .ok s1 ∧
      mapGet s1.properties "attr" = some p ∧ p.value = some pv ∧
      pv.xml = some { name := "attr", attr := true } :=
  ⟨by decide, _, _, _, rfl, rfl, rfl, rfl⟩

/-! ## `Atoi`: errors, negative literals and conversions -/

/-- `Atoi` in terms of the characters after the optional sign. -/
theorem Atoi_eq (s : String) :
    Atoi s =
      if afterSign s = [] then (0, true)
      else
        match parseUintLoop (afterSign s) 0 with
        | .syntaxError => (0, true)
        | .rangeError => (nearestBound s, true)
        | .value v =>
          if hasMinus s then
            if v > 9223372036854775808 then (-9223372036854775808, true)
            else (-(v : Int), false)
          else
            if v ≥ 9223372036854775808 then (9223372036854775807, true) else ((v : Int), false) := by
  obtain ⟨l⟩ := s
  cases l with
  | nil => rfl
  | cons c r =>
    by_cases h1 : c = '-'
    · subst h1
      simp only [Atoi, afterSign, hasMinus, nearestBound, String.toList, true_or, if_true,
        decide_True]
    · by_cases h2 : c = '+'
      · subst h2
        simp only [Atoi, afterSign, hasMinus, nearestBound, String.toList, or_true, if_true,
          h1, decide_False, Bool.false_eq_true, if_false]
      · simp only [Atoi, afterSign, hasMinus, nearestBound, String.toList, h1, h2, or_self,
          if_false, decide_False, Bool.false_eq_true]

/-- No character after the sign: not a decimal literal, and no value above
`2^64 - 1`. -/
theorem exceedsUint64_of_nil (s : String) (h : afterSign s = []) : exceedsUint64 s = false := by
  simp [exceedsUint64, h, digitPrefix, parseDigits]

/-- A syntax error: on a string that is not a decimal literal and whose digits
after the sign, up to the first character that is not a digit, do not exceed
`2^64 - 1`, `Atoi` reports an error and returns 0. -/
theorem Atoi_syntaxError (s : String) (hl : isDecimalLiteral s = false)
    (ho : exceedsUint64 s = false) : Atoi s = (0, true) := by
  rw [Atoi_eq]
  by_cases hn : afterSign s = []
  · simp [hn]
  · obtain ⟨v, hv⟩ := parseDigits_digitPrefix (afterSign s) 0
    have hle : ¬ v > 18446744073709551615 := by
      simpa [exceedsUint64, hv] using ho
    have hp : digitPrefix (afterSign s) ≠ afterSign s := by
      intro hp
      obtain ⟨n, hn1⟩ := parseDigits_of_digitPrefix (afterSign s) 0 hp
      simp [isDecimalLiteral, hn, hn1] at hl
    simp [hn, parseUintLoop_eq (afterSign s) 0 v (by omega) hv, hle, hp]

/-- A range error of `ParseUint`: when the digits after the sign, up to the
first character that is not a digit, exceed `2^64 - 1`, `Atoi` reports an
error and returns the bound of `int` on the side of the sign. -/
theorem Atoi_overflow (s : String) (ho : exceedsUint64 s = true) :
    Atoi s = (nearestBound s, true) := by
  rw [Atoi_eq]
  have hn : afterSign s ≠ [] := by
    intro hn
    rw [exceedsUint64_of_nil s hn] at ho
    cases ho
  obtain ⟨v, hv⟩ := parseDigits_digitPrefix (afterSign s) 0
  have hgt : v > 18446744073709551615 := by
    simpa [exceedsUint64, hv] using ho
  simp [hn, parseUintLoop_eq (afterSign s) 0 v (by omega) hv, hgt]

/-- A range error on a decimal literal: the bound of `int` on the side of the
sign. -/
theorem Atoi_literal_error (s : String) (hl : isDecimalLiteral s = true)
    (herr : (Atoi s).2 = true) : (Atoi s).1 = nearestBound s := by
  have hn : afterSign s ≠ [] := by
    intro hn
    simp [isDecimalLiteral, hn] at hl
  obtain ⟨n, hd⟩ : ∃ n, parseDigits (afterSign s) 0 = some n := by
    cases hd : parseDigits (afterSign s) 0 with
    | none => simp [isDecimalLiteral, hd] at hl
    | some n => exact ⟨n, rfl⟩
  rw [Atoi_eq] at herr ⊢
  simp only [hn, if_false, parseUintLoop_of_digits (afterSign s) n hd] at herr ⊢
  by_cases h1 : n > 18446744073709551615
  · simp [h1]
  · simp only [h1, if_false] at herr ⊢
    by_cases hm : hasMinus s = true
    · simp only [hm, if_true] at herr ⊢
      by_cases h2 : n > 9223372036854775808
      · simp [h2, nearestBound, hm]
      · simp [h2] at herr
    · simp only [hm, if_false] at herr ⊢
      by_cases h2 : n ≥ 9223372036854775808
      · simp [h2, nearestBound, hm]
      · simp [h2] at herr

/-- The value `Atoi` returns with an error is 0 or a bound of `int`. -/
theorem Atoi_error_value (s : String) (h : (Atoi s).2 = true) :
    (Atoi s).1 = 0 ∨ (Atoi s).1 = 9223372036854775807 ∨ (Atoi s).1 = -9223372036854775808 := by
  by_cases hl : isDecimalLiteral s = true
  · rw [Atoi_literal_error s hl h]
    unfold nearestBound
    split <;> simp
  · by_cases ho : exceedsUint64 s = true
    · rw [Atoi_overflow s ho]
      unfold nearestBound
      split <;> simp
    · rw [Atoi_syntaxError s (by simpa using hl) (by simpa using ho)]
      simp

/-- `Atoi` on a minus sign followed by a decimal literal of a value that is at
most `2^63`. -/
theorem Atoi_negative (la : List Char) (v : Nat) (hne : la ≠ [])
    (hd : parseDigits la 0 = some v) (hv : v ≤ 9223372036854775808) :
    Atoi (String.mk ('-' :: la)) = (-(v : Int), false) := by
  have h1 : ¬ (9223372036854775808 < v) := Nat.not_lt.mpr hv
  have h2 : ¬ (v > 18446744073709551615) := by omega
  simp [Atoi, hne, parseUintLoop_of_digits la v hd, h1, h2]

/-- `Atoi` on a minus sign followed by a decimal literal of a value above
`2^63`: the lower bound of `int`, with an error. -/
theorem Atoi_negative_range (la : List Char) (v : Nat) (hne : la ≠ [])
    (hd : parseDigits la 0 = some v) (hv : 9223372036854775808 < v) :
    Atoi (String.mk ('-' :: la)) = (-9223372036854775808, true) := by
  by_cases h2 : v > 18446744073709551615
  · simp [Atoi, hne, parseUintLoop_of_digits la v hd, h2]
  · simp [Atoi, hne, parseUintLoop_of_digits la v hd, hv, h2]

/-- Conversion of a negative value not below `-2^64` to `uint64`. -/
theorem toUint64_neg (v : Nat) (h0 : 0 < v) (hv : v ≤ 18446744073709551616) :
    toUint64 (-(v : Int)) = 18446744073709551616 - v := by
  unfold toUint64
  have h : (-(v : Int)) % 18446744073709551616 = 18446744073709551616 - (v : Int) := by
    omega
  rw [h]
  omega

/-- A value below `2^53` is its own conversion to `float64`. -/
theorem float64OfInt_exact (n : Nat) (h : n < 9007199254740992) :
    float64OfInt (n : Int) = (n : Int) := by
  have hb : (if n = 0 then 0 else Nat.log2 n + 1) ≤ 53 := by
    by_cases h0 : n = 0
    · simp [h0]
    · simp only [h0, if_false]
      have : Nat.log2 n < 53 := (Nat.log2_lt h0).mpr (by norm_num; exact h)
      omega
  have hn : float64OfNat n = n := by
    unfold float64OfNat
    simp only [hb, if_true]
  have hneg : ¬ ((n : Int) < 0) := by omega
  simp [float64OfInt, hneg, hn]

/-! ## Tag annotator: one `min=` or `max=` directive -/

/-- The argument of `p=X` is `X` when neither `p` nor `X` has a `=`. -/
theorem split_eq_arg (p : List Char) (X : String) (hp : '=' ∉ p) (hX : '=' ∉ X.toList) :
    (split (String.mk (p ++ '=' :: X.toList)) '=')[1]? = some X := by
  obtain ⟨lx⟩ := X
  have hx : '=' ∉ lx := hX
  show ((splitChars '=' (p ++ '=' :: lx)).map String.mk)[1]? = _
  rw [splitChars_append_sep '=' _ _ hp, splitChars_of_not_mem '=' _ hx]
  rfl

/-- The `min=` branch on the directive `min=X`: the bound is set from the value
`Atoi` returns for `X`, whether or not it reports an error. -/
theorem applyMin_arg (pv : Schema) (X : String) (hX : '=' ∉ X.toList) :
    applyMin pv ("min=" ++ X) =
      .ok (if pv.typeIs "integer" = true then { pv with min := some (float64OfInt (Atoi X).1) }
           else if pv.typeIs "string" = true then { pv with minLength := toUint64 (Atoi X).1 }
           else pv) := by
  have hpre : hasPrefix ("min=" ++ X) "min=" = true := by
    obtain ⟨lx⟩ := X
    show List.isPrefixOf ['m', 'i', 'n', '='] ('m' :: 'i' :: 'n' :: '=' :: lx) = true
    simp [List.isPrefixOf]
  have hsp : (split ("min=" ++ X) '=')[1]? = some X :=
    split_eq_arg ['m', 'i', 'n'] X (by decide) hX
  simp only [applyMin, hpre, if_true, hsp]
  split <;> (try split) <;> rfl

/-- The `max=` branch on the directive `max=X`, likewise. -/
theorem applyMax_arg (pv : Schema) (X : String) (hX : '=' ∉ X.toList) :
    applyMax pv ("max=" ++ X) =
      .ok (if pv.typeIs "integer" = true then { pv with max := some (float64OfInt (Atoi X).1) }
           else if pv.typeIs "string" = true then
             { pv with maxLength := some (toUint64 (Atoi X).1) }
           else pv) := by
  have hpre : hasPrefix ("max=" ++ X) "max=" = true := by
    obtain ⟨lx⟩ := X
    show List.isPrefixOf ['m', 'a', 'x', '='] ('m' :: 'a' :: 'x' :: '=' :: lx) = true
    simp [List.isPrefixOf]
  have hsp : (split ("max=" ++ X) '=')[1]? = some X :=
    split_eq_arg ['m', 'a', 'x'] X (by decide) hX
  simp only [applyMax, hpre, if_true, hsp]
  split <;> (try split) <;> rfl

/-- The loop over the single directive `min=X`. -/
theorem applyDirectives_min (pv : Schema) (X : String) (hX : '=' ∉ X.toList) :
    applyDirectives ["min=" ++ X] pv =
      .ok (if pv.typeIs "integer" = true then { pv with min := some (float64OfInt (Atoi X).1) }
           else if pv.typeIs "string" = true then { pv with minLength := toUint64 (Atoi X).1 }
           else pv) := by
  obtain ⟨lx⟩ := X
  simp only [applyDirectives, applyMin_arg pv (String.mk lx) hX, Outcome.bind, applyMax_min]

/-- The loop over the single directive `max=X`. -/
theorem applyDirectives_max (pv : Schema) (X : String) (hX : '=' ∉ X.toList) :
    applyDirectives ["max=" ++ X] pv =
      .ok (if pv.typeIs "integer" = true then { pv with max := some (float64OfInt (Atoi X).1) }
           else if pv.typeIs "string" = true then
             { pv with maxLength := some (toUint64 (Atoi X).1) }
           else pv) := by
  obtain ⟨lx⟩ := X
  simp only [applyDirectives, applyMin_max, Outcome.bind, applyMax_arg pv (String.mk lx) hX]

/-- An integer-typed schema is not string-typed. -/
theorem typeIs_string_of_integer (pv : Schema) (h : pv.typeIs "integer" = true) :
    pv.typeIs "string" = false := by
  simp only [Schema.typeIs, decide_eq_true_eq] at h
  simp [Schema.typeIs, h]

/-- A string-typed schema is not integer-typed. -/
theorem typeIs_integer_of_string (pv : Schema) (h : pv.typeIs "string" = true) :
    pv.typeIs "integer" = false := by
  simp only [Schema.typeIs, decide_eq_true_eq] at h
  simp [Schema.typeIs, h]

/-- C15 as the code has it: a directive `min=X` or `max=X` (`X` without `=`) for
which `Atoi` reports an error is not ignored but applied with the value `v`
that `Atoi` returns along with the error.  On a syntax error, where `X` is not
a decimal literal and its digits after the sign, up to the first character
that is not a digit, do not exceed `2^64 - 1`, `v` is 0; on a range error, where
`X` is a decimal literal or those digits exceed `2^64 - 1`, `v` is the bound of
`int` on the side of the sign, `-2^63` when `X` begins with `-` and `2^63 - 1`
otherwise.  On an integer-typed property the numeric minimum, respectively
maximum, becomes `float64(v)`; on a string-typed property `minLength`,
respectively `maxLength`, becomes `uint64(v)`; for any other type the property
is left as it is. -/
theorem applyDirectives_parse_error (pv : Schema) (X : String) (hX : '=' ∉ X.toList)
    (herr : (Atoi X).2 = true) :
    (isDecimalLiteral X = false → exceedsUint64 X = false → (Atoi X).1 = 0) ∧
    (isDecimalLiteral X = true ∨ exceedsUint64 X = true →
      (Atoi X).1 = if hasMinus X = true then -9223372036854775808 else 9223372036854775807) ∧
    (pv.typeIs "integer" = true →
      applyDirectives ["min=" ++ X] pv
        = .ok { pv with min := some (float64OfInt (Atoi X).1) } ∧
      applyDirectives ["max=" ++ X] pv
        = .ok { pv with max := some (float64OfInt (Atoi X).1) }) ∧
    (pv.typeIs "string" = true →
      applyDirectives ["min=" ++ X] pv = .ok { pv with minLength := toUint64 (Atoi X).1 } ∧
      applyDirectives ["max=" ++ X] pv
        = .ok { pv with maxLength := some (toUint64 (Atoi X).1) }) ∧
    (pv.typeIs "integer" = false → pv.typeIs "string" = false →
      applyDirectives ["min=" ++ X] pv = .ok pv ∧
      applyDirectives ["max=" ++ X] pv = .ok pv) := by
  rw [applyDirectives_min pv X hX, applyDirectives_max pv X hX]
  refine ⟨fun hl ho => ?_, fun h => ?_, fun hi => ?_, fun hs => ?_, fun hi hs => ?_⟩
  · rw [Atoi_syntaxError X hl ho]
  · rcases h with hl | ho
    · exact Atoi_literal_error X hl herr
    · rw [Atoi_overflow X ho]
      rfl
  · simp [hi]
  · simp [typeIs_integer_of_string pv hs, hs]
  · simp [hi, hs]

/-- Witness for C15 on a string-typed property without length bounds: `max=abc`
and `min=` (syntax errors) set `maxLength`, respectively `minLength`, to 0;
`max=99999999999999999999x` and `max=9223372036854775808` (range errors) set
`maxLength` to `2^63 - 1`, and `min=-9223372036854775809` sets `minLength` to
`2^63`, the bound `-2^63` as a `uint64`. -/
theorem applyDirectives_parse_error_witness :
    applyDirectives ["max=abc"] { Schema.zero with type := ["string"] }
      = .ok { Schema.zero with type := ["string"], maxLength := some 0 } ∧
    applyDirectives ["min="] { Schema.zero with type := ["string"] }
      = .ok { Schema.zero with type := ["string"], minLength := 0 } ∧
    (Atoi "abc").1 = 0 ∧
    applyDirectives ["max=99999999999999999999x"] { Schema.zero with type := ["string"] }
      = .ok { Schema.zero with type := ["string"], maxLength := some 9223372036854775807 } ∧
    (Atoi "99999999999999999999x").1 = 9223372036854775807 ∧
    (Atoi "9223372036854775808").1 = 9223372036854775807 ∧
    (Atoi "-9223372036854775809").1 = -9223372036854775808 ∧
    applyDirectives ["min=-9223372036854775809"] { Schema.zero with type := ["string"] }
      = .ok { Schema.zero with type := ["string"], minLength := 9223372036854775808 } :=
  ⟨((applyDirectives_parse_error { Schema.zero with type := ["string"] } "abc"
      (by decide) rfl).2.2.2.1 rfl).2,
   ((applyDirectives_parse_error { Schema.zero with type := ["string"] } ""
      (by decide) rfl).2.2.2.1 rfl).1,
   (applyDirectives_parse_error { Schema.zero with type := ["string"] } "abc"
      (by decide) rfl).1 rfl rfl,
   ((applyDirectives_parse_error { Schema.zero with type := ["string"] }
      "99999999999999999999x" (by decide) rfl).2.2.2.1 rfl).2,
   (applyDirectives_parse_error { Schema.zero with type := ["string"] }
      "99999999999999999999x" (by decide) rfl).2.1 (Or.inr rfl),
   (applyDirectives_parse_error { Schema.zero with type := ["string"] }
      "9223372036854775808" (by decide) rfl).2.1 (Or.inl rfl),
   (applyDirectives_parse_error { Schema.zero with type := ["string"] }
      "-9223372036854775809" (by decide) rfl).2.1 (Or.inl rfl),
   ((applyDirectives_parse_error { Schema.zero with type := ["string"] }
      "-9223372036854775809" (by decide) rfl).2.2.2.1 rfl).1⟩

/-- Counterexample to C15 as stated: the field `Name` with the validation tag
`max=abc` is annotated on the string-typed property `name`, which has no
`maxLength` before; afterwards its `maxLength` is 0. -/
theorem applyDirectives_parse_error_counterexample :
    (Atoi "abc").2 = true ∧
    (stringProperty.value.map (fun v => v.maxLength)) = some none ∧
    ∃ s1 p pv,
      parseField (mkField "Name" (.node 0) [("json", "name"), ("validate", "max=abc")])
        { Schema.zero with type := ["object"], properties := [("name", stringProperty)] }
        = .ok s1 ∧
      mapGet s1.properties "name" = some p ∧ p.value = some pv ∧ pv.maxLength = some 0 :=
  ⟨rfl, rfl, _, _, _, rfl, rfl, rfl, rfl⟩

/-! ## Tag annotator: integer literals in `min=` and `max=` -/

/-- The conversion of `2^53 + 1` to `float64` rounds to `2^53`. -/
theorem float64OfInt_round :
    float64OfInt ((9007199254740993 : Nat) : Int) = 9007199254740992 := by
  have h0 : (9007199254740993 : Nat) ≠ 0 := by decide
  have h1 : Nat.log2 9007199254740993 < 54 := (Nat.log2_lt h0).mpr (by norm_num)
  have h2 : 53 ≤ Nat.log2 9007199254740993 := (Nat.le_log2 h0).mpr (by norm_num)
  have hl : Nat.log2 9007199254740993 = 53 := by omega
  have hn : float64OfNat 9007199254740993 = 9007199254740992 := by
    unfold float64OfNat
    rw [hl]
    norm_num
  unfold float64OfInt
  simp [hn]

/-- C17 as the code has it: let `N` be a decimal literal of a value `n` below
`2^63` (the range of `int`).  A directive `min=N` or `max=N` on an
integer-typed property sets the numeric minimum, respectively maximum, to
`float64(n)`, which is `n` when `n < 2^53`, and leaves the length bounds; on a
string-typed property it sets `minLength`, respectively `maxLength`, to `n`
and leaves the numeric bounds; for any other type the property is left as it
is. -/
theorem applyDirectives_literal (pv : Schema) (la : List Char) (n : Nat) (hne : la ≠ [])
    (hd : parseDigits la 0 = some n) (hr : n < 9223372036854775808) :
    (pv.typeIs "integer" = true →
      applyDirectives ["min=" ++ String.mk la] pv
        = .ok { pv with min := some (float64OfInt (n : Int)) } ∧
      applyDirectives ["max=" ++ String.mk la] pv
        = .ok { pv with max := some (float64OfInt (n : Int)) } ∧
      (n < 9007199254740992 → float64OfInt (n : Int) = (n : Int))) ∧
    (pv.typeIs "string" = true →
      applyDirectives ["min=" ++ String.mk la] pv = .ok { pv with minLength := n } ∧
      applyDirectives ["max=" ++ String.mk la] pv = .ok { pv with maxLength := some n }) ∧
    (pv.typeIs "integer" = false → pv.typeIs "string" = false →
      applyDirectives ["min=" ++ String.mk la] pv = .ok pv ∧
      applyDirectives ["max=" ++ String.mk la] pv = .ok pv) := by
  have hX : '=' ∉ (String.mk la).toList := not_mem_of_parseDigits la n hd '=' rfl
  have hat : Atoi (String.mk la) = ((n : Int), false) := Atoi_decimal (String.mk la) n hne hd hr
  have hu : toUint64 (n : Int) = n := toUint64_natCast n (by omega)
  rw [applyDirectives_min pv _ hX, applyDirectives_max pv _ hX, hat]
  refine ⟨fun hi => ?_, fun hs => ?_, fun hi hs => ?_⟩
  · simp only [hi, if_true]
    exact ⟨trivial, trivial, float64OfInt_exact n⟩
  · simp [typeIs_integer_of_string pv hs, hs, hu]
  · simp [hi, hs]

/-- Witness for C17: `min=3` on an integer-typed property and `max=30` on a
string-typed one. -/
theorem applyDirectives_literal_witness :
    applyDirectives ["min=3"] { Schema.zero with type := ["integer"] }
      = .ok { Schema.zero with type := ["integer"], min := some (float64OfInt 3) } ∧
    float64OfInt 3 = 3 ∧
    applyDirectives ["max=30"] { Schema.zero with type := ["string"] }
      = .ok { Schema.zero with type := ["string"], maxLength := some 30 } :=
  ⟨((applyDirectives_literal { Schema.zero with type := ["integer"] } ['3'] 3
      (by decide) rfl (by decide)).1 rfl).1,
   ((applyDirectives_literal { Schema.zero with type := ["integer"] } ['3'] 3
      (by decide) rfl (by decide)).1 rfl).2.2 (by decide),
   ((applyDirectives_literal { Schema.zero with type := ["string"] } ['3', '0'] 30
      (by decide) rfl (by decide)).2.1 rfl).2⟩

/-- Counterexample to C17 as stated: on a string-typed property `min=N` with
`N = 2^63` sets `minLength` to `2^63 - 1`, and on an integer-typed property
`max=N` with `N = 2^53 + 1` sets the maximum to `2^53`. -/
theorem applyDirectives_literal_counterexample :
    applyDirectives ["min=9223372036854775808"] { Schema.zero with type := ["string"] }
      = .ok { Schema.zero with type := ["string"], minLength := 9223372036854775807 } ∧
    applyDirectives ["max=9007199254740993"] { Schema.zero with type := ["integer"] }
      = .ok { Schema.zero with type := ["integer"], max := some 9007199254740992 } := by
  refine ⟨rfl, ?_⟩
  have hf : float64OfInt ((9007199254740993 : Nat) : Int) = 9007199254740992 :=
    float64OfInt_round
  have h := applyDirectives_max { Schema.zero with type := ["integer"] } "9007199254740993"
    (by decide)
  have hat : Atoi "9007199254740993" = (((9007199254740993 : Nat) : Int), false) :=
    Atoi_decimal "9007199254740993" 9007199254740993 (by decide) rfl (by decide)
  rw [hat, hf] at h
  exact h

/-- C20 as the code has it: on a string-typed property a directive `min=-D` or
`max=-D`, with `D` a decimal literal of a value `v > 0`, sets `minLength`,
respectively `maxLength`, to `2^64 - v` when `v ≤ 2^63`, and to `2^63` (the
bound `-2^63` of `int` reduced modulo `2^64`) when `v > 2^63`. -/
theorem applyDirectives_negative (pv : Schema) (la : List Char) (v : Nat) (hne : la ≠ [])
    (hd : parseDigits la 0 = some v) (h0 : 0 < v) (ht : pv.typeIs "string" = true) :
    applyDirectives ["min=" ++ String.mk ('-' :: la)] pv
      = .ok { pv with minLength := 18446744073709551616 - min v 9223372036854775808 } ∧
    applyDirectives ["max=" ++ String.mk ('-' :: la)] pv
      = .ok { pv with
              maxLength := some (18446744073709551616 - min v 9223372036854775808) } := by
  have hX : '=' ∉ (String.mk ('-' :: la)).toList := by
    have h1 : '=' ∉ la := not_mem_of_parseDigits la v hd '=' rfl
    show '=' ∉ '-' :: la
    simp [h1]
  have hu : toUint64 (Atoi (String.mk ('-' :: la))).1
      = 18446744073709551616 - min v 9223372036854775808 := by
    by_cases hv : v ≤ 9223372036854775808
    · rw [Atoi_negative la v hne hd hv, Nat.min_eq_left hv]
      exact toUint64_neg v h0 (by omega)
    · rw [Atoi_negative_range la v hne hd (by omega), Nat.min_eq_right (by omega)]
      decide
  rw [applyDirectives_min pv _ hX, applyDirectives_max pv _ hX, hu]
  simp [typeIs_integer_of_string pv ht, ht]

/-- Witness for C20: `min=-1` on a string-typed property gives `minLength`
18446744073709551615. -/
theorem applyDirectives_negative_witness :
    applyDirectives ["min=-1"] { Schema.zero with type := ["string"] }
      = .ok { Schema.zero with type := ["string"], minLength := 18446744073709551615 } :=
  (applyDirectives_negative { Schema.zero with type := ["string"] } ['1'] 1
    (by decide) rfl (by decide) rfl).1

/-- Counterexample to C20 as stated: for `N = -(2^63 + 1)` the directive `min=N`
on a string-typed property sets `minLength` to `2^63`, whereas
`2^64 - |N| = 2^63 - 1`. -/
theorem applyDirectives_negative_counterexample :
    applyDirectives ["min=-9223372036854775809"] { Schema.zero with type := ["string"] }
      = .ok { Schema.zero with type := ["string"], minLength := 9223372036854775808 } ∧
    18446744073709551616 - 9223372036854775809 ≠ 9223372036854775808 :=
  ⟨rfl, by decide⟩

/-! ## Tag annotator: the example -/

/-- The `min=` branch leaves the example as it is. -/
theorem applyMin_exampleValue (pv pv1 : Schema) (d : String) (h : applyMin pv d = .ok pv1) :
    pv1.exampleValue = pv.exampleValue := by
  unfold applyMin at h
  split at h
  · split at h
    · cases h
    · simp only [] at h
      split at h
      · cases h
        rfl
      · split at h <;> cases h <;> rfl
  · cases h
    rfl

/-- The `max=` branch leaves the example as it is. -/
theorem applyMax_exampleValue (pv pv1 : Schema) (d : String) (h : applyMax pv d = .ok pv1) :
    pv1.exampleValue = pv.exampleValue := by
  unfold applyMax at h
  split at h
  · split at h
    · cases h
    · simp only [] at h
      split at h
      · cases h
        rfl
      · split at h <;> cases h <;> rfl
  · cases h
    rfl

/-- The loop over the validation directives leaves the example as it is. -/
theorem applyDirectives_exampleValue (ds : List String) (pv pv1 : Schema)
    (h : applyDirectives ds pv = .ok pv1) : pv1.exampleValue = pv.exampleValue := by
  induction ds generalizing pv with
  | nil =>
    cases h
    rfl
  | cons d ds ih =>
    obtain ⟨pa, ha, -⟩ := applyMin_ok pv d
    obtain ⟨pb, hb, -⟩ := applyMax_ok pa d
    simp only [applyDirectives, ha, hb, Outcome.bind] at h
    rw [ih pb h, applyMax_exampleValue pa pb d hb, applyMin_exampleValue pv pa d ha]

/-- The example block on a field with an example tag. -/
theorem applyExample_tag (f : StructField) (pv : Schema) (ex : String)
    (he : f.tagLookup "example" = some ex) :
    (applyExample f pv).exampleValue
      = if pv.typeIs "integer" = true then .int (Atoi ex).1 else .str ex := by
  unfold applyExample
  rw [he]
  simp only []
  split <;> rfl

/-- C18 as the code has it: let a field that is not embedded have an example
tag with literal `ex`, a JSON name other than `-` and no XML tag with name
`-`, and let its property be located and carry a schema object.  Then the loop
body returns and, in the schema it leaves, the example of the property is the
string `ex` if the property is not integer-typed, and the integer that `Atoi`
returns for `ex` if it is integer-typed: `n` for a decimal literal of a value
`n < 2^63`; 0 on a syntax error, where `ex` is not a decimal literal and its
digits after the sign, up to the first character that is not a digit, do not
exceed `2^64 - 1`; and on a range error, where `Atoi` reports an error on a
decimal literal or those digits exceed `2^64 - 1`, the bound of `int` on the
side of the sign, `-2^63` when `ex` begins with `-` and `2^63 - 1` otherwise. -/
theorem parseField_example (f : StructField) (s : Schema) (p : SchemaRef) (pv : Schema)
    (ex : String) (hj : jsonTagName f ≠ "-")
    (hp : mapGet s.properties (resolvedName f) = some p) (hv : p.value = some pv)
    (hx : xmlSkipped f = false) (he : f.tagLookup "example" = some ex) :
    ∃ s1 p1 pv1, parseField f s = .ok s1 ∧
      mapGet s1.properties (resolvedName f) = some p1 ∧ p1.value = some pv1 ∧
      (pv.typeIs "integer" = false → pv1.exampleValue = .str ex) ∧
      (pv.typeIs "integer" = true →
        pv1.exampleValue = .int (Atoi ex).1 ∧
        (∀ n, ex.toList ≠ [] → parseDigits ex.toList 0 = some n → n < 9223372036854775808 →
          (Atoi ex).1 = (n : Int)) ∧
        (isDecimalLiteral ex = false → exceedsUint64 ex = false → (Atoi ex).1 = 0) ∧
        ((isDecimalLiteral ex = true ∧ (Atoi ex).2 = true) ∨ exceedsUint64 ex = true →
          (Atoi ex).1
            = if hasMinus ex = true then -9223372036854775808 else 9223372036854775807)) := by
  cases hxa : applyXML f pv with
  | none =>
    rw [(applyXML_eq_none_iff f pv).mp hxa] at hx
    cases hx
  | some pva =>
    obtain ⟨pv3, h3, -, hpf⟩ := parseField_located f s p pv pva hj hp hv hxa
    have hty : pva.typeIs "integer" = pv.typeIs "integer" := by
      simp only [Schema.typeIs, applyXML_type f pv pva hxa]
    have hex : (applyDescription f pv3).exampleValue
        = if pv.typeIs "integer" = true then .int (Atoi ex).1 else .str ex := by
      rw [(applyDescription_keeps f pv3).2.2.2, applyDirectives_exampleValue _ _ _ h3,
        applyExample_tag f pva ex he, hty]
    refine ⟨_, { p with value := some (applyDescription f pv3) }, applyDescription f pv3,
      hpf, mapGet_mapSet_self _ _ _, rfl, fun hi => ?_, fun hi => ⟨?_, ?_, ?_, ?_⟩⟩
    · rw [hex]
      simp [hi]
    · rw [hex]
      simp [hi]
    · intro n hne hd hr
      rw [Atoi_decimal ex n hne hd hr]
    · intro hlit ho
      rw [Atoi_syntaxError ex hlit ho]
    · intro h
      rcases h with ⟨hl, herr⟩ | ho
      · exact Atoi_literal_error ex hl herr
      · rw [Atoi_overflow ex ho]
        rfl

/-- Witness for C18: the field `Name` with the example `Carmack` on the
string-typed property `name` gives the example string `Carmack`; the field
`Age` on the integer-typed property `age` gives the example 42 for the literal
`42`, 0 for `abc`, and `2^63 - 1` for `99999999999999999999x` and for
`9223372036854775808`. -/
theorem parseField_example_witness :
    (∃ s1 p1 pv1,
      parseField (mkField "Name" (.node 0) [("json", "name"), ("example", "Carmack")])
        { Schema.zero with type := ["object"], properties := [("name", stringProperty)] }
        = .ok s1 ∧
      mapGet s1.properties "name" = some p1 ∧ p1.value = some pv1 ∧
      pv1.exampleValue = .str "Carmack") ∧
    (∃ s1 p1 pv1,
      parseField (mkField "Age" (.node 5) [("json", "age"), ("example", "42")])
        { Schema.zero with type := ["object"], properties := [("age", integerProperty)] }
        = .ok s1 ∧
      mapGet s1.properties "age" = some p1 ∧ p1.value = some pv1 ∧
      pv1.exampleValue = .int (Atoi "42").1 ∧ (Atoi "42").1 = 42) ∧
    (∃ s1 p1 pv1,
      parseField (mkField "Age" (.node 5) [("json", "age"), ("example", "abc")])
        { Schema.zero with type := ["object"], properties := [("age", integerProperty)] }
        = .ok s1 ∧
      mapGet s1.properties "age" = some p1 ∧ p1.value = some pv1 ∧
      pv1.exampleValue = .int (Atoi "abc").1 ∧ (Atoi "abc").1 = 0) ∧
    (∃ s1 p1 pv1,
      parseField
        (mkField "Age" (.node 5) [("json", "age"), ("example", "99999999999999999999x")])
        { Schema.zero with type := ["object"], properties := [("age", integerProperty)] }
        = .ok s1 ∧
      mapGet s1.properties "age" = some p1 ∧ p1.value = some pv1 ∧
      pv1.exampleValue = .int (Atoi "99999999999999999999x").1 ∧
      (Atoi "99999999999999999999x").1 = 9223372036854775807) ∧
    (∃ s1 p1 pv1,
      parseField
        (mkField "Age" (.node 5) [("json", "age"), ("example", "9223372036854775808")])
        { Schema.zero with type := ["object"], properties := [("age", integerProperty)] }
        = .ok s1 ∧
      mapGet s1.properties "age" = some p1 ∧ p1.value = some pv1 ∧
      pv1.exampleValue = .int (Atoi "9223372036854775808").1 ∧
      (Atoi "9223372036854775808").1 = 9223372036854775807) := by
  refine ⟨?_, ?_, ?_, ?_, ?_⟩
  · obtain ⟨s1, p1, pv1, h1, h2, h3, h4, -⟩ :=
      parseField_example (mkField "Name" (.node 0) [("json", "name"), ("example", "Carmack")])
        { Schema.zero with type := ["object"], properties := [("name", stringProperty)] }
        stringProperty { Schema.zero with type := ["string"] } "Carmack"
        (by decide) rfl rfl rfl rfl
    exact ⟨s1, p1, pv1, h1, h2, h3, h4 rfl⟩
  · obtain ⟨s1, p1, pv1, h1, h2, h3, -, h5⟩ :=
      parseField_example (mkField "Age" (.node 5) [("json", "age"), ("example", "42")])
        { Schema.zero with type := ["object"], properties := [("age", integerProperty)] }
        integerProperty { Schema.zero with type := ["integer"] } "42"
        (by decide) rfl rfl rfl rfl
    exact ⟨s1, p1, pv1, h1, h2, h3, (h5 rfl).1, (h5 rfl).2.1 42 (by decide) rfl (by decide)⟩
  · obtain ⟨s1, p1, pv1, h1, h2, h3, -, h5⟩ :=
      parseField_example (mkField "Age" (.node 5) [("json", "age"), ("example", "abc")])
        { Schema.zero with type := ["object"], properties := [("age", integerProperty)] }
        integerProperty { Schema.zero with type := ["integer"] } "abc"
        (by decide) rfl rfl rfl rfl
    exact ⟨s1, p1, pv1, h1, h2, h3, (h5 rfl).1, (h5 rfl).2.2.1 rfl rfl⟩
  · obtain ⟨s1, p1, pv1, h1, h2, h3, -, h5⟩ :=
      parseField_example
        (mkField "Age" (.node 5) [("json", "age"), ("example", "99999999999999999999x")])
        { Schema.zero with type := ["object"], properties := [("age", integerProperty)] }
        integerProperty { Schema.zero with type := ["integer"] } "99999999999999999999x"
        (by decide) rfl rfl rfl rfl
    exact ⟨s1, p1, pv1, h1, h2, h3, (h5 rfl).1, (h5 rfl).2.2.2 (Or.inr rfl)⟩
  · obtain ⟨s1, p1, pv1, h1, h2, h3, -, h5⟩ :=
      parseField_example
        (mkField "Age" (.node 5) [("json", "age"), ("example", "9223372036854775808")])
        { Schema.zero with type := ["object"], properties := [("age", integerProperty)] }
        integerProperty { Schema.zero with type := ["integer"] } "9223372036854775808"
        (by decide) rfl rfl rfl rfl
    exact ⟨s1, p1, pv1, h1, h2, h3, (h5 rfl).1, (h5 rfl).2.2.2 (Or.inl ⟨rfl, rfl⟩)⟩

/-- Counterexample to C18 as stated: the field `Name` with the example `Carmack`
and the XML tag `-` leaves the located string-typed property `name` without an
example; and on an integer-typed property the example literal
`9223372036854775808`, for which `Atoi` reports an error, gives the example
9223372036854775807. -/
theorem parseField_example_counterexample :
    (∃ s1 p1 pv1,
      parseField
        (mkField "Name" (.node 0) [("json", "name"), ("xml", "-"), ("example", "Carmack")])
        { Schema.zero with type := ["object"], properties := [("name", stringProperty)] }
        = .ok s1 ∧
      mapGet s1.properties "name" = some p1 ∧ p1.value = some pv1 ∧
      pv1.exampleValue = .absent) ∧
    (Atoi "9223372036854775808").2 = true ∧
    (∃ s1 p1 pv1,
      parseField
        (mkField "Age" (.node 5) [("json", "age"), ("example", "9223372036854775808")])
        { Schema.zero with type := ["object"], properties := [("age", integerProperty)] }
        = .ok s1 ∧
      mapGet s1.properties "age" = some p1 ∧ p1.value = some pv1 ∧
      pv1.exampleValue = .int 9223372036854775807) :=
  ⟨⟨_, _, _, rfl, rfl, rfl, rfl⟩, rfl, ⟨_, _, _, rfl, rfl, rfl, rfl⟩⟩

end Oapi
